import Mathlib

/-!
# Azure Kinect controller: capture pipeline, verified against `utils.hpp` and `main.cpp`

Shallow embedding of the device start/stop sequencing, the Start Streaming
handler, the recording gate of the capture dispatch loop, the display queues,
the frame processor, the recording files, the loading and saving of a
configuration, the worker count and the enabled-device update of the main loop.

Conventions of the embedding

* `std::vector<T>` is a `List T`; `v[i]` is `v[i]?`, and an index past the end
  (undefined behaviour in C++) is the explicit outcome `Fault.undefined`.
* A C++ exception in flight is an explicit outcome (`Fault.k4a_error`).
* Calls into the camera SDK are recorded in order in a list of `Call`s; the
  outcome of an SDK call that may throw is an argument of the function.
* Enumerations of the SDK are their underlying integers (`Int`), since the
  program stores arbitrary integers in them through `static_cast`.
-/

namespace AzureKinect

/-! ## SDK enumerations and the device configuration -/

/-- Value of `K4A_WIRED_SYNC_MODE_STANDALONE` (index of "Standalone" in `SYNC_MODE_NAMES`). -/
def K4A_WIRED_SYNC_MODE_STANDALONE : Int := 0
/-- Value of `K4A_WIRED_SYNC_MODE_MASTER` (index of "Master" in `SYNC_MODE_NAMES`). -/
def K4A_WIRED_SYNC_MODE_MASTER : Int := 1
/-- Value of `K4A_WIRED_SYNC_MODE_SUBORDINATE` (index of "Subordinate" in `SYNC_MODE_NAMES`). -/
def K4A_WIRED_SYNC_MODE_SUBORDINATE : Int := 2

/-- Value of `K4A_IMAGE_FORMAT_COLOR_MJPG` (index of "MJPG" in `COLOR_FORMAT_NAMES`). -/
def K4A_IMAGE_FORMAT_COLOR_MJPG : Int := 0
/-- Value of `K4A_IMAGE_FORMAT_COLOR_NV12`. -/
def K4A_IMAGE_FORMAT_COLOR_NV12 : Int := 1
/-- Value of `K4A_IMAGE_FORMAT_COLOR_YUY2`. -/
def K4A_IMAGE_FORMAT_COLOR_YUY2 : Int := 2
/-- Value of `K4A_IMAGE_FORMAT_COLOR_BGRA32` (index of "BGRA32" in `COLOR_FORMAT_NAMES`). -/
def K4A_IMAGE_FORMAT_COLOR_BGRA32 : Int := 3

/-- Value of `K4A_COLOR_RESOLUTION_2160P` (index of "2160p" in `COLOR_RESOLUTION_NAMES`). -/
def K4A_COLOR_RESOLUTION_2160P : Int := 5
/-- Value of `K4A_DEPTH_MODE_NFOV_UNBINNED` (index of "NFOV Unbinned" in `DEPTH_MODE_NAMES`). -/
def K4A_DEPTH_MODE_NFOV_UNBINNED : Int := 2
/-- Value of `K4A_DEPTH_MODE_PASSIVE_IR` (index of "Passive IR" in `DEPTH_MODE_NAMES`). -/
def K4A_DEPTH_MODE_PASSIVE_IR : Int := 5
/-- Value of `K4A_FRAMES_PER_SECOND_30` (index of "30" in `FPS_MODE_NAMES`). -/
def K4A_FRAMES_PER_SECOND_30 : Int := 2

/-- The SDK record `k4a_device_configuration_t`, fields in declaration order. -/
structure k4a_device_configuration_t where
  color_format : Int
  color_resolution : Int
  depth_mode : Int
  camera_fps : Int
  synchronized_images_only : Bool
  depth_delay_off_color_usec : Int
  wired_sync_mode : Int
  subordinate_delay_off_master_usec : Nat
  disable_streaming_indicator : Bool
deriving DecidableEq, Repr

/-- Default streaming config (`DEFAULT_CONFIG`). -/
def DEFAULT_CONFIG : k4a_device_configuration_t :=
  { color_format := K4A_IMAGE_FORMAT_COLOR_MJPG
    color_resolution := K4A_COLOR_RESOLUTION_2160P
    depth_mode := K4A_DEPTH_MODE_NFOV_UNBINNED
    camera_fps := K4A_FRAMES_PER_SECOND_30
    synchronized_images_only := false
    depth_delay_off_color_usec := 0
    wired_sync_mode := K4A_WIRED_SYNC_MODE_STANDALONE
    subordinate_delay_off_master_usec := 0
    disable_streaming_indicator := false }

/-- Max number of images to keep in display queues (`IMG_QUEUE_SIZE`). -/
def IMG_QUEUE_SIZE : Nat := 3

/-- Streaming start order (`DEVICE_STREAMING_START_ORDER`). -/
def DEVICE_STREAMING_START_ORDER : List Int :=
  [K4A_WIRED_SYNC_MODE_STANDALONE, K4A_WIRED_SYNC_MODE_SUBORDINATE, K4A_WIRED_SYNC_MODE_MASTER]

/-- Streaming stop order (`DEVICE_STREAMING_STOP_ORDER`). -/
def DEVICE_STREAMING_STOP_ORDER : List Int :=
  [K4A_WIRED_SYNC_MODE_MASTER, K4A_WIRED_SYNC_MODE_SUBORDINATE, K4A_WIRED_SYNC_MODE_STANDALONE]

/-! ## Devices, SDK calls and outcomes -/

/-- An open `k4a::device` handle; `index` is the installed-device index it was opened with. -/
structure device where
  index : Nat
deriving DecidableEq, Repr

/-- A device-level SDK call; the argument is the position `i` of the handle in `devices`. -/
inductive Call where
  | start_cameras (i : Nat)
  | stop_cameras (i : Nat)
deriving DecidableEq, Repr

/-- Abnormal outcomes: a `k4a::error` exception in flight, or undefined behaviour (a vector
index past the end, a null pointer dereferenced). -/
inductive Fault where
  | k4a_error
  | undefined
deriving DecidableEq, Repr

/-! ## `start_streaming` and `stop_streaming` -/

/-- Inner loop of `start_streaming` for one `wired_sync_mode`, over the device positions still
to visit. `start_ok i` tells whether `devices[i].start_cameras` returns (it throws otherwise).
The result is the calls issued and the fault that ended the loop, if any. -/
def start_streaming_devices (start_ok : Nat → Bool) (configs : List k4a_device_configuration_t)
    (wired_sync_mode : Int) : List Nat → List Call × Option Fault
  | [] => ([], none)
  | i :: rest =>
    match configs[i]? with
    | none => ([], some Fault.undefined)
    | some c =>
      if c.wired_sync_mode = wired_sync_mode then
        if start_ok i then
          let r := start_streaming_devices start_ok configs wired_sync_mode rest
          (Call.start_cameras i :: r.1, r.2)
        else ([Call.start_cameras i], some Fault.k4a_error)
      else start_streaming_devices start_ok configs wired_sync_mode rest

/-- Outer loop of `start_streaming` over the sync modes still to visit; `n` is `devices.size()`. -/
def start_streaming_modes (start_ok : Nat → Bool) (configs : List k4a_device_configuration_t)
    (n : Nat) : List Int → List Call × Option Fault
  | [] => ([], none)
  | wired_sync_mode :: modes =>
    match start_streaming_devices start_ok configs wired_sync_mode (List.range n) with
    | (cs, some f) => (cs, some f)
    | (cs, none) =>
      let r := start_streaming_modes start_ok configs n modes
      (cs ++ r.1, r.2)

/-- The function `start_streaming(devices, configs)`: the start calls issued, in order, and
`none` when it returns normally or the fault that escapes to the caller. -/
def start_streaming (start_ok : Nat → Bool) (devices : List device)
    (configs : List k4a_device_configuration_t) : List Call × Option Fault :=
  start_streaming_modes start_ok configs devices.length DEVICE_STREAMING_START_ORDER

/-- Inner loop of `stop_streaming` for one `wired_sync_mode` (`stop_cameras` does not throw). -/
def stop_streaming_devices (configs : List k4a_device_configuration_t)
    (wired_sync_mode : Int) : List Nat → List Call × Option Fault
  | [] => ([], none)
  | i :: rest =>
    match configs[i]? with
    | none => ([], some Fault.undefined)
    | some c =>
      if c.wired_sync_mode = wired_sync_mode then
        let r := stop_streaming_devices configs wired_sync_mode rest
        (Call.stop_cameras i :: r.1, r.2)
      else stop_streaming_devices configs wired_sync_mode rest

/-- Outer loop of `stop_streaming` over the sync modes still to visit. -/
def stop_streaming_modes (configs : List k4a_device_configuration_t)
    (n : Nat) : List Int → List Call × Option Fault
  | [] => ([], none)
  | wired_sync_mode :: modes =>
    match stop_streaming_devices configs wired_sync_mode (List.range n) with
    | (cs, some f) => (cs, some f)
    | (cs, none) =>
      let r := stop_streaming_modes configs n modes
      (cs ++ r.1, r.2)

/-! ## Captures, display frames and recording sinks -/

/-- A `k4a::image` as the frame processor reads it: format tag, size in pixels and buffer.
The buffer of a BGRA32 color image is read as 32-bit pixels, that of an IR image as 16-bit
samples (`reinterpret_cast<uint16_t*>`), row by row. -/
structure k4a_image where
  format : Int
  width_pixels : Nat
  height_pixels : Nat
  buffer : List Nat
deriving DecidableEq, Repr

/-- A valid `k4a::capture`: `get_color_image()` and `get_ir_image()`, `none` standing for an
image handle that is not `is_valid()`. -/
structure k4a_capture where
  color_image : Option k4a_image
  ir_image : Option k4a_image
deriving DecidableEq, Repr

/-- The class `Image<uint8_t>`: shape and buffer. With 4 channels the buffer is kept as one
32-bit word per pixel (the view the flip pass takes of it), with 1 channel as one byte per
pixel. -/
structure Image where
  height : Nat
  width : Nat
  channels : Nat
  data : List Nat
deriving DecidableEq, Repr

/-- A `k4a::record` sink: the file it was created at, the position of the device it was
created for, whether its header was written, and the captures written to it so far. -/
structure record where
  path : String
  dev : Nat
  header : Bool
  written : List k4a_capture
deriving DecidableEq, Repr

/-- The call `recording->write_capture(*capture)`. -/
def record.write_capture (r : record) (capture : k4a_capture) : record :=
  { r with written := r.written ++ [capture] }

/-- Result of `stop_streaming`: the stop calls issued, and the two vectors afterwards. -/
structure StopResult where
  calls : List Call
  devices : List device
  recordings : List record
deriving DecidableEq, Repr

/-- The function `stop_streaming(devices, configs, recordings)`: the stop loops, then
`recordings.clear()` and `devices.clear()`. An index past the end of `configs` is a fault. -/
def stop_streaming (devices : List device) (configs : List k4a_device_configuration_t)
    (_recordings : List record) : Except Fault StopResult :=
  match stop_streaming_modes configs devices.length DEVICE_STREAMING_STOP_ORDER with
  | (_, some f) => Except.error f
  | (cs, none) => Except.ok { calls := cs, devices := [], recordings := [] }

/-! ## Bounded display queue -/

/-- Modelled from the spec: the class `rigtorp::SPSCQueue` of the vendored header
`SPSCQueue.h`, which is not among the source files. The spec (4.3) describes a capacity-K
ring buffer with a non-blocking push that fails (returns false, buffer dropped) if full and
a non-blocking peek/pop that fails if empty, FIFO among the items pushed successfully.
`items` lists the queued items, oldest first. -/
structure SPSCQueue (α : Type) where
  capacity : Nat
  items : List α
deriving DecidableEq, Repr

/-- Modelled from the spec: the constructor `SPSCQueue(capacity)`, an empty queue. -/
def SPSCQueue.create {α : Type} (capacity : Nat) : SPSCQueue α :=
  { capacity := capacity, items := [] }

/-- Modelled from the spec: `try_push`, which appends the item and returns true when there
is room, and returns false leaving the queue as it is when the queue is full. -/
def SPSCQueue.try_push {α : Type} (q : SPSCQueue α) (x : α) : SPSCQueue α × Bool :=
  if q.items.length < q.capacity then ({ q with items := q.items ++ [x] }, true) else (q, false)

/-- Modelled from the spec: `empty()`. -/
def SPSCQueue.empty {α : Type} (q : SPSCQueue α) : Bool := q.items.isEmpty

/-- Modelled from the spec: `front()`, the oldest item, or null when the queue is empty. -/
def SPSCQueue.front {α : Type} (q : SPSCQueue α) : Option α := q.items.head?

/-- Modelled from the spec: `pop()`, which removes the oldest item. -/
def SPSCQueue.pop {α : Type} (q : SPSCQueue α) : SPSCQueue α :=
  { q with items := q.items.tail }

/-! ## Frame processor: color flip -/

/-- The three statements that exchange `buffer[idx]` and `buffer[flip_idx]`. -/
def swap_pixels (buffer : List Nat) (idx flip_idx : Nat) : List Nat :=
  let temp := buffer.getD idx 0
  let buffer := buffer.set idx (buffer.getD flip_idx 0)
  buffer.set flip_idx temp

/-- Inner loop of the color flip, `u` from 0 to `width / 2`, for row `v`. The indices are
`unsigned int` in the source; they stay below `2^32` for every buffer that `Image` can
allocate, so they are kept as natural numbers. -/
def hflip_color_row (width v : Nat) (buffer : List Nat) : List Nat :=
  (List.range (width / 2)).foldl
    (fun b u => swap_pixels b (v * width + u) (v * width + ((width - 1) - u))) buffer

/-- The color flip pass of `process_capture`, `v` from 0 to `height`. -/
def hflip_color_pass (height width : Nat) (buffer : List Nat) : List Nat :=
  (List.range height).foldl (fun b v => hflip_color_row width v b) buffer

/-! ## Frame processor: IR normalization in binary64 arithmetic -/

/-- A finite non-negative `double`, the value `m * 2^e`. -/
structure Double where
  m : Nat
  e : Int
deriving DecidableEq, Repr

/-- Quotient `n / d` rounded to the nearest integer, ties to even. -/
def round_half_even (n d : Nat) : Nat :=
  let q := n / d
  let r := n % d
  if 2 * r < d then q else if d < 2 * r then q + 1 else if q % 2 = 0 then q else q + 1

/-- Number of binary digits of `n`; the first argument bounds the recursion. -/
def bit_length : Nat → Nat → Nat
  | 0, _ => 0
  | fuel + 1, n => if n = 0 then 0 else bit_length fuel (n / 2) + 1

/-- The `double` nearest to the exact value `n * 2^e` (53 significant bits, ties to even). -/
def Double.round (n : Nat) (e : Int) : Double :=
  let len := bit_length n n
  if len ≤ 53 then { m := n, e := e }
  else { m := round_half_even n (2 ^ (len - 53)), e := e + ((len - 53 : Nat) : Int) }

/-- The `double` division `a / b` of two positive integers below `2^53`: the quotient is
scaled to exactly 53 bits and rounded once, ties to even. -/
def Double.div (a b : Nat) : Double :=
  let k := 53 + bit_length b b - bit_length a a
  if a * 2 ^ k / b < 2 ^ 53 then { m := round_half_even (a * 2 ^ k) b, e := - (k : Int) }
  else { m := round_half_even (a * 2 ^ (k - 1)) b, e := - ((k - 1 : Nat) : Int) }

/-- The `double` product of an integer sample (converted exactly) and a `double`. -/
def Double.mul_nat (s : Nat) (x : Double) : Double := Double.round (s * x.m) x.e

/-- Conversion of a `double` to an integer type: the fractional part is discarded. -/
def Double.trunc (x : Double) : Nat :=
  if 0 ≤ x.e then x.m * 2 ^ x.e.toNat else x.m / 2 ^ (- x.e).toNat

/-- The constant `expected_pixel_range_max` of `process_capture`. -/
def expected_pixel_range_max (depth_mode : Int) : Nat :=
  if depth_mode = K4A_DEPTH_MODE_PASSIVE_IR then 100 else 1000

/-- The constant `scale_factor`: `std::numeric_limits<uint8_t>::max() / expected_pixel_range_max`. -/
def scale_factor (depth_mode : Int) : Double :=
  Double.div 255 (expected_pixel_range_max depth_mode)

/-- The local `uint16_t scaled_value = in_buffer[idx] * scale_factor`: the `double` product,
truncated, kept modulo `2^16`. -/
def scaled_value (depth_mode : Int) (sample : Nat) : Nat :=
  Double.trunc (Double.mul_nat sample (scale_factor depth_mode)) % 2 ^ 16

/-- The local `uint8_t out_value`: `scaled_value` clamped at 255. -/
def out_value (depth_mode : Int) (sample : Nat) : Nat :=
  if scaled_value depth_mode sample > 255 then 255 else scaled_value depth_mode sample

/-- Inner loop of the IR pass, `u` from 0 to `width`, for row `v`. -/
def ir_row (depth_mode : Int) (hflip_ir : Bool) (width v : Nat) (in_buffer : List Nat)
    (out_buffer : List Nat) : List Nat :=
  (List.range width).foldl
    (fun out u =>
      let idx := v * width + u
      let flip_idx := v * width + ((width - 1) - u)
      out.set (if hflip_ir then flip_idx else idx) (out_value depth_mode (in_buffer.getD idx 0)))
    out_buffer

/-- The IR pass of `process_capture`, `v` from 0 to `height`, into a fresh buffer of
`height * width` bytes. -/
def ir_pass (depth_mode : Int) (hflip_ir : Bool) (height width : Nat) (in_buffer : List Nat) :
    List Nat :=
  (List.range height).foldl (fun out v => ir_row depth_mode hflip_ir width v in_buffer out)
    (List.replicate (height * width) 0)

/-! ## Frame processor -/

/-- What `process_capture` leaves behind: the two display queues and the recording sink. -/
structure ProcessResult where
  color_queue : SPSCQueue Image
  ir_queue : SPSCQueue Image
  recording : Option record
deriving DecidableEq, Repr

/-- The call `memcpy(dst, src, size)` on word buffers: `src` replaces the start of `dst`. -/
def memcpy (dst src : List Nat) : List Nat := src ++ dst.drop src.length

/-- Color path of `process_capture`. `tjDecompress2 img` is the return code of the JPEG
decoder and the buffer it leaves in `color_disp`. A fresh `Image` buffer has indeterminate
contents, written here as zeros. -/
def process_capture_color (tjDecompress2 : k4a_image → Int × List Nat)
    (capture : k4a_capture) (color_queue : SPSCQueue Image) (hflip_color : Bool) :
    SPSCQueue Image :=
  match capture.color_image with
  | none => color_queue
  | some color_img =>
    let width := color_img.width_pixels
    let height := color_img.height_pixels
    let fresh := List.replicate (height * width) 0
    let decoded : Bool × List Nat :=
      if color_img.format = K4A_IMAGE_FORMAT_COLOR_MJPG then
        ((tjDecompress2 color_img).1 == 0, (tjDecompress2 color_img).2)
      else if color_img.format = K4A_IMAGE_FORMAT_COLOR_BGRA32 then
        (true, memcpy fresh color_img.buffer)
      else (false, fresh)
    let buffer := if hflip_color then hflip_color_pass height width decoded.2 else decoded.2
    if decoded.1 then
      (color_queue.try_push { height := height, width := width, channels := 4, data := buffer }).1
    else color_queue

/-- IR path of `process_capture`. -/
def process_capture_ir (capture : k4a_capture) (config : k4a_device_configuration_t)
    (ir_queue : SPSCQueue Image) (hflip_ir : Bool) : SPSCQueue Image :=
  match capture.ir_image with
  | none => ir_queue
  | some ir_img =>
    let width := ir_img.width_pixels
    let height := ir_img.height_pixels
    let out_buffer := ir_pass config.depth_mode hflip_ir height width ir_img.buffer
    (ir_queue.try_push { height := height, width := width, channels := 1, data := out_buffer }).1

/-- The function `process_capture`; `recording` is `none` for a null pointer. -/
def process_capture (tjDecompress2 : k4a_image → Int × List Nat)
    (capture : k4a_capture) (config : k4a_device_configuration_t)
    (color_queue ir_queue : SPSCQueue Image) (hflip_color hflip_ir : Bool)
    (recording : Option record) (recording_write_enable : Bool) : ProcessResult :=
  { color_queue := process_capture_color tjDecompress2 capture color_queue hflip_color
    ir_queue := process_capture_ir capture config ir_queue hflip_ir
    recording :=
      match recording with
      | some r => if recording_write_enable then some (r.write_capture capture) else some r
      | none => none }

/-! ## Program state -/

/-- The arguments bound by `thread_pool->push_task(process_capture, ...)`. A pointer into one
of the per-device vectors is the position it points at. The two flip flags are kept as the
values they have when the task is pushed; the source passes `std::vector<bool>` element
references, which are read when the task runs, so a flag toggled in between is seen by the
task there. No statement below depends on the value of a flip flag of a pushed task. -/
structure Job where
  capture : k4a_capture
  config : k4a_device_configuration_t
  color_queue : Nat
  ir_queue : Nat
  hflip_color : Bool
  hflip_ir : Bool
  recording : Option Nat
  recording_write_enable : Bool
deriving DecidableEq, Repr

/-- The worker pool: the thread count it was built with and the tasks pushed to it, in order. -/
structure thread_pool where
  num_threads : Int
  tasks : List Job
deriving DecidableEq, Repr

/-- The variables of `main` that the pipeline reads and writes, and the SDK calls issued so
far (`calls`). Textures and shapes of the display are left out. -/
structure State where
  available_device_serials : List String
  available_device_nicknames : List String
  device_idxs : List Nat
  devices : List device
  recordings : List record
  num_enabled_devices : Nat
  streaming : Bool
  thread_pool : Option thread_pool
  configs : List k4a_device_configuration_t
  color_queues : List (SPSCQueue Image)
  ir_queues : List (SPSCQueue Image)
  color_disps : List (Option Image)
  ir_disps : List (Option Image)
  recording_enabled : Bool
  continuous_recording : Bool
  recording_save_path : String
  recording_write_enables : List Bool
  color_hflips : List Bool
  ir_hflips : List Bool
  calls : List Call
deriving DecidableEq, Repr

/-- The values of `main` before the main loop. -/
def State.initial : State :=
  { available_device_serials := [], available_device_nicknames := [], device_idxs := []
    devices := [], recordings := [], num_enabled_devices := 0, streaming := false
    thread_pool := none, configs := [], color_queues := [], ir_queues := []
    color_disps := [], ir_disps := [], recording_enabled := false
    continuous_recording := true, recording_save_path := "", recording_write_enables := []
    color_hflips := [], ir_hflips := [], calls := [] }

/-- What the platform and the SDK answer during one Start Streaming attempt: whether each
call that may throw `k4a::error` returns, the hardware concurrency, the clock, and the
preferred path separator. `open_ok` is indexed by installed-device index, the others by the
position of the device in `devices`. -/
structure Sdk where
  open_ok : Nat → Bool
  serialnum_ok : Nat → Bool
  record_create_ok : Nat → Bool
  write_header_ok : Nat → Bool
  start_ok : Nat → Bool
  hardware_concurrency : Nat
  now : Nat
  separator : Char

/-! ## Start Streaming: opening devices, thread variables, recordings -/

/-- First loop of `open_devices`: one `k4a::device::open(i)` per entry of `device_idxs`. -/
def open_devices_open (open_ok : Nat → Bool) : List Nat → List device → List device × Option Fault
  | [], devices => (devices, none)
  | i :: rest, devices =>
    if open_ok i then open_devices_open open_ok rest (devices ++ [{ index := i }])
    else (devices, some Fault.k4a_error)

/-- Second loop of `open_devices`: prints `device_idxs[i]` and `devices[i].get_serialnum()`. -/
def open_devices_print (serialnum_ok : Nat → Bool) (device_idxs : List Nat) :
    List Nat → Option Fault
  | [] => none
  | i :: rest =>
    match device_idxs[i]? with
    | none => some Fault.undefined
    | some _ =>
      if serialnum_ok i then open_devices_print serialnum_ok device_idxs rest
      else some Fault.k4a_error

/-- The function `open_devices(device_idxs, devices)`: the vector `devices` afterwards. -/
def open_devices (sdk : Sdk) (device_idxs : List Nat) (devices : List device) :
    List device × Option Fault :=
  match open_devices_open sdk.open_ok device_idxs devices with
  | (ds, some f) => (ds, some f)
  | (ds, none) => (ds, open_devices_print sdk.serialnum_ok device_idxs (List.range ds.length))

/-- The local `num_threads` of `initialize_device_thread_vars`:
`std::min<int>(2 * num_enabled_devices, std::thread::hardware_concurrency() - 1)`, the
subtraction in unsigned 32-bit arithmetic and its result converted to `int`. -/
def num_threads (num_enabled_devices hardware_concurrency : Nat) : Int :=
  let u : Nat := (hardware_concurrency % 2 ^ 32 + (2 ^ 32 - 1)) % 2 ^ 32
  let as_int : Int := if u < 2 ^ 31 then (u : Int) else (u : Int) - 2 ^ 32
  min (2 * (num_enabled_devices : Int)) as_int

/-- The function `initialize_device_thread_vars`, on the variables it is passed by reference. -/
def initialize_device_thread_vars (hardware_concurrency : Nat) (s : State) : State :=
  { s with
    thread_pool :=
      some { num_threads := num_threads s.num_enabled_devices hardware_concurrency, tasks := [] }
    color_queues := List.replicate s.num_enabled_devices (SPSCQueue.create IMG_QUEUE_SIZE)
    ir_queues := List.replicate s.num_enabled_devices (SPSCQueue.create IMG_QUEUE_SIZE)
    color_disps := List.replicate s.num_enabled_devices none
    ir_disps := List.replicate s.num_enabled_devices none
    color_hflips := List.replicate s.num_enabled_devices false
    ir_hflips := List.replicate s.num_enabled_devices false }

/-- The expression `std::filesystem::path(dir) / name` as a string, for a relative non-empty
`name`: the separator is inserted unless `dir` is empty or already ends with it. -/
def path_append (separator : Char) (dir name : String) : String :=
  if dir.isEmpty then name
  else if dir.back = separator then dir ++ name
  else dir ++ String.singleton separator ++ name

/-- The local `full_path` of `initialize_recordings`. -/
def recording_full_path (separator : Char) (recording_save_path : String) (rec_start_time : Nat)
    (nickname : String) : String :=
  path_append separator recording_save_path (toString rec_start_time ++ "_" ++ nickname ++ ".mkv")

/-- Second loop of `initialize_recordings` (recording enabled), over the positions still to
visit; the accumulator is `(recording_write_enables, recordings)`. -/
def initialize_recordings_loop (sdk : Sdk) (configs : List k4a_device_configuration_t)
    (device_idxs : List Nat) (available_device_serials available_device_nicknames : List String)
    (recording_save_path : String) :
    List Nat → List Bool × List record → (List Bool × List record) × Option Fault
  | [], acc => (acc, none)
  | i :: rest, (write_enables, recordings) =>
    let write_enables := write_enables ++ [false]
    match device_idxs[i]? with
    | none => ((write_enables, recordings), some Fault.undefined)
    | some idx =>
      match available_device_nicknames[idx]? with
      | none => ((write_enables, recordings), some Fault.undefined)
      | some nickname =>
        match (if nickname.isEmpty then available_device_serials[idx]? else some nickname) with
        | none => ((write_enables, recordings), some Fault.undefined)
        | some nickname =>
          match configs[i]? with
          | none => ((write_enables, recordings), some Fault.undefined)
          | some _ =>
            if sdk.record_create_ok i then
              let r : record :=
                { path := recording_full_path sdk.separator recording_save_path sdk.now nickname
                  dev := i, header := false, written := [] }
              let recordings := recordings ++ [r]
              match recordings[i]? with
              | none => ((write_enables, recordings), some Fault.undefined)
              | some ri =>
                if sdk.write_header_ok i then
                  initialize_recordings_loop sdk configs device_idxs available_device_serials
                    available_device_nicknames recording_save_path rest
                    (write_enables, recordings.set i { ri with header := true })
                else ((write_enables, recordings), some Fault.k4a_error)
            else ((write_enables, recordings), some Fault.k4a_error)

/-- The function `initialize_recordings`: the vectors `recording_write_enables` and
`recordings` afterwards. -/
def initialize_recordings (sdk : Sdk) (recording_enabled : Bool) (devices : List device)
    (configs : List k4a_device_configuration_t) (device_idxs : List Nat)
    (available_device_serials available_device_nicknames : List String)
    (recording_save_path : String) : (List Bool × List record) × Option Fault :=
  if !recording_enabled then ((List.replicate devices.length false, []), none)
  else
    initialize_recordings_loop sdk configs device_idxs available_device_serials
      available_device_nicknames recording_save_path (List.range devices.length) ([], [])

/-! ## Start Streaming / Stop Streaming button -/

/-- The `try` block of the Start Streaming branch: the state when control leaves the block
and the fault in flight, if any. -/
def start_streaming_try (sdk : Sdk) (s : State) : State × Option Fault :=
  match open_devices sdk s.device_idxs s.devices with
  | (ds, some f) => ({ s with devices := ds }, some f)
  | (ds, none) =>
    let s1 := { s with devices := ds, num_enabled_devices := ds.length }
    let s2 := initialize_device_thread_vars sdk.hardware_concurrency s1
    match initialize_recordings sdk s2.recording_enabled s2.devices s2.configs s2.device_idxs
        s2.available_device_serials s2.available_device_nicknames s2.recording_save_path with
    | ((we, recs), some f) => ({ s2 with recording_write_enables := we, recordings := recs }, some f)
    | ((we, recs), none) =>
      let s3 := { s2 with recording_write_enables := we, recordings := recs }
      match start_streaming sdk.start_ok s3.devices s3.configs with
      | (cs, some f) => ({ s3 with calls := s3.calls ++ cs }, some f)
      | (cs, none) => ({ s3 with calls := s3.calls ++ cs, streaming := true }, none)

/-- The statements `stop_streaming(devices, configs, recordings); streaming = false;`. -/
def stop_and_clear (s : State) : Except Fault State :=
  match stop_streaming s.devices s.configs s.recordings with
  | Except.error f => Except.error f
  | Except.ok r =>
    Except.ok { s with calls := s.calls ++ r.calls, devices := r.devices
                       recordings := r.recordings, streaming := false }

/-- The body run when the Start Streaming / Stop Streaming button is pressed. A `k4a::error`
from the `try` block is caught; undefined behaviour is not. -/
def streaming_button (sdk : Sdk) (s : State) : Except Fault State :=
  if !s.streaming then
    match start_streaming_try sdk s with
    | (s1, none) => Except.ok s1
    | (s1, some Fault.k4a_error) => stop_and_clear s1
    | (_, some Fault.undefined) => Except.error Fault.undefined
  else stop_and_clear s

/-! ## Capture dispatch loop and recording gate -/

/-- Outcome of `devices[i].get_capture(capture.get(), 5ms)`: a valid capture, a timeout
(the capture stays invalid), or a `k4a::error` thrown. -/
inductive Acquisition where
  | capture (c : k4a_capture)
  | timeout
  | failed
deriving DecidableEq, Repr

/-- The two statements run when `capture->is_valid()`: the `push_task` call, with its
arguments evaluated on the current state, and `recording_write_enables[i] = false`. -/
def submit_capture (s : State) (i : Nat) (capture : k4a_capture) : Except Fault State :=
  match s.thread_pool, s.configs[i]?, s.color_queues[i]?, s.ir_queues[i]?, s.color_hflips[i]?,
      s.ir_hflips[i]?, s.recording_write_enables[i]? with
  | some pool, some config, some _, some _, some hflip_color, some hflip_ir, some write_enable =>
    if s.recording_enabled && s.recordings[i]?.isNone then Except.error Fault.undefined
    else
      let job : Job :=
        { capture := capture
          config := config
          color_queue := i
          ir_queue := i
          hflip_color := hflip_color
          hflip_ir := hflip_ir
          recording := if s.recording_enabled then some i else none
          recording_write_enable :=
            s.recording_enabled && (s.continuous_recording || write_enable) }
      Except.ok { s with
        thread_pool := some { pool with tasks := pool.tasks ++ [job] }
        recording_write_enables := s.recording_write_enables.set i false }
  | _, _, _, _, _, _, _ => Except.error Fault.undefined

/-- The statement `if (!queues[i]->empty()) { disps[i] = *(queues[i]->front()); queues[i]->pop(); }`. -/
def drain_queue (queues : List (SPSCQueue Image)) (disps : List (Option Image)) (i : Nat) :
    Except Fault (List (SPSCQueue Image) × List (Option Image)) :=
  match queues[i]?, disps[i]? with
  | some q, some _ =>
    if !q.empty then Except.ok (queues.set i q.pop, disps.set i q.front)
    else Except.ok (queues, disps)
  | _, _ => Except.error Fault.undefined

/-- The two drain statements of one loop iteration, color then IR. -/
def drain_device (s : State) (i : Nat) : Except Fault State :=
  match drain_queue s.color_queues s.color_disps i with
  | Except.error f => Except.error f
  | Except.ok (cq, cd) =>
    match drain_queue s.ir_queues s.ir_disps i with
    | Except.error f => Except.error f
    | Except.ok (iq, id) =>
      Except.ok { s with color_queues := cq, color_disps := cd, ir_queues := iq, ir_disps := id }

/-- One iteration of the capture dispatch loop, for device position `i`. -/
def dispatch_device (s : State) (i : Nat) (acq : Acquisition) : Except Fault State :=
  match s.devices[i]? with
  | none => Except.error Fault.undefined
  | some _ =>
    match acq with
    | Acquisition.failed => Except.error Fault.k4a_error
    | Acquisition.timeout => drain_device s i
    | Acquisition.capture c =>
      match submit_capture s i c with
      | Except.error f => Except.error f
      | Except.ok s1 => drain_device s1 i

/-- The capture dispatch loop over the device positions still to visit. -/
def dispatch_loop (acq : Nat → Acquisition) : List Nat → State → Except Fault State
  | [], s => Except.ok s
  | i :: rest, s =>
    match dispatch_device s i (acq i) with
    | Except.error f => Except.error f
    | Except.ok s1 => dispatch_loop acq rest s1

/-- The block `if (streaming) { for (int i = 0; i < num_enabled_devices; i++) ... }` at the
top of a frame; `acq i` is what the acquisition of device `i` yields in this frame. -/
def tick (acq : Nat → Acquisition) (s : State) : Except Fault State :=
  if s.streaming then dispatch_loop acq (List.range s.num_enabled_devices) s else Except.ok s

/-- The loop `recording_write_enables[i] = true` of the Save Captures button. -/
def enable_all : List Nat → List Bool → Except Fault (List Bool)
  | [], write_enables => Except.ok write_enables
  | i :: rest, write_enables =>
    match write_enables[i]? with
    | none => Except.error Fault.undefined
    | some _ => enable_all rest (write_enables.set i true)

/-- The Save Captures button pressed. The button exists only while
`recording_enabled && !continuous_recording && streaming`, inside `num_enabled_devices > 0`. -/
def save_captures_button (s : State) : Except Fault State :=
  if 0 < s.num_enabled_devices ∧ s.recording_enabled ∧ !s.continuous_recording ∧ s.streaming then
    match enable_all (List.range s.num_enabled_devices) s.recording_write_enables with
    | Except.error f => Except.error f
    | Except.ok we => Except.ok { s with recording_write_enables := we }
  else Except.ok s

/-- The Save Capture button of the window of device `i` pressed (`ir_window` selects the IR
window). The button exists only while streaming, with the frame of that window displayed and
`recording_enabled && !continuous_recording`. -/
def save_capture_button (s : State) (i : Nat) (ir_window : Bool) : Except Fault State :=
  if s.streaming ∧ i < s.num_enabled_devices then
    match (if ir_window then s.ir_disps[i]? else s.color_disps[i]?) with
    | none => Except.error Fault.undefined
    | some none => Except.ok s
    | some (some _) =>
      if s.recording_enabled ∧ !s.continuous_recording then
        match s.recording_write_enables[i]? with
        | none => Except.error Fault.undefined
        | some _ => Except.ok { s with recording_write_enables := s.recording_write_enables.set i true }
      else Except.ok s
  else Except.ok s

/-- What can happen to the recording gate while streaming: a frame of the main loop runs the
dispatch loop, or one of the two kinds of Save button is pressed. -/
inductive Event where
  | tick (acq : Nat → Acquisition)
  | save_capture (i : Nat) (ir_window : Bool)
  | save_captures

/-- One event applied to the state. -/
def step (s : State) : Event → Except Fault State
  | Event.tick acq => tick acq s
  | Event.save_capture i ir_window => save_capture_button s i ir_window
  | Event.save_captures => save_captures_button s

/-- A sequence of events applied in order. -/
def run : State → List Event → Except Fault State
  | s, [] => Except.ok s
  | s, ev :: evs =>
    match step s ev with
    | Except.error f => Except.error f
    | Except.ok s1 => run s1 evs

/-- The tasks pushed to the worker pool so far (none before a pool exists). -/
def State.tasks (s : State) : List Job :=
  match s.thread_pool with
  | some pool => pool.tasks
  | none => []

/-- The persist flags of the tasks pushed for device `i` so far, in submission order. -/
def State.persist_flags (s : State) (i : Nat) : List Bool :=
  (s.tasks.filter (fun j => j.color_queue == i)).map (fun j => j.recording_write_enable)

/-! ## A worker running a task -/

/-- A worker runs one task: `process_capture` on the queues and the sink its pointers
designate. A pointer to an element that no longer exists is undefined behaviour. -/
def run_job (tjDecompress2 : k4a_image → Int × List Nat) (s : State) (job : Job) :
    Except Fault State :=
  match s.color_queues[job.color_queue]?, s.ir_queues[job.ir_queue]? with
  | some cq, some iq =>
    match job.recording with
    | none =>
      let r := process_capture tjDecompress2 job.capture job.config cq iq job.hflip_color
        job.hflip_ir none job.recording_write_enable
      Except.ok { s with color_queues := s.color_queues.set job.color_queue r.color_queue
                         ir_queues := s.ir_queues.set job.ir_queue r.ir_queue }
    | some k =>
      match s.recordings[k]? with
      | none => Except.error Fault.undefined
      | some sink =>
        let r := process_capture tjDecompress2 job.capture job.config cq iq job.hflip_color
          job.hflip_ir (some sink) job.recording_write_enable
        Except.ok { s with color_queues := s.color_queues.set job.color_queue r.color_queue
                           ir_queues := s.ir_queues.set job.ir_queue r.ir_queue
                           recordings := s.recordings.set k (r.recording.getD sink) }
  | _, _ => Except.error Fault.undefined

/-- A worker (or several, one after the other) runs a list of tasks in order. -/
def run_jobs (tjDecompress2 : k4a_image → Int × List Nat) : State → List Job → Except Fault State
  | s, [] => Except.ok s
  | s, job :: jobs =>
    match run_job tjDecompress2 s job with
    | Except.error f => Except.error f
    | Except.ok s1 => run_jobs tjDecompress2 s1 jobs

/-! ## Reference sequences for the start and stop order -/

/-- Device positions below `n` whose configured sync role is `mode`, in index order. -/
def role_positions (configs : List k4a_device_configuration_t) (n : Nat) (mode : Int) : List Nat :=
  (List.range n).filter
    (fun i => match configs[i]? with
      | some c => decide (c.wired_sync_mode = mode)
      | none => false)

/-- The start sequence: standalone devices, then subordinate devices, then master devices. -/
def start_sequence (configs : List k4a_device_configuration_t) (n : Nat) : List Nat :=
  role_positions configs n K4A_WIRED_SYNC_MODE_STANDALONE ++
    (role_positions configs n K4A_WIRED_SYNC_MODE_SUBORDINATE ++
      role_positions configs n K4A_WIRED_SYNC_MODE_MASTER)

/-- The stop sequence: master devices, then subordinate devices, then standalone devices. -/
def stop_sequence (configs : List k4a_device_configuration_t) (n : Nat) : List Nat :=
  role_positions configs n K4A_WIRED_SYNC_MODE_MASTER ++
    (role_positions configs n K4A_WIRED_SYNC_MODE_SUBORDINATE ++
      role_positions configs n K4A_WIRED_SYNC_MODE_STANDALONE)

/-- Start calls issued along a list of positions, ending with the first call that throws. -/
def attempt_starts (start_ok : Nat → Bool) : List Nat → List Call × Option Fault
  | [] => ([], none)
  | i :: rest =>
    if start_ok i then
      (Call.start_cameras i :: (attempt_starts start_ok rest).1, (attempt_starts start_ok rest).2)
    else ([Call.start_cameras i], some Fault.k4a_error)

/-- A configuration that differs from the default one in its sync role only. -/
def config_with_role (mode : Int) : k4a_device_configuration_t :=
  { DEFAULT_CONFIG with wired_sync_mode := mode }

/-! ## Vocabulary for the recording gate -/

/-- The per-device vectors are aligned with `num_enabled_devices` and the worker pool exists:
the shape `initialize_device_thread_vars` and `initialize_recordings` give the state. -/
def State.ready (s : State) : Prop :=
  s.thread_pool.isSome = true ∧
  s.devices.length = s.num_enabled_devices ∧
  s.num_enabled_devices ≤ s.configs.length ∧
  s.color_queues.length = s.num_enabled_devices ∧
  s.ir_queues.length = s.num_enabled_devices ∧
  s.color_disps.length = s.num_enabled_devices ∧
  s.ir_disps.length = s.num_enabled_devices ∧
  s.color_hflips.length = s.num_enabled_devices ∧
  s.ir_hflips.length = s.num_enabled_devices ∧
  s.recording_write_enables.length = s.num_enabled_devices ∧
  (s.recording_enabled = true → s.recordings.length = s.num_enabled_devices)

instance (s : State) : Decidable s.ready := by
  unfold State.ready
  infer_instance

/-- The mode switches and the device count of `t` are those of `s`. -/
def same_mode (s t : State) : Prop :=
  t.recording_enabled = s.recording_enabled ∧
  t.continuous_recording = s.continuous_recording ∧
  t.streaming = s.streaming ∧
  t.num_enabled_devices = s.num_enabled_devices

/-- The persist flag a capture of device `i` dispatched in state `s` is submitted with. -/
def State.persist (s : State) (i : Nat) : Bool :=
  s.recording_enabled && (s.continuous_recording || s.recording_write_enables.getD i false)

/-- Persist flags submitted for device `i` by one dispatch iteration in state `s`. -/
def gate_output (s : State) (i : Nat) : Acquisition → List Bool
  | Acquisition.capture _ => [s.persist i]
  | _ => []

/-- The on-demand flag of device `i` after one dispatch iteration in state `s`. -/
def gate_flag (s : State) (i : Nat) : Acquisition → Bool
  | Acquisition.capture _ => false
  | _ => s.recording_write_enables.getD i false

/-- The event is a frame in which no acquisition throws, or a button press. -/
def Event.no_failure (n : Nat) : Event → Prop
  | Event.tick acq => ∀ j, j < n → acq j ≠ Acquisition.failed
  | _ => True

/-- The event yields no capture of device `i`: a frame in which its acquisition times out,
or any button press. -/
def Event.no_capture (i : Nat) : Event → Prop
  | Event.tick acq => acq i = Acquisition.timeout
  | _ => True

/-- The event neither yields a capture of device `i` nor triggers it: a frame in which its
acquisition times out, or a Save Capture press in the window of another device. -/
def Event.quiet (i : Nat) : Event → Prop
  | Event.tick acq => acq i = Acquisition.timeout
  | Event.save_capture j _ => j ≠ i
  | Event.save_captures => False

/-- The event is a trigger for device `i` whose button exists in state `s` (given that `s`
is streaming in on-demand mode): the broadcast button, or the button of a window of device
`i` that shows a frame. -/
def Event.triggers (s : State) (i : Nat) : Event → Prop
  | Event.tick _ => False
  | Event.save_capture j ir_window =>
    j = i ∧ ∃ img, (if ir_window then s.ir_disps[i]? else s.color_disps[i]?) = some (some img)
  | Event.save_captures => True

/-- An acquisition that yields capture `c` for device `i` and nothing for the others. -/
def only_device (i : Nat) (c : k4a_capture) (j : Nat) : Acquisition :=
  if j = i then Acquisition.capture c else Acquisition.timeout

/-- Number of captures of device `i` that the event yields (0 or 1). -/
def Event.captures_of (i : Nat) : Event → Nat
  | Event.tick acq =>
    match acq i with
    | Acquisition.capture _ => 1
    | _ => 0
  | _ => 0

/-- Number of captures of device `i` that a sequence of events yields. -/
def captures_in (i : Nat) : List Event → Nat
  | [] => 0
  | ev :: evs => Event.captures_of i ev + captures_in i evs

/-- The task has the shape the dispatch loop gives the tasks of state `s`: its queue and
sink pointers designate one device position below `num_enabled_devices`, the sink is present
exactly when recording is enabled, and persist is set only when recording is enabled. -/
def Job.dispatched_in (s : State) (job : Job) : Prop :=
  job.color_queue < s.num_enabled_devices ∧
  job.ir_queue = job.color_queue ∧
  job.recording = (if s.recording_enabled then some job.color_queue else none) ∧
  (job.recording_write_enable = true → s.recording_enabled = true)

/-- The captures that the tasks `jobs` of device `i` carry with persist true, in order. -/
def persisted_captures (i : Nat) (jobs : List Job) : List k4a_capture :=
  (jobs.filter (fun j => j.color_queue == i && j.recording_write_enable)).map
    (fun j => j.capture)

/-- The queue has the capacity of a display queue and holds no more frames than that. -/
def SPSCQueue.bounded (q : SPSCQueue Image) : Prop :=
  q.capacity = IMG_QUEUE_SIZE ∧ q.items.length ≤ IMG_QUEUE_SIZE

/-- Every display queue of the state is bounded. -/
def State.queues_bounded (s : State) : Prop :=
  (∀ q, q ∈ s.color_queues → q.bounded) ∧ (∀ q, q ∈ s.ir_queues → q.bounded)

/-- What can happen to the display queues: an event of the controller thread, a worker
running a task, or the Start Streaming / Stop Streaming button pressed. -/
inductive Action where
  | event (ev : Event)
  | work (job : Job)
  | button (sdk : Sdk)

/-- One action applied to the state. -/
def act (tjDecompress2 : k4a_image → Int × List Nat) (s : State) : Action → Except Fault State
  | Action.event ev => step s ev
  | Action.work job => run_job tjDecompress2 s job
  | Action.button sdk => streaming_button sdk s

/-- A sequence of actions applied in order. -/
def exec (tjDecompress2 : k4a_image → Int × List Nat) : State → List Action → Except Fault State
  | s, [] => Except.ok s
  | s, a :: rest =>
    match act tjDecompress2 s a with
    | Except.error f => Except.error f
    | Except.ok s1 => exec tjDecompress2 s1 rest

/-! ## Vocabulary for the frame processor -/

/-- The frame that the color path of `process_capture` passes to `color_queue->try_push`,
or `none` when control does not reach that call (`success` is false, or there is no valid
color image). -/
def color_push_attempt (tjDecompress2 : k4a_image → Int × List Nat)
    (capture : k4a_capture) (hflip_color : Bool) : Option Image :=
  match capture.color_image with
  | none => none
  | some color_img =>
    let width := color_img.width_pixels
    let height := color_img.height_pixels
    let fresh := List.replicate (height * width) 0
    let decoded : Bool × List Nat :=
      if color_img.format = K4A_IMAGE_FORMAT_COLOR_MJPG then
        ((tjDecompress2 color_img).1 == 0, (tjDecompress2 color_img).2)
      else if color_img.format = K4A_IMAGE_FORMAT_COLOR_BGRA32 then
        (true, memcpy fresh color_img.buffer)
      else (false, fresh)
    let buffer := if hflip_color then hflip_color_pass height width decoded.2 else decoded.2
    if decoded.1 then
      some { height := height, width := width, channels := 4, data := buffer }
    else none

/-- The outer loop of the IR pass started on an arbitrary output buffer. -/
def ir_pass_from (depth_mode : Int) (hflip_ir : Bool) (height width : Nat)
    (in_buffer out_buffer : List Nat) : List Nat :=
  (List.range height).foldl (fun out v => ir_row depth_mode hflip_ir width v in_buffer out)
    out_buffer

/-- The name that `initialize_recordings` gives the file of the device with installed-device
index `idx`: its nickname if that is not empty, its serial number otherwise. -/
def recording_name (available_device_serials available_device_nicknames : List String)
    (idx : Nat) : Option String :=
  match available_device_nicknames[idx]? with
  | none => none
  | some nickname =>
    if nickname.isEmpty then available_device_serials[idx]? else some nickname

/-! ## Name tables and `load_config_json` -/

/-- The table `COLOR_FORMAT_NAMES`. -/
def COLOR_FORMAT_NAMES : List String := ["MJPG", "NV12 (No Visual)", "YUY2 (No Visual)", "BGRA32"]

/-- The table `COLOR_RESOLUTION_NAMES`. -/
def COLOR_RESOLUTION_NAMES : List String :=
  ["OFF", "720p", "1080p", "1440p", "1536p", "2160p", "3072p"]

/-- The table `DEPTH_MODE_NAMES`. -/
def DEPTH_MODE_NAMES : List String :=
  ["OFF", "NFOV 2x2 Binned", "NFOV Unbinned", "WFOV 2x2 Binned", "WFOV Unbinned", "Passive IR"]

/-- The table `FPS_MODE_NAMES`. -/
def FPS_MODE_NAMES : List String := ["5", "15", "30"]

/-- The table `SYNC_MODE_NAMES`. -/
def SYNC_MODE_NAMES : List String := ["Standalone", "Master", "Subordinate"]

/-- The loop of `index_of` from position `i`, over the elements still to visit. -/
def index_of_from (target : String) : Nat → List String → Int
  | _, [] => -1
  | i, a :: rest => if a = target then (i : Int) else index_of_from target (i + 1) rest

/-- The function `index_of(arr, target)`: the first position holding `target`, or -1. -/
def index_of (arr : List String) (target : String) : Int := index_of_from target 0 arr

/-- What the accessors of the JSON library return on a parsed configuration document:
`config_json["identical_configs"].ToBool()`, the values under "save_path" and
"continuous_recording" when `hasKey` holds for them, `hasKey(key)`, and for the nested
lookups `config_json[key][field].ToString()` and `config_json[key][field].ToInt()`. -/
structure ConfigJson where
  identical_configs : Bool
  save_path : Option String
  continuous_recording : Option Bool
  has_key : String → Bool
  to_string : String → String → String
  to_int : String → String → Int

/-- The variables of `main` that `load_config_json` writes through its reference and pointer
parameters. -/
structure ConfigVars where
  available_device_nicknames : List String
  available_device_checkboxes : List Bool
  identical_configs : Bool
  configs : List k4a_device_configuration_t
  recording_enabled : Bool
  continuous_recording : Bool
  recording_save_path : String
deriving DecidableEq, Repr

/-- Abnormal outcomes of `load_config_json`: the `std::runtime_error` it throws for a file
that is not valid JSON, or undefined behaviour (an index past the end). -/
inductive LoadFault where
  | runtime_error
  | undefined
deriving DecidableEq, Repr

/-- The local `config` that `load_config_json` builds from the document entry `key`. The fps
is kept as the integer that `ToInt()` returns; the source casts it to the 32-bit enum
`k4a_fps_t`, which differs for an integer outside the 32-bit range. -/
def load_config_entry (doc : ConfigJson) (key : String) : k4a_device_configuration_t :=
  { DEFAULT_CONFIG with
    color_format := index_of COLOR_FORMAT_NAMES (doc.to_string key "color_format")
    color_resolution := index_of COLOR_RESOLUTION_NAMES (doc.to_string key "color_resolution")
    depth_mode := index_of DEPTH_MODE_NAMES (doc.to_string key "depth_mode")
    camera_fps := doc.to_int key "fps"
    wired_sync_mode := index_of SYNC_MODE_NAMES (doc.to_string key "sync_mode") }

/-- The loop of `load_config_json` over the available-device positions still to visit. -/
def load_config_loop (doc : ConfigJson) (available_device_serials : List String) :
    List Nat → ConfigVars → Except LoadFault ConfigVars
  | [], vars => Except.ok vars
  | i :: rest, vars =>
    match available_device_serials[i]? with
    | none => Except.error LoadFault.undefined
    | some serial =>
      if doc.has_key serial then
        match vars.available_device_nicknames[i]?, vars.available_device_checkboxes[i]? with
        | some _, some _ =>
          let key := if vars.identical_configs then "*" else serial
          load_config_loop doc available_device_serials rest
            { vars with
              available_device_nicknames :=
                vars.available_device_nicknames.set i (doc.to_string serial "nickname")
              available_device_checkboxes := vars.available_device_checkboxes.set i true
              configs := vars.configs ++ [load_config_entry doc key] }
        | _, _ => Except.error LoadFault.undefined
      else
        match vars.available_device_checkboxes[i]? with
        | some _ =>
          load_config_loop doc available_device_serials rest
            { vars with
              available_device_checkboxes := vars.available_device_checkboxes.set i false }
        | none => Except.error LoadFault.undefined

/-- The function `load_config_json`; `doc` is `none` when the file is not valid JSON. -/
def load_config_json (doc : Option ConfigJson) (available_device_serials : List String)
    (vars : ConfigVars) : Except LoadFault ConfigVars :=
  match doc with
  | none => Except.error LoadFault.runtime_error
  | some doc =>
    let vars := { vars with identical_configs := doc.identical_configs }
    let vars :=
      match doc.save_path with
      | some save_path =>
        { vars with recording_save_path := save_path, recording_enabled := !save_path.isEmpty }
      | none => vars
    let vars :=
      match doc.continuous_recording with
      | some b => { vars with continuous_recording := b }
      | none => vars
    load_config_loop doc available_device_serials (List.range available_device_serials.length)
      { vars with configs := [] }

/-! ## Vocabulary for the dispatch loop -/

/-- The test `capture->is_valid()` after the acquisition: true exactly when the acquisition
filled the capture. -/
def Acquisition.is_valid : Acquisition → Bool
  | Acquisition.capture _ => true
  | _ => false

/-! ## `save_config_json` -/

/-- The five values that `save_config_json` stores for one configuration under one key of
the JSON object: four names and the fps as an integer. -/
structure SavedConfig where
  color_format : String
  color_resolution : String
  depth_mode : String
  fps : Int
  sync_mode : String
deriving DecidableEq, Repr

/-- What `save_config_json` stores under the key `serial` of one enabled device: the nickname
and, unless the configurations are identical, the five values of its configuration. -/
structure SavedDevice where
  serial : String
  nickname : String
  config : Option SavedConfig
deriving DecidableEq, Repr

/-- The assignments that `save_config_json` makes to the JSON object `j` before it dumps the
object: "identical_configs", "save_path" and "continuous_recording" (when the save path is
not empty), the entry "*" (when the configurations are identical) and the entries of the
enabled devices, in the order of assignment. -/
structure SavedJson where
  identical_configs : Bool
  save_path : Option String
  continuous_recording : Option Bool
  star : Option SavedConfig
  devices : List SavedDevice
deriving DecidableEq, Repr

/-- The expression `NAMES[v]` for a name table and an enum value `v` converted to an index;
an index outside the table is undefined behaviour. -/
def name_at (arr : List String) (v : Int) : Except Fault String :=
  if 0 ≤ v then
    match arr[v.toNat]? with
    | some name => Except.ok name
    | none => Except.error Fault.undefined
  else Except.error Fault.undefined

/-- The five assignments `j[key]["color_format"] = ...` to `j[key]["sync_mode"] = ...` of
`save_config_json` for one configuration. -/
def save_config_entry (config : k4a_device_configuration_t) : Except Fault SavedConfig :=
  match name_at COLOR_FORMAT_NAMES config.color_format,
      name_at COLOR_RESOLUTION_NAMES config.color_resolution,
      name_at DEPTH_MODE_NAMES config.depth_mode,
      name_at SYNC_MODE_NAMES config.wired_sync_mode with
  | Except.ok color_format, Except.ok color_resolution, Except.ok depth_mode,
      Except.ok sync_mode =>
    Except.ok
      { color_format := color_format
        color_resolution := color_resolution
        depth_mode := depth_mode
        fps := config.camera_fps
        sync_mode := sync_mode }
  | _, _, _, _ => Except.error Fault.undefined

/-- The loop of `save_config_json` over the available-device positions still to visit;
`opened_device_idx` counts the enabled devices met so far. -/
def save_config_loop (identical_configs : Bool)
    (available_device_serials available_device_nicknames : List String)
    (available_device_checkboxes : List Bool) (configs : List k4a_device_configuration_t) :
    List Nat → Nat → List SavedDevice → Except Fault (List SavedDevice)
  | [], _, saved => Except.ok saved
  | i :: rest, opened_device_idx, saved =>
    match available_device_checkboxes[i]? with
    | none => Except.error Fault.undefined
    | some false =>
      save_config_loop identical_configs available_device_serials available_device_nicknames
        available_device_checkboxes configs rest opened_device_idx saved
    | some true =>
      match available_device_serials[i]?, available_device_nicknames[i]? with
      | some serial, some nickname =>
        if identical_configs then
          save_config_loop identical_configs available_device_serials available_device_nicknames
            available_device_checkboxes configs rest (opened_device_idx + 1)
            (saved ++ [{ serial := serial, nickname := nickname, config := none }])
        else
          match configs[opened_device_idx]? with
          | none => Except.error Fault.undefined
          | some config =>
            match save_config_entry config with
            | Except.error f => Except.error f
            | Except.ok entry =>
              save_config_loop identical_configs available_device_serials
                available_device_nicknames available_device_checkboxes configs rest
                (opened_device_idx + 1)
                (saved ++ [{ serial := serial, nickname := nickname, config := some entry }])
      | _, _ => Except.error Fault.undefined

/-- The function `save_config_json`, up to the dump of the JSON object. -/
def save_config_json (identical_configs : Bool)
    (available_device_serials available_device_nicknames : List String)
    (available_device_checkboxes : List Bool) (configs : List k4a_device_configuration_t)
    (recording_save_path : String) (continuous_recording : Bool) : Except Fault SavedJson :=
  let star : Except Fault (Option SavedConfig) :=
    if identical_configs then
      match configs[0]? with
      | none => Except.error Fault.undefined
      | some config =>
        match save_config_entry config with
        | Except.error f => Except.error f
        | Except.ok entry => Except.ok (some entry)
    else Except.ok none
  match star with
  | Except.error f => Except.error f
  | Except.ok star =>
    match save_config_loop identical_configs available_device_serials available_device_nicknames
        available_device_checkboxes configs (List.range available_device_serials.length) 0 [] with
    | Except.error f => Except.error f
    | Except.ok devices =>
      Except.ok
        { identical_configs := identical_configs
          save_path := if recording_save_path.isEmpty then none else some recording_save_path
          continuous_recording :=
            if recording_save_path.isEmpty then none else some continuous_recording
          star := star
          devices := devices }

/-- The accessor results of the JSON library on a document that holds, under every key, the
values of `entry`: what `load_config_json` reads back when the file holds what
`save_config_json` stored for one configuration. -/
def SavedConfig.document (entry : SavedConfig) : ConfigJson :=
  { identical_configs := false
    save_path := none
    continuous_recording := none
    has_key := fun _ => true
    to_string := fun _ field =>
      if field = "color_format" then entry.color_format
      else if field = "color_resolution" then entry.color_resolution
      else if field = "depth_mode" then entry.depth_mode
      else if field = "sync_mode" then entry.sync_mode
      else ""
    to_int := fun _ _ => entry.fps }

/-! ## Enabled devices and the configuration list in the main loop -/

/-- The variables of `main` behind the Devices panel: the installed devices, their
checkboxes in this frame and the last one, the enabled devices derived from them, and the
configuration variables that `load_config_json` writes. -/
structure DeviceListVars where
  num_available_devices : Nat
  last_num_available_devices : Nat
  available_device_serials : List String
  available_device_nicknames : List String
  available_device_checkboxes : List Bool
  available_device_checkboxes_last : List Bool
  device_idxs : List Nat
  device_serials : List String
  num_enabled_devices : Nat
  json_loaded_flag : Bool
  identical_configs : Bool
  configs : List k4a_device_configuration_t
  recording_enabled : Bool
  continuous_recording : Bool
  recording_save_path : String
deriving DecidableEq, Repr

/-- The values of these variables before the main loop. -/
def DeviceListVars.initial : DeviceListVars :=
  { num_available_devices := 0, last_num_available_devices := 0
    available_device_serials := [], available_device_nicknames := []
    available_device_checkboxes := [], available_device_checkboxes_last := []
    device_idxs := [], device_serials := [], num_enabled_devices := 0
    json_loaded_flag := false, identical_configs := true, configs := []
    recording_enabled := false, continuous_recording := true, recording_save_path := "" }

/-- What one frame of the main loop receives while not streaming: the result of
`k4a::device::get_installed_count()`, the serial number that the device opened at each index
reports, which checkboxes of the Devices panel the operator clicks, and, when Load Config is
pressed and a file is chosen, the parsed document (`none` for a file that is not valid
JSON). -/
structure FrameInput where
  installed_count : Nat
  serialnum : Nat → String
  clicked : Nat → Bool
  load : Option (Option ConfigJson)

/-- The loop that compares `available_device_checkboxes[i]` with
`available_device_checkboxes_last[i]`, over the positions still to visit: whether it sets
`enabled_devices_changed`. -/
def checkboxes_changed (checkboxes checkboxes_last : List Bool) :
    List Nat → Except LoadFault Bool
  | [] => Except.ok false
  | i :: rest =>
    match checkboxes[i]?, checkboxes_last[i]? with
    | some a, some b =>
      if a != b then Except.ok true else checkboxes_changed checkboxes checkboxes_last rest
    | _, _ => Except.error LoadFault.undefined

/-- The loop that rebuilds `device_idxs` and `device_serials` from the checkboxes, over the
positions still to visit. -/
def reinit_device_idxs (available_device_serials : List String) (checkboxes : List Bool) :
    List Nat → List Nat × List String → Except LoadFault (List Nat × List String)
  | [], acc => Except.ok acc
  | i :: rest, (device_idxs, device_serials) =>
    match checkboxes[i]? with
    | none => Except.error LoadFault.undefined
    | some false =>
      reinit_device_idxs available_device_serials checkboxes rest (device_idxs, device_serials)
    | some true =>
      match available_device_serials[i]? with
      | none => Except.error LoadFault.undefined
      | some serial =>
        reinit_device_idxs available_device_serials checkboxes rest
          (device_idxs ++ [i], device_serials ++ [serial])

/-- The enabled-device update of a frame, from `bool enabled_devices_changed = false;` to the
end of `if (enabled_devices_changed) { ... }`. -/
def update_enabled_devices (serialnum : Nat → String) (v : DeviceListVars) :
    Except LoadFault DeviceListVars :=
  let n := v.num_available_devices
  let count_changed := n != v.last_num_available_devices
  let v1 :=
    if count_changed then
      { v with
        available_device_serials := (List.range n).map serialnum
        available_device_nicknames := List.replicate n ""
        available_device_checkboxes := List.replicate n true
        available_device_checkboxes_last := List.replicate n true }
    else v
  match checkboxes_changed v1.available_device_checkboxes v1.available_device_checkboxes_last
      (List.range n) with
  | Except.error f => Except.error f
  | Except.ok differ =>
    if count_changed || differ then
      match reinit_device_idxs v1.available_device_serials v1.available_device_checkboxes
          (List.range n) ([], []) with
      | Except.error f => Except.error f
      | Except.ok (device_idxs, device_serials) =>
        let v2 :=
          { v1 with
            device_idxs := device_idxs
            device_serials := device_serials
            num_enabled_devices := device_idxs.length }
        if v2.json_loaded_flag then Except.ok { v2 with json_loaded_flag := false }
        else
          Except.ok { v2 with configs := List.replicate v2.num_enabled_devices DEFAULT_CONFIG }
    else Except.ok v1

/-- The loop of the Devices panel over the positions still to visit: the checkbox value is
remembered in `available_device_checkboxes_last[i]` and the checkbox is toggled when it is
clicked. Edits of the nickname fields are left out. -/
def devices_checkboxes (clicked : Nat → Bool) :
    List Nat → DeviceListVars → Except LoadFault DeviceListVars
  | [], v => Except.ok v
  | i :: rest, v =>
    match v.available_device_checkboxes[i]?, v.available_device_checkboxes_last[i]? with
    | some c, some _ =>
      devices_checkboxes clicked rest
        { v with
          available_device_checkboxes_last := v.available_device_checkboxes_last.set i c
          available_device_checkboxes :=
            v.available_device_checkboxes.set i (if clicked i then !c else c) }
    | _, _ => Except.error LoadFault.undefined

/-- The Load Config button once a file is chosen: `load_config_json` in a `try` block
followed by `json_loaded_flag = true`; the `std::runtime_error` of a file that is not valid
JSON is caught and printed. -/
def load_config_button (doc : Option ConfigJson) (v : DeviceListVars) :
    Except LoadFault DeviceListVars :=
  match load_config_json doc v.available_device_serials
      { available_device_nicknames := v.available_device_nicknames
        available_device_checkboxes := v.available_device_checkboxes
        identical_configs := v.identical_configs
        configs := v.configs
        recording_enabled := v.recording_enabled
        continuous_recording := v.continuous_recording
        recording_save_path := v.recording_save_path } with
  | Except.ok r =>
    Except.ok
      { v with
        available_device_nicknames := r.available_device_nicknames
        available_device_checkboxes := r.available_device_checkboxes
        identical_configs := r.identical_configs
        configs := r.configs
        recording_enabled := r.recording_enabled
        continuous_recording := r.continuous_recording
        recording_save_path := r.recording_save_path
        json_loaded_flag := true }
  | Except.error LoadFault.runtime_error => Except.ok v
  | Except.error LoadFault.undefined => Except.error LoadFault.undefined

/-- A frame while not streaming, up to the end of the enabled-device update:
`num_available_devices = k4a::device::get_installed_count()` and the update. -/
def frame_begin (input : FrameInput) (v : DeviceListVars) : Except LoadFault DeviceListVars :=
  update_enabled_devices input.serialnum
    { v with num_available_devices := input.installed_count }

/-- The rest of the frame, as far as it writes these variables: the Devices panel with its
checkboxes and the Load Config button, and `last_num_available_devices =
num_available_devices` at the end of the frame, with the Devices header open. The Streaming
panel in between reads and writes elements `configs[i]` for `i < num_enabled_devices` and
leaves the size of `configs` alone. -/
def frame_end (input : FrameInput) (v : DeviceListVars) : Except LoadFault DeviceListVars :=
  match devices_checkboxes input.clicked (List.range v.num_available_devices) v with
  | Except.error f => Except.error f
  | Except.ok v1 =>
    let loaded :=
      match input.load with
      | some doc => load_config_button doc v1
      | none => Except.ok v1
    match loaded with
    | Except.error f => Except.error f
    | Except.ok v2 =>
      Except.ok { v2 with last_num_available_devices := v2.num_available_devices }

/-- One frame of the main loop while not streaming. -/
def frame (input : FrameInput) (v : DeviceListVars) : Except LoadFault DeviceListVars :=
  match frame_begin input v with
  | Except.error f => Except.error f
  | Except.ok v1 => frame_end input v1

/-- A sequence of frames, in order. -/
def frames : DeviceListVars → List FrameInput → Except LoadFault DeviceListVars
  | v, [] => Except.ok v
  | v, input :: rest =>
    match frame input v with
    | Except.error f => Except.error f
    | Except.ok v1 => frames v1 rest

/-- The state right after the enabled-device update of the frame `last` that follows the
frames `inputs`, started from the values before the main loop. -/
def after_update (inputs : List FrameInput) (last : FrameInput) :
    Except LoadFault DeviceListVars :=
  match frames DeviceListVars.initial inputs with
  | Except.error f => Except.error f
  | Except.ok v => frame_begin last v

/-! ## States and inputs used as examples -/

/-- A state before streaming with two enabled devices, roles [master, subordinate]. -/
def example_idle : State :=
  { State.initial with
    available_device_serials := ["000123", "000456"]
    available_device_nicknames := ["left", ""]
    device_idxs := [0, 1]
    num_enabled_devices := 2
    configs := [config_with_role K4A_WIRED_SYNC_MODE_MASTER,
      config_with_role K4A_WIRED_SYNC_MODE_SUBORDINATE] }

/-- An SDK in which every call returns except the start call of the device at position 0. -/
def example_sdk_master_fails : Sdk :=
  { open_ok := fun _ => true
    serialnum_ok := fun _ => true
    record_create_ok := fun _ => true
    write_header_ok := fun _ => true
    start_ok := fun i => i != 0
    hardware_concurrency := 8
    now := 1700000000
    separator := '/' }

/-- An SDK in which every call returns. -/
def example_sdk : Sdk :=
  { open_ok := fun _ => true
    serialnum_ok := fun _ => true
    record_create_ok := fun _ => true
    write_header_ok := fun _ => true
    start_ok := fun _ => true
    hardware_concurrency := 8
    now := 1700000000
    separator := '/' }

/-- The state reached from `example_idle`, with recording enabled and the given recording
mode, by pressing Start Streaming. -/
def example_streaming (continuous_recording : Bool) : State :=
  match streaming_button example_sdk
      { example_idle with
        recording_enabled := true
        continuous_recording := continuous_recording
        recording_save_path := "rec" } with
  | Except.ok s => s
  | Except.error _ => State.initial

/-- A capture with a 1x1 BGRA32 color image and no IR image. -/
def example_capture : k4a_capture :=
  { color_image := some { format := K4A_IMAGE_FORMAT_COLOR_BGRA32, width_pixels := 1
                          height_pixels := 1, buffer := [7] }
    ir_image := none }

/-- A capture with a color image in the NV12 format, which the color path does not decode. -/
def example_capture_nv12 : k4a_capture :=
  { color_image := some { format := K4A_IMAGE_FORMAT_COLOR_NV12, width_pixels := 2
                          height_pixels := 1, buffer := [1, 2] }
    ir_image := none }

/-- A task for device 0 carrying `example_capture`, flips off, no sink. -/
def example_job : Job :=
  { capture := example_capture, config := DEFAULT_CONFIG, color_queue := 0, ir_queue := 0
    hflip_color := false, hflip_ir := false, recording := none, recording_write_enable := false }

/-- The state after Start Streaming from `example_idle` and four runs of `example_job`. -/
def example_after_four_jobs : State :=
  match exec (fun _ => (1, [])) example_idle
      [Action.button example_sdk, Action.work example_job, Action.work example_job,
        Action.work example_job, Action.work example_job] with
  | Except.ok s => s
  | Except.error _ => State.initial

/-- A capture with a 1x1 IR image holding one raw sample, and no color image. -/
def ir_capture (sample : Nat) : k4a_capture :=
  { color_image := none
    ir_image := some { format := 0, width_pixels := 1, height_pixels := 1, buffer := [sample] } }

/-- A capture with a 1x2 MJPG color image and a 1x1 IR image. -/
def example_capture_mjpg : k4a_capture :=
  { color_image := some { format := K4A_IMAGE_FORMAT_COLOR_MJPG, width_pixels := 2
                          height_pixels := 1, buffer := [255, 216] }
    ir_image := some { format := 0, width_pixels := 1, height_pixels := 1, buffer := [40] } }

/-- A configuration document for the device with serial number "000123" whose color format
is "RGB" and whose sync mode is "Primary", names that are in no table, and whose fps is 30. -/
def example_document : ConfigJson :=
  { identical_configs := false
    save_path := none
    continuous_recording := none
    has_key := fun key => key == "000123"
    to_string := fun _ field =>
      if field = "color_format" then "RGB"
      else if field = "color_resolution" then "1080p"
      else if field = "depth_mode" then "Passive IR"
      else if field = "sync_mode" then "Primary"
      else "cam"
    to_int := fun _ _ => 30 }

/-- The configuration variables of `main` with one available device, before a load. -/
def example_vars : ConfigVars :=
  { available_device_nicknames := [""]
    available_device_checkboxes := [true]
    identical_configs := true
    configs := [DEFAULT_CONFIG]
    recording_enabled := false
    continuous_recording := true
    recording_save_path := "" }

/-- The state one frame after `example_streaming true`, device 0 having yielded a capture. -/
def example_after_tick : State :=
  match tick (only_device 0 example_capture) (example_streaming true) with
  | Except.ok s => s
  | Except.error _ => State.initial

/-- The task that the frame leading to `example_after_tick` pushes to the worker pool. -/
def example_pending_job : Job :=
  { capture := example_capture
    config := config_with_role K4A_WIRED_SYNC_MODE_MASTER
    color_queue := 0, ir_queue := 0, hflip_color := false, hflip_ir := false
    recording := some 0, recording_write_enable := true }

/-- The state after Stop Streaming is pressed in `example_after_tick`. -/
def example_after_stop : State :=
  match streaming_button example_sdk example_after_tick with
  | Except.ok s => s
  | Except.error _ => State.initial

/-- The state one frame after `example_streaming false` (devices [master, subordinate]), only
the subordinate having yielded a capture. -/
def example_after_subordinate_tick : State :=
  match tick (only_device 1 example_capture) (example_streaming false) with
  | Except.ok s => s
  | Except.error _ => State.initial

/-- The state after the worker ran the task of `example_after_subordinate_tick`: the color
queue of device 1 holds one frame. -/
def example_with_frame : State :=
  match run_jobs (fun _ => (1, [])) example_after_subordinate_tick
      example_after_subordinate_tick.tasks with
  | Except.ok s => s
  | Except.error _ => State.initial

/-- Serial numbers of the installed devices in the examples: "000123" at index 0 and "000456"
at every other index. -/
def example_serialnum (i : Nat) : String := if i = 0 then "000123" else "000456"

/-- A configuration document that holds an entry for the device "000123" only, with names
that are in the tables. -/
def example_document_one : ConfigJson :=
  { identical_configs := false
    save_path := none
    continuous_recording := none
    has_key := fun key => key == "000123"
    to_string := fun _ field =>
      if field = "color_format" then "BGRA32"
      else if field = "color_resolution" then "1080p"
      else if field = "depth_mode" then "NFOV Unbinned"
      else if field = "sync_mode" then "Standalone"
      else "cam"
    to_int := fun _ _ => 2 }

/-- A frame with `n` installed devices in which the operator does nothing. -/
def frame_idle (n : Nat) : FrameInput :=
  { installed_count := n, serialnum := example_serialnum, clicked := fun _ => false
    load := none }

/-- A frame with `n` installed devices in which the operator clicks the checkbox of the
device at index `i`. -/
def frame_click (n i : Nat) : FrameInput :=
  { installed_count := n, serialnum := example_serialnum, clicked := fun j => j == i
    load := none }

/-- A frame with `n` installed devices in which the operator loads `example_document_one`. -/
def frame_load (n : Nat) : FrameInput :=
  { installed_count := n, serialnum := example_serialnum, clicked := fun _ => false
    load := some (some example_document_one) }

/-! ## Lemmas on the start and stop loops -/

theorem attempt_starts_append (start_ok : Nat → Bool) (a b : List Nat) :
    attempt_starts start_ok (a ++ b) =
      match attempt_starts start_ok a with
      | (cs, some f) => (cs, some f)
      | (cs, none) => (cs ++ (attempt_starts start_ok b).1, (attempt_starts start_ok b).2) := by
  induction a with
  | nil => simp [attempt_starts]
  | cons i rest ih =>
    simp only [List.cons_append, attempt_starts]
    by_cases h : start_ok i = true
    · simp only [h, if_true]
      cases hr : attempt_starts start_ok rest with
      | mk cs f =>
        rw [hr] at ih
        cases f <;> simp [ih]
    · simp [h]

theorem attempt_starts_all_ok (start_ok : Nat → Bool) (l : List Nat)
    (h : ∀ i, i ∈ l → start_ok i = true) :
    attempt_starts start_ok l = (l.map Call.start_cameras, none) := by
  induction l with
  | nil => rfl
  | cons i rest ih =>
    have hi : start_ok i = true := h i (List.mem_cons_self i rest)
    have hr := ih (fun j hj => h j (List.mem_cons_of_mem i hj))
    simp [attempt_starts, hi, hr]

theorem attempt_starts_first_failure (start_ok : Nat → Bool) (pre post : List Nat) (i : Nat)
    (hpre : ∀ j, j ∈ pre → start_ok j = true) (hi : start_ok i = false) :
    attempt_starts start_ok (pre ++ i :: post) =
      ((pre ++ [i]).map Call.start_cameras, some Fault.k4a_error) := by
  rw [attempt_starts_append, attempt_starts_all_ok start_ok pre hpre]
  simp [attempt_starts, hi]

theorem attempt_starts_fault (start_ok : Nat → Bool) (l : List Nat) :
    (attempt_starts start_ok l).2 = none ∨ (attempt_starts start_ok l).2 = some Fault.k4a_error := by
  induction l with
  | nil => left; rfl
  | cons i rest ih =>
    by_cases h : start_ok i = true
    · simpa [attempt_starts, h] using ih
    · right; simp [attempt_starts, h]

theorem attempt_starts_calls_mem (start_ok : Nat → Bool) (l : List Nat) (c : Call)
    (h : c ∈ (attempt_starts start_ok l).1) : ∃ i, i ∈ l ∧ c = Call.start_cameras i := by
  induction l with
  | nil => simp [attempt_starts] at h
  | cons i rest ih =>
    by_cases hi : start_ok i = true
    · simp only [attempt_starts, hi, if_true, List.mem_cons] at h
      rcases h with h | h
      · exact ⟨i, List.mem_cons_self i rest, h⟩
      · obtain ⟨j, hj, hc⟩ := ih h
        exact ⟨j, List.mem_cons_of_mem i hj, hc⟩
    · simp only [attempt_starts, hi, List.mem_singleton] at h
      exact ⟨i, List.mem_cons_self i rest, by simpa using h⟩

theorem attempt_starts_split (start_ok : Nat → Bool) (l : List Nat) :
    (attempt_starts start_ok l = (l.map Call.start_cameras, none) ∧
        ∀ i, i ∈ l → start_ok i = true) ∨
      ∃ pre i post, l = pre ++ i :: post ∧ (∀ j, j ∈ pre → start_ok j = true) ∧
        start_ok i = false ∧
        attempt_starts start_ok l = ((pre ++ [i]).map Call.start_cameras, some Fault.k4a_error) := by
  induction l with
  | nil => left; exact ⟨rfl, by simp⟩
  | cons i rest ih =>
    by_cases hi : start_ok i = true
    · rcases ih with ⟨h1, h2⟩ | ⟨pre, k, post, hl, hpre, hk, hr⟩
      · left
        refine ⟨by simp [attempt_starts, hi, h1], ?_⟩
        intro j hj
        rcases List.mem_cons.1 hj with rfl | hj
        · exact hi
        · exact h2 j hj
      · right
        refine ⟨i :: pre, k, post, by simp [hl], ?_, hk, by simp [attempt_starts, hi, hr]⟩
        intro j hj
        rcases List.mem_cons.1 hj with rfl | hj
        · exact hi
        · exact hpre j hj
    · right
      have hi' : start_ok i = false := by simpa using hi
      exact ⟨[], i, rest, rfl, by simp, hi', by simp [attempt_starts, hi']⟩

theorem start_streaming_devices_eq (start_ok : Nat → Bool)
    (configs : List k4a_device_configuration_t) (mode : Int) (l : List Nat)
    (h : ∀ i, i ∈ l → i < configs.length) :
    start_streaming_devices start_ok configs mode l =
      attempt_starts start_ok (l.filter (fun i => match configs[i]? with
        | some c => decide (c.wired_sync_mode = mode)
        | none => false)) := by
  induction l with
  | nil => rfl
  | cons i rest ih =>
    have hi : i < configs.length := h i (List.mem_cons_self i rest)
    have hr := ih (fun j hj => h j (List.mem_cons_of_mem i hj))
    have hget : configs[i]? = some configs[i] := List.getElem?_eq_getElem hi
    by_cases hm : configs[i].wired_sync_mode = mode
    · by_cases hok : start_ok i = true
      · simp [start_streaming_devices, hget, hm, hok, hr, List.filter_cons, attempt_starts]
      · simp [start_streaming_devices, hget, hm, hok, List.filter_cons, attempt_starts]
    · simp [start_streaming_devices, hget, hm, hr, List.filter_cons]

theorem start_streaming_modes_eq (start_ok : Nat → Bool)
    (configs : List k4a_device_configuration_t) (n : Nat) (hn : n ≤ configs.length)
    (modes : List Int) :
    start_streaming_modes start_ok configs n modes =
      attempt_starts start_ok ((modes.map (role_positions configs n)).flatten) := by
  induction modes with
  | nil => rfl
  | cons m ms ih =>
    have hin : ∀ i, i ∈ List.range n → i < configs.length := fun i hi =>
      lt_of_lt_of_le (List.mem_range.1 hi) hn
    simp only [start_streaming_modes, List.map_cons, List.flatten_cons, attempt_starts_append,
      start_streaming_devices_eq start_ok configs m (List.range n) hin, ih, role_positions]

theorem start_streaming_eq (start_ok : Nat → Bool) (devices : List device)
    (configs : List k4a_device_configuration_t) (hn : devices.length ≤ configs.length) :
    start_streaming start_ok devices configs =
      attempt_starts start_ok (start_sequence configs devices.length) := by
  unfold start_streaming
  rw [start_streaming_modes_eq start_ok configs devices.length hn]
  simp [DEVICE_STREAMING_START_ORDER, start_sequence]

theorem mem_role_positions (configs : List k4a_device_configuration_t) (n : Nat) (m : Int)
    (i : Nat) :
    i ∈ role_positions configs n m ↔
      i < n ∧ ∃ c, configs[i]? = some c ∧ c.wired_sync_mode = m := by
  unfold role_positions
  rw [List.mem_filter, List.mem_range]
  cases h : configs[i]? <;> simp

theorem role_positions_nodup (configs : List k4a_device_configuration_t) (n : Nat) (m : Int) :
    (role_positions configs n m).Nodup :=
  List.Nodup.filter _ (List.nodup_range n)

theorem role_positions_disjoint (configs : List k4a_device_configuration_t) (n : Nat)
    (m m' : Int) (hne : m ≠ m') :
    List.Disjoint (role_positions configs n m) (role_positions configs n m') := by
  intro i h1 h2
  obtain ⟨_, c, hc, hm⟩ := (mem_role_positions configs n m i).1 h1
  obtain ⟨_, c', hc', hm'⟩ := (mem_role_positions configs n m' i).1 h2
  rw [hc] at hc'
  cases hc'
  exact hne (hm.symm.trans hm')

theorem three_roles_nodup (configs : List k4a_device_configuration_t) (n : Nat) (a b c : Int)
    (hab : a ≠ b) (hac : a ≠ c) (hbc : b ≠ c) :
    (role_positions configs n a ++
      (role_positions configs n b ++ role_positions configs n c)).Nodup := by
  refine List.Nodup.append (role_positions_nodup configs n a) ?_ ?_
  · exact List.Nodup.append (role_positions_nodup configs n b) (role_positions_nodup configs n c)
      (role_positions_disjoint configs n b c hbc)
  · intro i h1 h2
    rcases List.mem_append.1 h2 with h2 | h2
    · exact role_positions_disjoint configs n a b hab h1 h2
    · exact role_positions_disjoint configs n a c hac h1 h2

theorem start_sequence_nodup (configs : List k4a_device_configuration_t) (n : Nat) :
    (start_sequence configs n).Nodup :=
  three_roles_nodup configs n _ _ _ (by decide) (by decide) (by decide)

theorem stop_sequence_nodup (configs : List k4a_device_configuration_t) (n : Nat) :
    (stop_sequence configs n).Nodup :=
  three_roles_nodup configs n _ _ _ (by decide) (by decide) (by decide)

theorem mem_start_sequence (configs : List k4a_device_configuration_t) (n i : Nat) :
    i ∈ start_sequence configs n ↔
      i < n ∧ ∃ c, configs[i]? = some c ∧
        (c.wired_sync_mode = K4A_WIRED_SYNC_MODE_STANDALONE ∨
          c.wired_sync_mode = K4A_WIRED_SYNC_MODE_MASTER ∨
          c.wired_sync_mode = K4A_WIRED_SYNC_MODE_SUBORDINATE) := by
  simp only [start_sequence, List.mem_append, mem_role_positions]
  constructor
  · rintro (⟨h, c, hc, hm⟩ | ⟨h, c, hc, hm⟩ | ⟨h, c, hc, hm⟩)
    · exact ⟨h, c, hc, Or.inl hm⟩
    · exact ⟨h, c, hc, Or.inr (Or.inr hm)⟩
    · exact ⟨h, c, hc, Or.inr (Or.inl hm)⟩
  · rintro ⟨h, c, hc, hm | hm | hm⟩
    · exact Or.inl ⟨h, c, hc, hm⟩
    · exact Or.inr (Or.inr ⟨h, c, hc, hm⟩)
    · exact Or.inr (Or.inl ⟨h, c, hc, hm⟩)

theorem mem_stop_sequence (configs : List k4a_device_configuration_t) (n i : Nat) :
    i ∈ stop_sequence configs n ↔ i ∈ start_sequence configs n := by
  simp only [start_sequence, stop_sequence, List.mem_append]
  tauto

theorem start_sequence_perm (configs : List k4a_device_configuration_t) (n : Nat)
    (hrole : ∀ i, i < n → ∃ c, configs[i]? = some c ∧
      (c.wired_sync_mode = K4A_WIRED_SYNC_MODE_STANDALONE ∨
        c.wired_sync_mode = K4A_WIRED_SYNC_MODE_MASTER ∨
        c.wired_sync_mode = K4A_WIRED_SYNC_MODE_SUBORDINATE)) :
    (start_sequence configs n).Perm (List.range n) := by
  rw [List.perm_ext_iff_of_nodup (start_sequence_nodup configs n) (List.nodup_range n)]
  intro i
  rw [mem_start_sequence, List.mem_range]
  exact ⟨fun h => h.1, fun h => ⟨h, hrole i h⟩⟩

theorem stop_sequence_perm (configs : List k4a_device_configuration_t) (n : Nat)
    (hrole : ∀ i, i < n → ∃ c, configs[i]? = some c ∧
      (c.wired_sync_mode = K4A_WIRED_SYNC_MODE_STANDALONE ∨
        c.wired_sync_mode = K4A_WIRED_SYNC_MODE_MASTER ∨
        c.wired_sync_mode = K4A_WIRED_SYNC_MODE_SUBORDINATE)) :
    (stop_sequence configs n).Perm (List.range n) := by
  rw [List.perm_ext_iff_of_nodup (stop_sequence_nodup configs n) (List.nodup_range n)]
  intro i
  rw [mem_stop_sequence, mem_start_sequence, List.mem_range]
  exact ⟨fun h => h.1, fun h => ⟨h, hrole i h⟩⟩

theorem count_map_of_perm_range (f : Nat → Call) (hf : Function.Injective f) (l : List Nat)
    (n : Nat) (hp : l.Perm (List.range n)) (i : Nat) (hi : i < n) :
    (l.map f).count (f i) = 1 := by
  rw [List.count_map_of_injective l f hf, hp.count_eq]
  exact List.count_eq_one_of_mem (List.nodup_range n) (List.mem_range.2 hi)

theorem in_range_of_roles (configs : List k4a_device_configuration_t) (n : Nat)
    (hrole : ∀ i, i < n → ∃ c, configs[i]? = some c ∧
      (c.wired_sync_mode = K4A_WIRED_SYNC_MODE_STANDALONE ∨
        c.wired_sync_mode = K4A_WIRED_SYNC_MODE_MASTER ∨
        c.wired_sync_mode = K4A_WIRED_SYNC_MODE_SUBORDINATE)) :
    n ≤ configs.length := by
  by_contra h
  obtain ⟨c, hc, _⟩ := hrole configs.length (by omega)
  simp at hc

theorem stop_streaming_devices_eq (configs : List k4a_device_configuration_t) (mode : Int)
    (l : List Nat) (h : ∀ i, i ∈ l → i < configs.length) :
    stop_streaming_devices configs mode l =
      ((l.filter (fun i => match configs[i]? with
        | some c => decide (c.wired_sync_mode = mode)
        | none => false)).map Call.stop_cameras, none) := by
  induction l with
  | nil => rfl
  | cons i rest ih =>
    have hi : i < configs.length := h i (List.mem_cons_self i rest)
    have hr := ih (fun j hj => h j (List.mem_cons_of_mem i hj))
    have hget : configs[i]? = some configs[i] := List.getElem?_eq_getElem hi
    by_cases hm : configs[i].wired_sync_mode = mode
    · simp [stop_streaming_devices, hget, hm, hr, List.filter_cons]
    · simp [stop_streaming_devices, hget, hm, hr, List.filter_cons]

theorem stop_streaming_modes_eq (configs : List k4a_device_configuration_t) (n : Nat)
    (hn : n ≤ configs.length) (modes : List Int) :
    stop_streaming_modes configs n modes =
      (((modes.map (role_positions configs n)).flatten).map Call.stop_cameras, none) := by
  induction modes with
  | nil => rfl
  | cons m ms ih =>
    have hin : ∀ i, i ∈ List.range n → i < configs.length := fun i hi =>
      lt_of_lt_of_le (List.mem_range.1 hi) hn
    simp [start_streaming_modes, stop_streaming_modes,
      stop_streaming_devices_eq configs m (List.range n) hin, ih, role_positions]

theorem stop_streaming_eq (devices : List device) (configs : List k4a_device_configuration_t)
    (recordings : List record) (hn : devices.length ≤ configs.length) :
    stop_streaming devices configs recordings =
      Except.ok { calls := (stop_sequence configs devices.length).map Call.stop_cameras
                  devices := [], recordings := [] } := by
  unfold stop_streaming
  rw [stop_streaming_modes_eq configs devices.length hn]
  simp [DEVICE_STREAMING_STOP_ORDER, stop_sequence]

theorem start_cameras_injective : Function.Injective Call.start_cameras := by
  intro a b h
  cases h
  rfl

theorem stop_cameras_injective : Function.Injective Call.stop_cameras := by
  intro a b h
  cases h
  rfl

theorem start_streaming_result (start_ok : Nat → Bool) (devices : List device)
    (configs : List k4a_device_configuration_t) (hn : devices.length ≤ configs.length) :
    (start_streaming start_ok devices configs =
        ((start_sequence configs devices.length).map Call.start_cameras, none) ∧
        ∀ i, i ∈ start_sequence configs devices.length → start_ok i = true) ∨
      ∃ pre k post, start_sequence configs devices.length = pre ++ k :: post ∧
        (∀ j, j ∈ pre → start_ok j = true) ∧ start_ok k = false ∧
        start_streaming start_ok devices configs =
          ((pre ++ [k]).map Call.start_cameras, some Fault.k4a_error) := by
  rw [start_streaming_eq start_ok devices configs hn]
  exact attempt_starts_split start_ok (start_sequence configs devices.length)

/-! ## Device synchronization: start and stop order -/

/-- Claim C1. When every device has one of the three sync roles and no start call throws,
`start_streaming` returns normally after issuing the start calls of the standalone devices,
then of the subordinate devices, then of the master devices, each group in index order; every
device receives exactly one start call and no other call is issued. -/
theorem start_streaming_order (start_ok : Nat → Bool) (devices : List device)
    (configs : List k4a_device_configuration_t)
    (hrole : ∀ i, i < devices.length → ∃ c, configs[i]? = some c ∧
      (c.wired_sync_mode = K4A_WIRED_SYNC_MODE_STANDALONE ∨
        c.wired_sync_mode = K4A_WIRED_SYNC_MODE_MASTER ∨
        c.wired_sync_mode = K4A_WIRED_SYNC_MODE_SUBORDINATE))
    (hok : ∀ i, i < devices.length → start_ok i = true) :
    start_streaming start_ok devices configs =
        ((role_positions configs devices.length K4A_WIRED_SYNC_MODE_STANDALONE ++
          (role_positions configs devices.length K4A_WIRED_SYNC_MODE_SUBORDINATE ++
            role_positions configs devices.length K4A_WIRED_SYNC_MODE_MASTER)).map
          Call.start_cameras, none) ∧
      (∀ i, i < devices.length →
        (start_streaming start_ok devices configs).1.count (Call.start_cameras i) = 1) ∧
      (start_streaming start_ok devices configs).1.length = devices.length := by
  have hn := in_range_of_roles configs devices.length hrole
  have hperm := start_sequence_perm configs devices.length hrole
  have hall : ∀ i, i ∈ start_sequence configs devices.length → start_ok i = true := fun i hi =>
    hok i ((mem_start_sequence configs devices.length i).1 hi).1
  have heq : start_streaming start_ok devices configs =
      ((start_sequence configs devices.length).map Call.start_cameras, none) := by
    rw [start_streaming_eq start_ok devices configs hn, attempt_starts_all_ok start_ok _ hall]
  refine ⟨heq, ?_, ?_⟩
  · intro i hi
    rw [heq]
    exact count_map_of_perm_range Call.start_cameras start_cameras_injective _ _ hperm i hi
  · rw [heq]
    simp [hperm.length_eq]

/-- Witness of claim C1: roles [master, subordinate] give the call sequence
[device 1, device 0]. -/
theorem start_streaming_order_witness :
    start_streaming (fun _ => true) [{ index := 0 }, { index := 1 }]
        [config_with_role K4A_WIRED_SYNC_MODE_MASTER,
          config_with_role K4A_WIRED_SYNC_MODE_SUBORDINATE] =
      ([Call.start_cameras 1, Call.start_cameras 0], none) := by
  have h := (start_streaming_order (fun _ => true) [{ index := 0 }, { index := 1 }]
    [config_with_role K4A_WIRED_SYNC_MODE_MASTER,
      config_with_role K4A_WIRED_SYNC_MODE_SUBORDINATE]
    (by
      intro i hi
      have hi' : i = 0 ∨ i = 1 := by simp at hi; omega
      rcases hi' with rfl | rfl
      · exact ⟨_, rfl, Or.inr (Or.inl rfl)⟩
      · exact ⟨_, rfl, Or.inr (Or.inr rfl)⟩)
    (fun _ _ => rfl)).1
  rw [h]
  decide

/-- Claim C2. When every device has one of the three sync roles, `stop_streaming` issues the
stop calls of the master devices, then of the subordinate devices, then of the standalone
devices, each group in index order; every device receives exactly one stop call, no other call
is issued, and the device list and the recording list are empty afterwards. -/
theorem stop_streaming_order (devices : List device)
    (configs : List k4a_device_configuration_t) (recordings : List record)
    (hrole : ∀ i, i < devices.length → ∃ c, configs[i]? = some c ∧
      (c.wired_sync_mode = K4A_WIRED_SYNC_MODE_STANDALONE ∨
        c.wired_sync_mode = K4A_WIRED_SYNC_MODE_MASTER ∨
        c.wired_sync_mode = K4A_WIRED_SYNC_MODE_SUBORDINATE)) :
    ∃ r, stop_streaming devices configs recordings = Except.ok r ∧
      r.calls =
        (role_positions configs devices.length K4A_WIRED_SYNC_MODE_MASTER ++
          (role_positions configs devices.length K4A_WIRED_SYNC_MODE_SUBORDINATE ++
            role_positions configs devices.length K4A_WIRED_SYNC_MODE_STANDALONE)).map
          Call.stop_cameras ∧
      (∀ i, i < devices.length → r.calls.count (Call.stop_cameras i) = 1) ∧
      r.calls.length = devices.length ∧
      r.devices = [] ∧ r.recordings = [] := by
  have hn := in_range_of_roles configs devices.length hrole
  have hperm := stop_sequence_perm configs devices.length hrole
  refine ⟨_, stop_streaming_eq devices configs recordings hn, rfl, ?_, ?_, rfl, rfl⟩
  · intro i hi
    exact count_map_of_perm_range Call.stop_cameras stop_cameras_injective _ _ hperm i hi
  · simp [hperm.length_eq]

/-- Witness of claim C2: devices with roles [standalone, master, subordinate] and one open
recording are stopped in the order [device 1, device 2, device 0], and both lists end empty. -/
theorem stop_streaming_order_witness :
    stop_streaming [{ index := 0 }, { index := 1 }, { index := 2 }]
        [config_with_role K4A_WIRED_SYNC_MODE_STANDALONE,
          config_with_role K4A_WIRED_SYNC_MODE_MASTER,
          config_with_role K4A_WIRED_SYNC_MODE_SUBORDINATE]
        [{ path := "a.mkv", dev := 0, header := true, written := [] }] =
      Except.ok { calls := [Call.stop_cameras 1, Call.stop_cameras 2, Call.stop_cameras 0]
                  devices := [], recordings := [] } := by
  obtain ⟨r, hr, hcalls, _, _, hd, hrec⟩ :=
    stop_streaming_order [{ index := 0 }, { index := 1 }, { index := 2 }]
      [config_with_role K4A_WIRED_SYNC_MODE_STANDALONE,
        config_with_role K4A_WIRED_SYNC_MODE_MASTER,
        config_with_role K4A_WIRED_SYNC_MODE_SUBORDINATE]
      [{ path := "a.mkv", dev := 0, header := true, written := [] }]
      (by
        intro i hi
        have hi' : i = 0 ∨ i = 1 ∨ i = 2 := by simp at hi; omega
        rcases hi' with rfl | rfl | rfl
        · exact ⟨_, rfl, Or.inl rfl⟩
        · exact ⟨_, rfl, Or.inr (Or.inl rfl)⟩
        · exact ⟨_, rfl, Or.inr (Or.inr rfl)⟩)
  rw [hr]
  cases r with
  | mk calls ds recs =>
    simp only at hcalls hd hrec
    subst hd hrec
    rw [hcalls]
    rfl

/-- Claim C3. With a configuration for every device: if the start call of a device throws,
`start_streaming` ends with the `k4a::error` in flight, the calls issued are those of the
start sequence up to and including that device, and no device later in the start sequence
receives a start call; and `start_streaming` returns normally exactly when no start call
issued has thrown. -/
theorem start_streaming_failure (start_ok : Nat → Bool) (devices : List device)
    (configs : List k4a_device_configuration_t) (hn : devices.length ≤ configs.length) :
    (∀ i, Call.start_cameras i ∈ (start_streaming start_ok devices configs).1 →
      start_ok i = false →
      (start_streaming start_ok devices configs).2 = some Fault.k4a_error ∧
        ∃ pre post, start_sequence configs devices.length = pre ++ i :: post ∧
          (start_streaming start_ok devices configs).1 = (pre ++ [i]).map Call.start_cameras ∧
          ∀ j, j ∈ post → Call.start_cameras j ∉ (start_streaming start_ok devices configs).1) ∧
      ((start_streaming start_ok devices configs).2 = none ↔
        ∀ i, Call.start_cameras i ∈ (start_streaming start_ok devices configs).1 →
          start_ok i = true) := by
  rw [start_streaming_eq start_ok devices configs hn]
  have hnd := start_sequence_nodup configs devices.length
  rcases attempt_starts_split start_ok (start_sequence configs devices.length) with
    ⟨heq, hall⟩ | ⟨pre, k, post, hseq, hpre, hk, heq⟩
  · rw [heq]
    refine ⟨?_, ?_⟩
    · intro i hi hfalse
      obtain ⟨j, hj, hij⟩ := List.mem_map.1 hi
      cases hij
      rw [hall i hj] at hfalse
      cases hfalse
    · refine ⟨fun _ i hi => ?_, fun _ => rfl⟩
      obtain ⟨j, hj, hij⟩ := List.mem_map.1 hi
      cases hij
      exact hall i hj
  · rw [heq]
    refine ⟨?_, ?_⟩
    · intro i hi hfalse
      obtain ⟨j, hj, hij⟩ := List.mem_map.1 hi
      cases hij
      have hik : i = k := by
        rcases List.mem_append.1 hj with h | h
        · rw [hpre i h] at hfalse
          cases hfalse
        · simpa using h
      subst hik
      refine ⟨rfl, pre, post, hseq, rfl, ?_⟩
      intro j hjpost hmem
      have hjin : j ∈ pre ++ [i] := by
        obtain ⟨j', hj', hjj⟩ := List.mem_map.1 hmem
        have hjeq : j' = j := start_cameras_injective hjj
        exact hjeq ▸ hj'
      rw [hseq] at hnd
      have hdis := (List.nodup_append.1 hnd).2.2
      have hnd2 := (List.nodup_append.1 hnd).2.1
      rcases List.mem_append.1 hjin with h | h
      · exact hdis h (List.mem_cons_of_mem i hjpost)
      · have hji : j = i := by simpa using h
        rw [hji] at hjpost
        exact (List.nodup_cons.1 hnd2).1 hjpost
    · constructor
      · intro h
        cases h
      · intro h
        have hmem : Call.start_cameras k ∈ List.map Call.start_cameras (pre ++ [k]) :=
          List.mem_map.2 ⟨k, by simp, rfl⟩
        have := h k hmem
        rw [hk] at this
        cases this

/-- Witness of claim C3: with roles [master, subordinate, standalone] and the start call of
device 1 throwing, devices 2 and 1 are called, device 0 is not, and the error is in flight. -/
theorem start_streaming_failure_witness :
    start_streaming (fun i => i != 1) [{ index := 0 }, { index := 1 }, { index := 2 }]
        [config_with_role K4A_WIRED_SYNC_MODE_MASTER,
          config_with_role K4A_WIRED_SYNC_MODE_SUBORDINATE,
          config_with_role K4A_WIRED_SYNC_MODE_STANDALONE] =
      ([Call.start_cameras 2, Call.start_cameras 1], some Fault.k4a_error) ∧
    (start_streaming (fun i => i != 1) [{ index := 0 }, { index := 1 }, { index := 2 }]
        [config_with_role K4A_WIRED_SYNC_MODE_MASTER,
          config_with_role K4A_WIRED_SYNC_MODE_SUBORDINATE,
          config_with_role K4A_WIRED_SYNC_MODE_STANDALONE]).2 = some Fault.k4a_error :=
  ⟨by decide,
    ((start_streaming_failure (fun i => i != 1) [{ index := 0 }, { index := 1 }, { index := 2 }]
      [config_with_role K4A_WIRED_SYNC_MODE_MASTER,
        config_with_role K4A_WIRED_SYNC_MODE_SUBORDINATE,
        config_with_role K4A_WIRED_SYNC_MODE_STANDALONE] (by decide)).1 1 (by decide)
      (by decide)).1⟩

/-! ## Start Streaming handler: rollback -/

/-- Claim C4. In the Start Streaming handler, when the devices were opened, the recordings
initialized and a start call then throws: the handler completes with the streaming flag
false, the device list and the recording list empty, the calls issued are the start calls
followed by the stop calls of `stop_streaming`, every device that received a start call
receives a stop call, and the capture dispatch loop of a following frame does nothing. -/
theorem start_failure_rolls_back (sdk : Sdk) (s : State) (ds : List device)
    (we : List Bool) (recs : List record)
    (hs : s.streaming = false)
    (hopen : open_devices sdk s.device_idxs s.devices = (ds, none))
    (hrec : initialize_recordings sdk s.recording_enabled ds s.configs s.device_idxs
      s.available_device_serials s.available_device_nicknames s.recording_save_path =
        ((we, recs), none))
    (hcfg : ds.length ≤ s.configs.length)
    (hfail : ∃ i, Call.start_cameras i ∈ (start_streaming sdk.start_ok ds s.configs).1 ∧
      sdk.start_ok i = false) :
    ∃ s1, streaming_button sdk s = Except.ok s1 ∧
      s1.streaming = false ∧ s1.devices = [] ∧ s1.recordings = [] ∧
      s1.calls = s.calls ++ (start_streaming sdk.start_ok ds s.configs).1 ++
        (stop_sequence s.configs ds.length).map Call.stop_cameras ∧
      (∀ j, Call.start_cameras j ∈ (start_streaming sdk.start_ok ds s.configs).1 →
        Call.stop_cameras j ∈ (stop_sequence s.configs ds.length).map Call.stop_cameras) ∧
      (∀ acq, tick acq s1 = Except.ok s1) ∧ s1.tasks = [] := by
  obtain ⟨i, hi, hfalse⟩ := hfail
  rcases start_streaming_result sdk.start_ok ds s.configs hcfg with
    ⟨heq, hall⟩ | ⟨pre, k, post, hseq, hpre, hk, heq⟩
  · rw [heq] at hi
    obtain ⟨j, hj, hij⟩ := List.mem_map.1 hi
    cases hij
    rw [hall i hj] at hfalse
    cases hfalse
  · have hstop := stop_streaming_eq ds s.configs recs hcfg
    simp only [streaming_button, hs, start_streaming_try, hopen, initialize_device_thread_vars,
      hrec, heq, stop_and_clear, hstop, Bool.not_false, if_true]
    refine ⟨_, rfl, rfl, rfl, rfl, ?_, ?_, ?_, ?_⟩
    · simp [List.append_assoc]
    · intro j hj
      obtain ⟨j', hj', hjj⟩ := List.mem_map.1 hj
      have hjeq : j' = j := start_cameras_injective hjj
      rw [hjeq] at hj'
      have hmem : j ∈ start_sequence s.configs ds.length := by
        rw [hseq]
        rcases List.mem_append.1 hj' with h | h
        · exact List.mem_append_left _ h
        · have hjk : j = k := by simpa using h
          rw [hjk]
          exact List.mem_append_right _ (List.mem_cons_self k post)
      exact List.mem_map.2 ⟨j, (mem_stop_sequence s.configs ds.length j).2 hmem, rfl⟩
    · intro acq
      simp [tick]
    · simp [State.tasks]

/-- Witness of claim C4: two devices with roles [master, subordinate] and the start call of
the master throwing. The subordinate is started, the start of the master fails, then both
are stopped (master first), and the handler leaves the program not streaming. -/
theorem start_failure_rolls_back_witness :
    ∃ s1, streaming_button example_sdk_master_fails example_idle = Except.ok s1 ∧
      s1.streaming = false ∧ s1.devices = [] ∧ s1.recordings = [] ∧
      s1.calls = [Call.start_cameras 1, Call.start_cameras 0, Call.stop_cameras 0,
        Call.stop_cameras 1] := by
  obtain ⟨s1, h1, h2, h3, h4, h5, _⟩ :=
    start_failure_rolls_back example_sdk_master_fails example_idle
      [{ index := 0 }, { index := 1 }] [false, false] []
      (by decide) (by decide) (by decide) (by decide) ⟨0, by decide, by decide⟩
  exact ⟨s1, h1, h2, h3, h4, by rw [h5]; decide⟩

/-! ## Lemmas on the dispatch loop -/

theorem same_mode_refl (s : State) : same_mode s s := ⟨rfl, rfl, rfl, rfl⟩

theorem same_mode_trans {s t u : State} (h1 : same_mode s t) (h2 : same_mode t u) :
    same_mode s u :=
  ⟨h2.1.trans h1.1, h2.2.1.trans h1.2.1, h2.2.2.1.trans h1.2.2.1, h2.2.2.2.trans h1.2.2.2⟩

theorem getElem?_of_lt_length {α : Type} (l : List α) (i n : Nat) (hl : l.length = n)
    (hi : i < n) : ∃ x, l[i]? = some x :=
  ⟨l[i], List.getElem?_eq_getElem (by omega)⟩

theorem submit_capture_spec (s : State) (i : Nat) (c : k4a_capture) (hr : s.ready)
    (hi : i < s.num_enabled_devices) :
    ∃ s1 job, submit_capture s i c = Except.ok s1 ∧ s1.ready ∧ same_mode s s1 ∧
      s1.tasks = s.tasks ++ [job] ∧
      job.capture = c ∧ job.color_queue = i ∧ job.ir_queue = i ∧
      job.recording = (if s.recording_enabled then some i else none) ∧
      job.recording_write_enable = s.persist i ∧
      s1.recording_write_enables = s.recording_write_enables.set i false ∧
      s1.color_queues = s.color_queues ∧ s1.ir_queues = s.ir_queues ∧
      s1.color_disps = s.color_disps ∧ s1.ir_disps = s.ir_disps ∧
      s1.recordings = s.recordings ∧ s1.devices = s.devices := by
  obtain ⟨hp, hd, hc, hcq, hiq, hcd, hid, hch, hih, hwe, hrec⟩ := hr
  obtain ⟨pool, hpool⟩ := Option.isSome_iff_exists.1 hp
  obtain ⟨config, hconfig⟩ := getElem?_of_lt_length s.configs i s.configs.length rfl (by omega)
  obtain ⟨cq, hcq'⟩ := getElem?_of_lt_length s.color_queues i _ hcq hi
  obtain ⟨iq, hiq'⟩ := getElem?_of_lt_length s.ir_queues i _ hiq hi
  obtain ⟨ch, hch'⟩ := getElem?_of_lt_length s.color_hflips i _ hch hi
  obtain ⟨ih, hih'⟩ := getElem?_of_lt_length s.ir_hflips i _ hih hi
  obtain ⟨we, hwe'⟩ := getElem?_of_lt_length s.recording_write_enables i _ hwe hi
  have hrecs : (s.recording_enabled && s.recordings[i]?.isNone) = false := by
    cases hen : s.recording_enabled with
    | false => rfl
    | true =>
      obtain ⟨r, hr⟩ := getElem?_of_lt_length s.recordings i _ (hrec hen) hi
      simp [hr]
  have htasks : s.tasks = pool.tasks := by simp [State.tasks, hpool]
  simp only [submit_capture, hpool, hconfig, hcq', hiq', hch', hih', hwe', hrecs, htasks]
  refine ⟨_, _, rfl, ?_, ⟨rfl, rfl, rfl, rfl⟩, rfl, rfl, rfl, rfl, rfl, ?_, rfl, rfl, rfl, rfl,
    rfl, rfl, rfl⟩
  · exact ⟨rfl, hd, hc, hcq, hiq, hcd, hid, hch, hih, by simpa using hwe, hrec⟩
  · simp [State.persist, hwe']

theorem drain_queue_spec (queues : List (SPSCQueue Image)) (disps : List (Option Image))
    (i n : Nat) (hq : queues.length = n) (hd : disps.length = n) (hi : i < n) :
    ∃ q d, drain_queue queues disps i = Except.ok (q, d) ∧ q.length = n ∧ d.length = n := by
  obtain ⟨q0, hq0⟩ := getElem?_of_lt_length queues i n hq hi
  obtain ⟨d0, hd0⟩ := getElem?_of_lt_length disps i n hd hi
  by_cases he : q0.empty = true
  · exact ⟨queues, disps, by simp [drain_queue, hq0, hd0, he], hq, hd⟩
  · exact ⟨queues.set i q0.pop, disps.set i q0.front, by simp [drain_queue, hq0, hd0, he],
      by simpa using hq, by simpa using hd⟩

theorem drain_device_spec (s : State) (i : Nat) (hr : s.ready) (hi : i < s.num_enabled_devices) :
    ∃ s1, drain_device s i = Except.ok s1 ∧ s1.ready ∧ same_mode s s1 ∧
      s1.tasks = s.tasks ∧ s1.recording_write_enables = s.recording_write_enables ∧
      s1.recordings = s.recordings ∧ s1.devices = s.devices := by
  obtain ⟨hp, hd, hc, hcq, hiq, hcd, hid, hch, hih, hwe, hrec⟩ := hr
  obtain ⟨cq, cd, h1, hcq1, hcd1⟩ :=
    drain_queue_spec s.color_queues s.color_disps i _ hcq hcd hi
  obtain ⟨iq, id, h2, hiq1, hid1⟩ := drain_queue_spec s.ir_queues s.ir_disps i _ hiq hid hi
  simp only [drain_device, h1, h2]
  exact ⟨_, rfl, ⟨hp, hd, hc, hcq1, hiq1, hcd1, hid1, hch, hih, hwe, hrec⟩, ⟨rfl, rfl, rfl, rfl⟩,
    rfl, rfl, rfl, rfl⟩

theorem persist_flags_of_tasks (s t : State) (i : Nat) (h : t.tasks = s.tasks) :
    t.persist_flags i = s.persist_flags i := by
  simp [State.persist_flags, h]

theorem persist_congr (s t : State) (i : Nat) (hm : same_mode s t)
    (hf : t.recording_write_enables.getD i false = s.recording_write_enables.getD i false) :
    t.persist i = s.persist i := by
  unfold State.persist
  rw [hm.1, hm.2.1, hf]

theorem gate_output_congr (s t : State) (i : Nat) (acq : Acquisition) (hm : same_mode s t)
    (hf : t.recording_write_enables.getD i false = s.recording_write_enables.getD i false) :
    gate_output t i acq = gate_output s i acq := by
  cases acq <;> simp [gate_output, persist_congr s t i hm hf]

theorem gate_flag_congr (s t : State) (i : Nat) (acq : Acquisition)
    (hf : t.recording_write_enables.getD i false = s.recording_write_enables.getD i false) :
    gate_flag t i acq = gate_flag s i acq := by
  cases acq <;> simp only [gate_flag, hf]

theorem dispatch_device_spec (s : State) (j : Nat) (acq : Acquisition) (hr : s.ready)
    (hj : j < s.num_enabled_devices) (hacq : acq ≠ Acquisition.failed) :
    ∃ s1, dispatch_device s j acq = Except.ok s1 ∧ s1.ready ∧ same_mode s s1 ∧
      (∀ i, s1.persist_flags i =
        s.persist_flags i ++ (if i = j then gate_output s j acq else [])) ∧
      s1.recording_write_enables.getD j false = gate_flag s j acq ∧
      (∀ i, i ≠ j →
        s1.recording_write_enables.getD i false = s.recording_write_enables.getD i false) := by
  obtain ⟨d, hd⟩ := getElem?_of_lt_length s.devices j _ hr.2.1 hj
  cases acq with
  | failed => exact absurd rfl hacq
  | timeout =>
    obtain ⟨s1, h1, hr1, hm1, ht1, hw1, _, _⟩ := drain_device_spec s j hr hj
    refine ⟨s1, by simp [dispatch_device, hd, h1], hr1, hm1, ?_, ?_, ?_⟩
    · intro i
      rw [persist_flags_of_tasks s s1 i ht1]
      by_cases hij : i = j <;> simp [hij, gate_output]
    · simp [gate_flag, hw1]
    · intro i _
      rw [hw1]
  | capture c =>
    obtain ⟨s1, job, h1, hr1, hm1, ht1, _, hjq, _, _, hjw, hw1, _⟩ :=
      submit_capture_spec s j c hr hj
    have hj1 : j < s1.num_enabled_devices := by rw [hm1.2.2.2]; exact hj
    obtain ⟨s2, h2, hr2, hm2, ht2, hw2, _, _⟩ := drain_device_spec s1 j hr1 hj1
    refine ⟨s2, by simp [dispatch_device, hd, h1, h2], hr2, same_mode_trans hm1 hm2, ?_, ?_, ?_⟩
    · intro i
      rw [persist_flags_of_tasks s1 s2 i ht2]
      by_cases hij : i = j
      · subst hij
        simp [State.persist_flags, ht1, List.filter_append, hjq, hjw, gate_output]
      · have hne : (job.color_queue == i) = false := by
          rw [hjq]
          simpa using fun h => hij h.symm
        simp [State.persist_flags, ht1, List.filter_append, hne, hij]
    · rw [hw2, hw1]
      have hlt : j < s.recording_write_enables.length := by rw [hr.2.2.2.2.2.2.2.2.2.1]; exact hj
      simp [gate_flag, List.getD_eq_getElem?_getD, List.getElem?_set, hlt]
    · intro i hij
      rw [hw2, hw1]
      simp [List.getD_eq_getElem?_getD, List.getElem?_set, Ne.symm hij]

theorem dispatch_loop_spec (acq : Nat → Acquisition) (l : List Nat) :
    ∀ s : State, s.ready → (∀ j, j ∈ l → j < s.num_enabled_devices) →
      (∀ j, j ∈ l → acq j ≠ Acquisition.failed) → l.Nodup →
      ∃ s1, dispatch_loop acq l s = Except.ok s1 ∧ s1.ready ∧ same_mode s s1 ∧
        (∀ i, s1.persist_flags i =
          s.persist_flags i ++ (if i ∈ l then gate_output s i (acq i) else [])) ∧
        (∀ i, s1.recording_write_enables.getD i false =
          if i ∈ l then gate_flag s i (acq i) else s.recording_write_enables.getD i false) := by
  induction l with
  | nil =>
    intro s hr _ _ _
    exact ⟨s, rfl, hr, same_mode_refl s, by simp, by simp⟩
  | cons j rest ih =>
    intro s hr hlt hacq hnd
    obtain ⟨sj, hsj, hrj, hmj, hpj, hfj, hoj⟩ :=
      dispatch_device_spec s j (acq j) hr (hlt j (List.mem_cons_self j rest))
        (hacq j (List.mem_cons_self j rest))
    have hjrest : j ∉ rest := (List.nodup_cons.1 hnd).1
    obtain ⟨s1, hs1, hr1, hm1, hp1, hf1⟩ := ih sj hrj
      (fun k hk => by rw [hmj.2.2.2]; exact hlt k (List.mem_cons_of_mem j hk))
      (fun k hk => hacq k (List.mem_cons_of_mem j hk)) (List.nodup_cons.1 hnd).2
    refine ⟨s1, by simp [dispatch_loop, hsj, hs1], hr1, same_mode_trans hmj hm1, ?_, ?_⟩
    · intro i
      rw [hp1 i, hpj i]
      by_cases hij : i = j
      · subst hij
        simp [hjrest]
      · by_cases hir : i ∈ rest
        · simp [hij, hir, gate_output_congr s sj i (acq i) hmj (hoj i hij)]
        · simp [hij, hir]
    · intro i
      rw [hf1 i]
      by_cases hij : i = j
      · subst hij
        simpa [hjrest] using hfj
      · by_cases hir : i ∈ rest
        · simp [hij, hir, gate_flag_congr s sj i (acq i) (hoj i hij)]
        · simpa [hij, hir] using hoj i hij

theorem tick_spec (acq : Nat → Acquisition) (s : State) (hr : s.ready)
    (hs : s.streaming = true)
    (hacq : ∀ j, j < s.num_enabled_devices → acq j ≠ Acquisition.failed) :
    ∃ s1, tick acq s = Except.ok s1 ∧ s1.ready ∧ same_mode s s1 ∧
      (∀ i, i < s.num_enabled_devices →
        s1.persist_flags i = s.persist_flags i ++ gate_output s i (acq i)) ∧
      (∀ i, i < s.num_enabled_devices →
        s1.recording_write_enables.getD i false = gate_flag s i (acq i)) := by
  obtain ⟨s1, h1, hr1, hm1, hp1, hf1⟩ :=
    dispatch_loop_spec acq (List.range s.num_enabled_devices) s hr
      (fun j hj => List.mem_range.1 hj) (fun j hj => hacq j (List.mem_range.1 hj))
      (List.nodup_range _)
  refine ⟨s1, by simp [tick, hs, h1], hr1, hm1, ?_, ?_⟩
  · intro i hi
    rw [hp1 i]
    simp [List.mem_range.2 hi]
  · intro i hi
    rw [hf1 i]
    simp [List.mem_range.2 hi]

/-! ## Lemmas on the Save buttons -/

theorem enable_all_spec (l : List Nat) :
    ∀ we : List Bool, (∀ j, j ∈ l → j < we.length) →
      ∃ we1, enable_all l we = Except.ok we1 ∧ we1.length = we.length ∧
        (∀ i, we.getD i false = true → we1.getD i false = true) ∧
        (∀ i, i ∈ l → we1.getD i false = true) := by
  induction l with
  | nil =>
    intro we _
    exact ⟨we, rfl, rfl, fun _ h => h, by simp⟩
  | cons j rest ih =>
    intro we hlt
    have hj : j < we.length := hlt j (List.mem_cons_self j rest)
    obtain ⟨b, hb⟩ := getElem?_of_lt_length we j _ rfl hj
    obtain ⟨we1, h1, hlen, hmono, hset⟩ := ih (we.set j true)
      (fun k hk => by simpa using hlt k (List.mem_cons_of_mem j hk))
    have hstep : ∀ i, we.getD i false = true → (we.set j true).getD i false = true := by
      intro i hi
      by_cases hij : j = i
      · subst hij
        simp [List.getD_eq_getElem?_getD, List.getElem?_set, hj]
      · simpa [List.getD_eq_getElem?_getD, List.getElem?_set, hij] using hi
    refine ⟨we1, by simp [enable_all, hb, h1], by simpa using hlen,
      fun i hi => hmono i (hstep i hi), ?_⟩
    intro i hi
    rcases List.mem_cons.1 hi with hij | hir
    · subst hij
      apply hmono
      simp [List.getD_eq_getElem?_getD, List.getElem?_set, hj]
    · exact hset i hir

theorem save_captures_button_spec (s : State) (hr : s.ready) :
    ∃ s1, save_captures_button s = Except.ok s1 ∧ s1.ready ∧ same_mode s s1 ∧
      s1.tasks = s.tasks ∧
      (∀ i, s.recording_write_enables.getD i false = true →
        s1.recording_write_enables.getD i false = true) ∧
      (s.continuous_recording = true → s1 = s) ∧
      (s.streaming = true → s.recording_enabled = true → s.continuous_recording = false →
        ∀ i, i < s.num_enabled_devices → s1.recording_write_enables.getD i false = true) := by
  by_cases hc : 0 < s.num_enabled_devices ∧ s.recording_enabled = true ∧
      (!s.continuous_recording) = true ∧ s.streaming = true
  · obtain ⟨hp, hd, hcf, hcq, hiq, hcd, hid, hch, hih, hwe, hrec⟩ := hr
    obtain ⟨we1, h1, hlen, hmono, hset⟩ :=
      enable_all_spec (List.range s.num_enabled_devices) s.recording_write_enables
        (fun j hj => by rw [hwe]; exact List.mem_range.1 hj)
    refine ⟨{ s with recording_write_enables := we1 }, by simp [save_captures_button, hc, h1],
      ⟨hp, hd, hcf, hcq, hiq, hcd, hid, hch, hih, by simpa [hlen] using hwe, hrec⟩,
      ⟨rfl, rfl, rfl, rfl⟩, rfl, hmono, ?_, ?_⟩
    · intro hcont
      rw [hcont] at hc
      simp at hc
    · intro _ _ _ i hi
      exact hset i (List.mem_range.2 hi)
  · refine ⟨s, by simp only [save_captures_button, hc, if_false], hr, same_mode_refl s, rfl,
      fun _ h => h, fun _ => rfl, ?_⟩
    intro h1 h2 h3 i hi
    exact absurd ⟨by omega, h2, by simp [h3], h1⟩ hc

theorem save_capture_button_spec (s : State) (j : Nat) (w : Bool) (hr : s.ready) :
    ∃ s1, save_capture_button s j w = Except.ok s1 ∧ s1.ready ∧ same_mode s s1 ∧
      s1.tasks = s.tasks ∧
      (∀ i, i ≠ j →
        s1.recording_write_enables.getD i false = s.recording_write_enables.getD i false) ∧
      (s.recording_write_enables.getD j false = true →
        s1.recording_write_enables.getD j false = true) ∧
      (s.continuous_recording = true → s1 = s) ∧
      (s.streaming = true → j < s.num_enabled_devices → s.recording_enabled = true →
        s.continuous_recording = false →
        (∃ img, (if w then s.ir_disps[j]? else s.color_disps[j]?) = some (some img)) →
        s1.recording_write_enables.getD j false = true) := by
  have hnoop : save_capture_button s j w = Except.ok s →
      ¬ (s.streaming = true ∧ j < s.num_enabled_devices ∧ s.recording_enabled = true ∧
        s.continuous_recording = false ∧
        ∃ img, (if w then s.ir_disps[j]? else s.color_disps[j]?) = some (some img)) →
      ∃ s1, save_capture_button s j w = Except.ok s1 ∧ s1.ready ∧ same_mode s s1 ∧
        s1.tasks = s.tasks ∧
        (∀ i, i ≠ j →
          s1.recording_write_enables.getD i false = s.recording_write_enables.getD i false) ∧
        (s.recording_write_enables.getD j false = true →
          s1.recording_write_enables.getD j false = true) ∧
        (s.continuous_recording = true → s1 = s) ∧
        (s.streaming = true → j < s.num_enabled_devices → s.recording_enabled = true →
          s.continuous_recording = false →
          (∃ img, (if w then s.ir_disps[j]? else s.color_disps[j]?) = some (some img)) →
          s1.recording_write_enables.getD j false = true) := by
    intro h hn
    exact ⟨s, h, hr, same_mode_refl s, rfl, fun _ _ => rfl, fun h => h, fun _ => rfl,
      fun h1 h2 h3 h4 h5 => absurd ⟨h1, h2, h3, h4, h5⟩ hn⟩
  by_cases hc : s.streaming = true ∧ j < s.num_enabled_devices
  · obtain ⟨hp, hd, hcf, hcq, hiq, hcd, hid, hch, hih, hwe, hrec⟩ := hr
    obtain ⟨disp, hdisp⟩ : ∃ d, (if w then s.ir_disps[j]? else s.color_disps[j]?) = some d := by
      cases w
      · simpa using getElem?_of_lt_length s.color_disps j _ hcd hc.2
      · simpa using getElem?_of_lt_length s.ir_disps j _ hid hc.2
    cases disp with
    | none =>
      apply hnoop
      · simp only [save_capture_button, hc, hdisp, and_self, if_true]
      · rintro ⟨_, _, _, _, img, himg⟩
        rw [hdisp] at himg
        cases himg
    | some img =>
      by_cases hm : s.recording_enabled = true ∧ (!s.continuous_recording) = true
      · obtain ⟨b, hb⟩ := getElem?_of_lt_length s.recording_write_enables j _ hwe hc.2
        have hlt : j < s.recording_write_enables.length := by rw [hwe]; exact hc.2
        refine ⟨{ s with recording_write_enables := s.recording_write_enables.set j true },
          by simp only [save_capture_button, hc, hdisp, hm, hb, and_self, if_true],
          ⟨hp, hd, hcf, hcq, hiq, hcd, hid, hch, hih, by simpa using hwe, hrec⟩,
          ⟨rfl, rfl, rfl, rfl⟩, rfl, ?_, ?_, ?_, ?_⟩
        · intro i hij
          simp [List.getD_eq_getElem?_getD, List.getElem?_set, Ne.symm hij]
        · intro _
          simp [List.getD_eq_getElem?_getD, List.getElem?_set, hlt]
        · intro hcont
          rw [hcont] at hm
          simp at hm
        · intro _ _ _ _ _
          simp [List.getD_eq_getElem?_getD, List.getElem?_set, hlt]
      · apply hnoop
        · simp only [save_capture_button, hc, hdisp, hm, and_self, if_true, if_false]
        · rintro ⟨_, _, h3, h4, _⟩
          exact hm ⟨h3, by simp [h4]⟩
  · apply hnoop
    · simp only [save_capture_button, hc, if_false]
    · rintro ⟨h1, h2, _⟩
      exact hc ⟨h1, h2⟩

/-! ## Lemmas on events and runs -/

theorem step_capture (s : State) (i : Nat) (acq : Nat → Acquisition) (c : k4a_capture)
    (hr : s.ready) (hs : s.streaming = true) (hi : i < s.num_enabled_devices)
    (hnf : ∀ j, j < s.num_enabled_devices → acq j ≠ Acquisition.failed)
    (hc : acq i = Acquisition.capture c) :
    ∃ s1, step s (Event.tick acq) = Except.ok s1 ∧ s1.ready ∧ same_mode s s1 ∧
      s1.persist_flags i = s.persist_flags i ++ [s.persist i] ∧
      s1.recording_write_enables.getD i false = false := by
  obtain ⟨s1, h1, hr1, hm1, hp1, hf1⟩ := tick_spec acq s hr hs hnf
  refine ⟨s1, h1, hr1, hm1, ?_, ?_⟩
  · rw [hp1 i hi, hc]
    rfl
  · rw [hf1 i hi, hc]
    rfl

theorem step_no_capture (s : State) (i : Nat) (ev : Event) (hr : s.ready)
    (hs : s.streaming = true) (hi : i < s.num_enabled_devices)
    (hnf : ev.no_failure s.num_enabled_devices) (hnc : ev.no_capture i) :
    ∃ s1, step s ev = Except.ok s1 ∧ s1.ready ∧ same_mode s s1 ∧
      s1.persist_flags i = s.persist_flags i ∧
      (s.recording_write_enables.getD i false = true →
        s1.recording_write_enables.getD i false = true) ∧
      (ev.quiet i →
        s1.recording_write_enables.getD i false = s.recording_write_enables.getD i false) := by
  cases ev with
  | tick acq =>
    obtain ⟨s1, h1, hr1, hm1, hp1, hf1⟩ := tick_spec acq s hr hs hnf
    have hto : acq i = Acquisition.timeout := hnc
    have hflag : s1.recording_write_enables.getD i false =
        s.recording_write_enables.getD i false := by
      rw [hf1 i hi, hto]
      rfl
    refine ⟨s1, h1, hr1, hm1, ?_, fun h => hflag.trans h, fun _ => hflag⟩
    rw [hp1 i hi, hto]
    simp [gate_output]
  | save_capture j w =>
    obtain ⟨s1, h1, hr1, hm1, ht1, hother, hmono, _, _⟩ := save_capture_button_spec s j w hr
    refine ⟨s1, h1, hr1, hm1, persist_flags_of_tasks s s1 i ht1, ?_, ?_⟩
    · intro h
      by_cases hij : i = j
      · subst hij
        exact hmono h
      · rw [hother i hij]
        exact h
    · intro hq
      have hji : j ≠ i := hq
      exact hother i (Ne.symm hji)
  | save_captures =>
    obtain ⟨s1, h1, hr1, hm1, ht1, hmono, _, _⟩ := save_captures_button_spec s hr
    exact ⟨s1, h1, hr1, hm1, persist_flags_of_tasks s s1 i ht1, hmono i, fun hq => absurd hq id⟩

theorem step_trigger (s : State) (i : Nat) (ev : Event) (hr : s.ready)
    (hs : s.streaming = true) (hi : i < s.num_enabled_devices)
    (hen : s.recording_enabled = true) (hod : s.continuous_recording = false)
    (htrig : ev.triggers s i) :
    ∃ s1, step s ev = Except.ok s1 ∧ s1.ready ∧ same_mode s s1 ∧
      s1.persist_flags i = s.persist_flags i ∧
      s1.recording_write_enables.getD i false = true := by
  cases ev with
  | tick acq => exact absurd htrig id
  | save_capture j w =>
    obtain ⟨hji, img, himg⟩ : j = i ∧
      ∃ img, (if w then s.ir_disps[i]? else s.color_disps[i]?) = some (some img) := htrig
    subst hji
    obtain ⟨s1, h1, hr1, hm1, ht1, _, _, _, hset⟩ := save_capture_button_spec s j w hr
    exact ⟨s1, h1, hr1, hm1, persist_flags_of_tasks s s1 j ht1, hset hs hi hen hod ⟨img, himg⟩⟩
  | save_captures =>
    obtain ⟨s1, h1, hr1, hm1, ht1, _, _, hset⟩ := save_captures_button_spec s hr
    exact ⟨s1, h1, hr1, hm1, persist_flags_of_tasks s s1 i ht1, hset hs hen hod i hi⟩

theorem run_cons_ok (s s1 : State) (ev : Event) (evs : List Event)
    (h : step s ev = Except.ok s1) : run s (ev :: evs) = run s1 evs := by
  simp [run, h]

theorem run_append_ok (evs1 evs2 : List Event) :
    ∀ s s1 : State, run s evs1 = Except.ok s1 → run s (evs1 ++ evs2) = run s1 evs2 := by
  induction evs1 with
  | nil =>
    intro s s1 h
    cases h
    rfl
  | cons ev evs ih =>
    intro s s1 h
    cases hstep : step s ev with
    | error f => simp [run, hstep] at h
    | ok s2 =>
      rw [run_cons_ok s s2 ev evs hstep] at h
      rw [List.cons_append, run_cons_ok s s2 ev _ hstep]
      exact ih s2 s1 h

theorem run_no_capture (i : Nat) (evs : List Event) :
    ∀ s : State, s.ready → s.streaming = true → i < s.num_enabled_devices →
      (∀ ev, ev ∈ evs → Event.no_capture i ev ∧ Event.no_failure s.num_enabled_devices ev) →
      ∃ s1, run s evs = Except.ok s1 ∧ s1.ready ∧ same_mode s s1 ∧
        s1.persist_flags i = s.persist_flags i ∧
        (s.recording_write_enables.getD i false = true →
          s1.recording_write_enables.getD i false = true) ∧
        ((∀ ev, ev ∈ evs → Event.quiet i ev) →
          s1.recording_write_enables.getD i false =
            s.recording_write_enables.getD i false) := by
  induction evs with
  | nil =>
    intro s hr _ _ _
    exact ⟨s, rfl, hr, same_mode_refl s, rfl, fun h => h, fun _ => rfl⟩
  | cons ev evs ih =>
    intro s hr hs hi hevs
    obtain ⟨hnc, hnf⟩ := hevs ev (List.mem_cons_self ev evs)
    obtain ⟨s1, h1, hr1, hm1, hp1, hmono1, hq1⟩ := step_no_capture s i ev hr hs hi hnf hnc
    obtain ⟨s2, h2, hr2, hm2, hp2, hmono2, hq2⟩ := ih s1 hr1 (hm1.2.2.1.trans hs)
      (by rw [hm1.2.2.2]; exact hi)
      (fun e he => by rw [hm1.2.2.2]; exact hevs e (List.mem_cons_of_mem ev he))
    refine ⟨s2, by rw [run_cons_ok s s1 ev evs h1]; exact h2, hr2, same_mode_trans hm1 hm2,
      hp2.trans hp1, fun h => hmono2 (hmono1 h), ?_⟩
    intro hq
    rw [hq2 (fun e he => hq e (List.mem_cons_of_mem ev he)),
      hq1 (hq ev (List.mem_cons_self ev evs))]

theorem quiet_no_capture (i : Nat) (ev : Event) (h : ev.quiet i) : ev.no_capture i := by
  cases ev with
  | tick acq => exact h
  | save_capture j w => trivial
  | save_captures => trivial

/-- The gate of device `i` from an armed flag in on-demand mode: whatever events without a
capture of `i` come first, the next capture is submitted with persist true, and after events
that neither capture nor trigger `i`, the capture after that with persist false. -/
theorem armed_then_two_captures (s : State) (i : Nat) (evs quiet : List Event)
    (acq1 acq2 : Nat → Acquisition) (c1 c2 : k4a_capture)
    (hr : s.ready) (hs : s.streaming = true) (hi : i < s.num_enabled_devices)
    (hen : s.recording_enabled = true) (hod : s.continuous_recording = false)
    (harmed : s.recording_write_enables.getD i false = true)
    (hevs : ∀ ev, ev ∈ evs → Event.no_capture i ev ∧ Event.no_failure s.num_enabled_devices ev)
    (hquiet : ∀ ev, ev ∈ quiet → Event.quiet i ev ∧ Event.no_failure s.num_enabled_devices ev)
    (h1 : acq1 i = Acquisition.capture c1)
    (hf1 : ∀ j, j < s.num_enabled_devices → acq1 j ≠ Acquisition.failed)
    (h2 : acq2 i = Acquisition.capture c2)
    (hf2 : ∀ j, j < s.num_enabled_devices → acq2 j ≠ Acquisition.failed) :
    ∃ s4, run s (evs ++ (Event.tick acq1 :: (quiet ++ [Event.tick acq2]))) = Except.ok s4 ∧
      s4.persist_flags i = s.persist_flags i ++ [true, false] := by
  obtain ⟨s1, hrun1, hr1, hm1, hp1, hmono1, _⟩ := run_no_capture i evs s hr hs hi hevs
  have hs1 : s1.streaming = true := hm1.2.2.1.trans hs
  have hn1 : s1.num_enabled_devices = s.num_enabled_devices := hm1.2.2.2
  obtain ⟨s2, hstep2, hr2, hm2, hp2, hflag2⟩ := step_capture s1 i acq1 c1 hr1 hs1
    (by rw [hn1]; exact hi) (by rw [hn1]; exact hf1) h1
  have hs2 : s2.streaming = true := hm2.2.2.1.trans hs1
  have hn2 : s2.num_enabled_devices = s.num_enabled_devices := hm2.2.2.2.trans hn1
  obtain ⟨s3, hrun3, hr3, hm3, hp3, _, hq3⟩ := run_no_capture i quiet s2 hr2 hs2
    (by rw [hn2]; exact hi)
    (fun e he => by rw [hn2]; exact ⟨quiet_no_capture i e (hquiet e he).1, (hquiet e he).2⟩)
  have hs3 : s3.streaming = true := hm3.2.2.1.trans hs2
  have hn3 : s3.num_enabled_devices = s.num_enabled_devices := hm3.2.2.2.trans hn2
  obtain ⟨s4, hstep4, _, _, hp4, _⟩ := step_capture s3 i acq2 c2 hr3 hs3
    (by rw [hn3]; exact hi) (by rw [hn3]; exact hf2) h2
  have hpersist1 : s1.persist i = true := by
    unfold State.persist
    rw [hm1.1, hm1.2.1, hen, hod, hmono1 harmed]
    rfl
  have hpersist3 : s3.persist i = false := by
    have hm13 := same_mode_trans hm1 (same_mode_trans hm2 hm3)
    have hflag3 := (hq3 (fun e he => (hquiet e he).1)).trans hflag2
    unfold State.persist
    rw [hm13.2.1, hod, hflag3]
    simp
  refine ⟨s4, ?_, ?_⟩
  · rw [run_append_ok evs _ s s1 hrun1, run_cons_ok s1 s2 _ _ hstep2,
      run_append_ok quiet _ s2 s3 hrun3, run_cons_ok s3 s4 _ _ hstep4]
    rfl
  · rw [hp4, hp3, hp2, hp1, hpersist1, hpersist3]
    simp

theorem step_continuous (s : State) (ev : Event) (hr : s.ready) (hs : s.streaming = true)
    (hen : s.recording_enabled = true) (hcont : s.continuous_recording = true)
    (hnf : ev.no_failure s.num_enabled_devices) :
    ∃ s1, step s ev = Except.ok s1 ∧ s1.ready ∧ same_mode s s1 ∧
      ∀ i, i < s.num_enabled_devices →
        s1.persist_flags i = s.persist_flags i ++ List.replicate (ev.captures_of i) true := by
  cases ev with
  | tick acq =>
    obtain ⟨s1, h1, hr1, hm1, hp1, _⟩ := tick_spec acq s hr hs hnf
    refine ⟨s1, h1, hr1, hm1, ?_⟩
    intro i hi
    rw [hp1 i hi]
    cases hacq : acq i <;>
      simp [gate_output, Event.captures_of, hacq, State.persist, hen, hcont]
  | save_capture j w =>
    obtain ⟨s1, h1, _, _, _, _, _, hsame, _⟩ := save_capture_button_spec s j w hr
    have hs1 : s1 = s := hsame hcont
    subst hs1
    exact ⟨s1, h1, hr, same_mode_refl s1, fun i _ => by simp [Event.captures_of]⟩
  | save_captures =>
    obtain ⟨s1, h1, _, _, _, _, hsame, _⟩ := save_captures_button_spec s hr
    have hs1 : s1 = s := hsame hcont
    subst hs1
    exact ⟨s1, h1, hr, same_mode_refl s1, fun i _ => by simp [Event.captures_of]⟩

theorem run_continuous (evs : List Event) :
    ∀ s : State, s.ready → s.streaming = true → s.recording_enabled = true →
      s.continuous_recording = true →
      (∀ ev, ev ∈ evs → Event.no_failure s.num_enabled_devices ev) →
      ∃ s1, run s evs = Except.ok s1 ∧ s1.ready ∧ same_mode s s1 ∧
        ∀ i, i < s.num_enabled_devices →
          s1.persist_flags i = s.persist_flags i ++ List.replicate (captures_in i evs) true := by
  induction evs with
  | nil =>
    intro s hr _ _ _ _
    exact ⟨s, rfl, hr, same_mode_refl s, fun i _ => by simp [captures_in]⟩
  | cons ev evs ih =>
    intro s hr hs hen hcont hnf
    obtain ⟨s1, h1, hr1, hm1, hp1⟩ :=
      step_continuous s ev hr hs hen hcont (hnf ev (List.mem_cons_self ev evs))
    obtain ⟨s2, h2, hr2, hm2, hp2⟩ := ih s1 hr1 (hm1.2.2.1.trans hs) (hm1.1.trans hen)
      (hm1.2.1.trans hcont)
      (fun e he => by rw [hm1.2.2.2]; exact hnf e (List.mem_cons_of_mem ev he))
    refine ⟨s2, by rw [run_cons_ok s s1 ev evs h1]; exact h2, hr2, same_mode_trans hm1 hm2, ?_⟩
    intro i hi
    rw [hp2 i (by rw [hm1.2.2.2]; exact hi), hp1 i hi, List.append_assoc,
      ← List.replicate_add]
    rfl

/-! ## Start Streaming establishes the shape the dispatch loop relies on -/

theorem open_devices_open_length (open_ok : Nat → Bool) (idxs : List Nat) :
    ∀ devices ds : List device, open_devices_open open_ok idxs devices = (ds, none) →
      ds.length = devices.length + idxs.length := by
  induction idxs with
  | nil =>
    intro devices ds h
    cases h
    rfl
  | cons i rest ih =>
    intro devices ds h
    unfold open_devices_open at h
    split at h
    · have := ih _ ds h
      simp only [List.length_append, List.length_singleton, List.length_cons,
        List.length_nil] at this ⊢
      omega
    · cases h

theorem open_devices_length (sdk : Sdk) (idxs : List Nat) (devices ds : List device)
    (h : open_devices sdk idxs devices = (ds, none)) :
    ds.length = devices.length + idxs.length := by
  unfold open_devices at h
  split at h
  · cases h
  · rename_i ds1 h1
    have hds : ds1 = ds := by
      have := congrArg Prod.fst h
      exact this
    rw [← hds]
    exact open_devices_open_length sdk.open_ok idxs devices ds1 h1

theorem initialize_recordings_loop_length (sdk : Sdk)
    (configs : List k4a_device_configuration_t) (device_idxs : List Nat)
    (serials nicknames : List String) (save_path : String) (l : List Nat) :
    ∀ (acc : List Bool × List record) (we : List Bool) (recs : List record),
      initialize_recordings_loop sdk configs device_idxs serials nicknames save_path l acc =
        ((we, recs), none) →
      we.length = acc.1.length + l.length ∧ recs.length = acc.2.length + l.length := by
  induction l with
  | nil =>
    intro acc we recs h
    cases h
    exact ⟨rfl, rfl⟩
  | cons i rest ih =>
    intro acc we recs h
    obtain ⟨we0, recs0⟩ := acc
    unfold initialize_recordings_loop at h
    simp only at h
    repeat' (first | (solve | cases h) | split at h)
    all_goals
      obtain ⟨h1, h2⟩ := ih _ we recs h
      simp only [List.length_append, List.length_singleton, List.length_set,
        List.length_cons, List.length_nil] at h1 h2 ⊢
      omega

theorem initialize_recordings_length (sdk : Sdk) (recording_enabled : Bool)
    (devices : List device) (configs : List k4a_device_configuration_t)
    (device_idxs : List Nat) (serials nicknames : List String) (save_path : String)
    (we : List Bool) (recs : List record)
    (h : initialize_recordings sdk recording_enabled devices configs device_idxs serials
      nicknames save_path = ((we, recs), none)) :
    we.length = devices.length ∧ (recording_enabled = true → recs.length = devices.length) := by
  unfold initialize_recordings at h
  split at h
  · rename_i hdis
    cases h
    refine ⟨by simp, ?_⟩
    intro hen
    rw [hen] at hdis
    simp at hdis
  · obtain ⟨h1, h2⟩ := initialize_recordings_loop_length sdk configs device_idxs serials
      nicknames save_path (List.range devices.length) ([], []) we recs h
    simp only [List.length_nil, List.length_range, Nat.zero_add] at h1 h2
    exact ⟨h1, fun _ => h2⟩

/-- Start Streaming from a state without open devices, whose configuration list covers the
enabled devices: when the handler leaves the program streaming, the state is ready. -/
theorem streaming_button_ready (sdk : Sdk) (s s1 : State) (hs : s.streaming = false)
    (hd : s.devices = []) (hcfg : s.device_idxs.length ≤ s.configs.length)
    (h : streaming_button sdk s = Except.ok s1) (hs1 : s1.streaming = true) : s1.ready := by
  cases hopen : open_devices sdk s.device_idxs s.devices with
  | mk ds f =>
    cases f with
    | some f =>
      cases f <;>
        simp only [streaming_button, hs, start_streaming_try, hopen, stop_and_clear,
          Bool.not_false, if_true] at h
      · split at h
        · cases h
        · cases h
          cases hs1
      · cases h
    | none =>
      have hlen := open_devices_length sdk s.device_idxs s.devices ds hopen
      rw [hd] at hlen
      simp only [List.length_nil, Nat.zero_add] at hlen
      cases hrec : initialize_recordings sdk s.recording_enabled ds s.configs s.device_idxs
          s.available_device_serials s.available_device_nicknames s.recording_save_path with
      | mk wr f2 =>
        obtain ⟨we, recs⟩ := wr
        cases f2 with
        | some f2 =>
          cases f2 <;>
            simp only [streaming_button, hs, start_streaming_try, hopen, stop_and_clear,
              initialize_device_thread_vars, hrec, Bool.not_false, if_true] at h
          · split at h
            · cases h
            · cases h
              cases hs1
          · cases h
        | none =>
          have hr := initialize_recordings_length sdk _ _ _ _ _ _ _ we recs hrec
          cases hst : start_streaming sdk.start_ok ds s.configs with
          | mk cs f3 =>
            cases f3 with
            | some f3 =>
              cases f3 <;>
                simp only [streaming_button, hs, start_streaming_try, hopen, stop_and_clear,
                  initialize_device_thread_vars, hrec, hst, Bool.not_false, if_true] at h
              · split at h
                · cases h
                · cases h
                  cases hs1
              · cases h
            | none =>
              simp only [streaming_button, hs, start_streaming_try, hopen,
                initialize_device_thread_vars, hrec, hst, Bool.not_false, if_true] at h
              cases h
              refine ⟨rfl, rfl, ?_, ?_, ?_, ?_, ?_, ?_, ?_, hr.1, hr.2⟩
              · show ds.length ≤ s.configs.length
                omega
              all_goals simp

/-! ## Recording gate -/

/-- Claim C5. With recording enabled in on-demand mode while streaming: after one trigger
for device `i` (the broadcast button, or the button of a window of `i` that shows a frame),
and whatever frames without a capture of `i` and presses for other devices come in between,
the next two captures of device `i` are submitted with persist true for the first and persist
false for the second. -/
theorem on_demand_one_shot (s : State) (i : Nat) (trig : Event) (quiet1 quiet2 : List Event)
    (acq1 acq2 : Nat → Acquisition) (c1 c2 : k4a_capture)
    (hr : s.ready) (hs : s.streaming = true) (hi : i < s.num_enabled_devices)
    (hen : s.recording_enabled = true) (hod : s.continuous_recording = false)
    (htrig : trig.triggers s i)
    (hq1 : ∀ ev, ev ∈ quiet1 → Event.quiet i ev ∧ Event.no_failure s.num_enabled_devices ev)
    (hq2 : ∀ ev, ev ∈ quiet2 → Event.quiet i ev ∧ Event.no_failure s.num_enabled_devices ev)
    (h1 : acq1 i = Acquisition.capture c1)
    (hf1 : ∀ j, j < s.num_enabled_devices → acq1 j ≠ Acquisition.failed)
    (h2 : acq2 i = Acquisition.capture c2)
    (hf2 : ∀ j, j < s.num_enabled_devices → acq2 j ≠ Acquisition.failed) :
    ∃ s1, run s (trig :: (quiet1 ++ (Event.tick acq1 :: (quiet2 ++ [Event.tick acq2])))) =
        Except.ok s1 ∧
      s1.persist_flags i = s.persist_flags i ++ [true, false] := by
  obtain ⟨s0, h0, hr0, hm0, hp0, hflag0⟩ := step_trigger s i trig hr hs hi hen hod htrig
  have hn0 : s0.num_enabled_devices = s.num_enabled_devices := hm0.2.2.2
  obtain ⟨s1, hrun, hp1⟩ := armed_then_two_captures s0 i quiet1 quiet2 acq1 acq2 c1 c2 hr0
    (hm0.2.2.1.trans hs) (by rw [hn0]; exact hi) (hm0.1.trans hen) (hm0.2.1.trans hod) hflag0
    (fun e he => by rw [hn0]; exact ⟨quiet_no_capture i e (hq1 e he).1, (hq1 e he).2⟩)
    (fun e he => by rw [hn0]; exact hq2 e he) h1 (by rw [hn0]; exact hf1) h2
    (by rw [hn0]; exact hf2)
  exact ⟨s1, by rw [run_cons_ok s s0 trig _ h0]; exact hrun, by rw [hp1, hp0]⟩

/-- Witness of claim C5: two devices streaming in on-demand mode; Save Captures is pressed,
then device 1 yields a capture in each of two frames. The first is submitted with persist
true, the second with persist false. -/
theorem on_demand_one_shot_witness :
    ∃ s1, run (example_streaming false)
        [Event.save_captures, Event.tick (only_device 1 example_capture),
          Event.tick (only_device 1 example_capture)] = Except.ok s1 ∧
      s1.persist_flags 1 = [true, false] := by
  obtain ⟨s1, h1, h2⟩ := on_demand_one_shot (example_streaming false) 1 Event.save_captures [] []
    (only_device 1 example_capture) (only_device 1 example_capture) example_capture
    example_capture (by decide) (by decide) (by decide) (by decide) (by decide) trivial
    (by simp) (by simp) (by decide)
    (by intro j _; unfold only_device; split <;> simp)
    (by decide)
    (by intro j _; unfold only_device; split <;> simp)
  exact ⟨s1, h1, by rw [h2]; decide⟩

/-- Claim C6. With recording enabled in on-demand mode while streaming, triggers are
idempotent and not queued. After a first trigger for device `i`, any further events without a
capture of `i` (frames in which `i` times out, and any number of further presses of either
Save button) leave exactly one pending save: the next capture of `i` is submitted with
persist true and the one after it with persist false. In particular this holds for `k`
presses of Save Captures in a row, for every `k` of at least 1. A frame in which device `i`
yields no capture leaves its flag and its submitted tasks unchanged. -/
theorem triggers_idempotent (s : State) (i : Nat) (trig : Event) (evs quiet : List Event)
    (acq1 acq2 : Nat → Acquisition) (c1 c2 : k4a_capture)
    (hr : s.ready) (hs : s.streaming = true) (hi : i < s.num_enabled_devices)
    (hen : s.recording_enabled = true) (hod : s.continuous_recording = false)
    (htrig : trig.triggers s i)
    (hevs : ∀ ev, ev ∈ evs → Event.no_capture i ev ∧ Event.no_failure s.num_enabled_devices ev)
    (hquiet : ∀ ev, ev ∈ quiet → Event.quiet i ev ∧ Event.no_failure s.num_enabled_devices ev)
    (h1 : acq1 i = Acquisition.capture c1)
    (hf1 : ∀ j, j < s.num_enabled_devices → acq1 j ≠ Acquisition.failed)
    (h2 : acq2 i = Acquisition.capture c2)
    (hf2 : ∀ j, j < s.num_enabled_devices → acq2 j ≠ Acquisition.failed) :
    (∃ s1, run s (trig :: (evs ++ (Event.tick acq1 :: (quiet ++ [Event.tick acq2])))) =
        Except.ok s1 ∧
      s1.persist_flags i = s.persist_flags i ++ [true, false]) ∧
    (∀ k, 1 ≤ k →
      ∃ s1, run s (List.replicate k Event.save_captures ++
          (Event.tick acq1 :: (quiet ++ [Event.tick acq2]))) = Except.ok s1 ∧
        s1.persist_flags i = s.persist_flags i ++ [true, false]) ∧
    (∀ acq : Nat → Acquisition, acq i = Acquisition.timeout →
      (∀ j, j < s.num_enabled_devices → acq j ≠ Acquisition.failed) →
      ∃ s1, tick acq s = Except.ok s1 ∧
        s1.recording_write_enables.getD i false = s.recording_write_enables.getD i false ∧
        s1.persist_flags i = s.persist_flags i) := by
  have main : ∀ (t : Event) (es : List Event), t.triggers s i →
      (∀ ev, ev ∈ es → Event.no_capture i ev ∧ Event.no_failure s.num_enabled_devices ev) →
      ∃ s1, run s (t :: (es ++ (Event.tick acq1 :: (quiet ++ [Event.tick acq2])))) =
          Except.ok s1 ∧
        s1.persist_flags i = s.persist_flags i ++ [true, false] := by
    intro t es ht hes
    obtain ⟨s0, h0, hr0, hm0, hp0, hflag0⟩ := step_trigger s i t hr hs hi hen hod ht
    have hn0 : s0.num_enabled_devices = s.num_enabled_devices := hm0.2.2.2
    obtain ⟨s1, hrun, hp1⟩ := armed_then_two_captures s0 i es quiet acq1 acq2 c1 c2 hr0
      (hm0.2.2.1.trans hs) (by rw [hn0]; exact hi) (hm0.1.trans hen) (hm0.2.1.trans hod) hflag0
      (fun e he => by rw [hn0]; exact hes e he)
      (fun e he => by rw [hn0]; exact hquiet e he) h1 (by rw [hn0]; exact hf1) h2
      (by rw [hn0]; exact hf2)
    exact ⟨s1, by rw [run_cons_ok s s0 t _ h0]; exact hrun, by rw [hp1, hp0]⟩
  refine ⟨main trig evs htrig hevs, ?_, ?_⟩
  · intro k hk
    obtain ⟨k', rfl⟩ : ∃ k', k = k' + 1 := ⟨k - 1, by omega⟩
    rw [List.replicate_succ, List.cons_append]
    apply main Event.save_captures (List.replicate k' Event.save_captures) trivial
    intro ev hev
    rw [List.eq_of_mem_replicate hev]
    exact ⟨trivial, trivial⟩
  · intro acq hto hnf
    obtain ⟨s1, h1, _, _, hp1, _, hq1⟩ := step_no_capture s i (Event.tick acq) hr hs hi hnf hto
    exact ⟨s1, h1, hq1 hto, hp1⟩

/-- Witness of claim C6: two devices streaming in on-demand mode; Save Captures is pressed
three times, with a frame without captures in between, before device 0 yields a capture in
each of two frames. One capture only is submitted with persist true. -/
theorem triggers_idempotent_witness :
    ∃ s1, run (example_streaming false)
        [Event.save_captures, Event.save_captures, Event.tick (fun _ => Acquisition.timeout),
          Event.save_captures, Event.tick (only_device 0 example_capture),
          Event.tick (only_device 0 example_capture)] = Except.ok s1 ∧
      s1.persist_flags 0 = [true, false] := by
  obtain ⟨s1, h1, h2⟩ := (triggers_idempotent (example_streaming false) 0 Event.save_captures
    [Event.save_captures, Event.tick (fun _ => Acquisition.timeout), Event.save_captures] []
    (only_device 0 example_capture) (only_device 0 example_capture) example_capture
    example_capture (by decide) (by decide) (by decide) (by decide) (by decide) trivial
    (by
      intro ev hev
      simp only [List.mem_cons, List.mem_singleton, List.not_mem_nil, or_false] at hev
      rcases hev with rfl | rfl | rfl
      · exact ⟨trivial, trivial⟩
      · exact ⟨rfl, fun _ _ => by simp⟩
      · exact ⟨trivial, trivial⟩)
    (by simp) (by decide)
    (by intro j _; unfold only_device; split <;> simp)
    (by decide)
    (by intro j _; unfold only_device; split <;> simp)).1
  exact ⟨s1, h1, by rw [h2]; decide⟩

/-- Claim C7. With recording enabled in continuous mode while streaming, whatever the
on-demand flags are and whatever buttons are pressed, every capture dispatched for every
device is submitted with persist true: along any sequence of events in which no acquisition
throws, the persist flags submitted for device `i` grow by one `true` per capture of `i`. -/
theorem continuous_always_persists (s : State) (evs : List Event)
    (hr : s.ready) (hs : s.streaming = true)
    (hen : s.recording_enabled = true) (hcont : s.continuous_recording = true)
    (hnf : ∀ ev, ev ∈ evs → Event.no_failure s.num_enabled_devices ev) :
    ∃ s1, run s evs = Except.ok s1 ∧
      ∀ i, i < s.num_enabled_devices →
        s1.persist_flags i = s.persist_flags i ++ List.replicate (captures_in i evs) true := by
  obtain ⟨s1, h1, _, _, hp1⟩ := run_continuous evs s hr hs hen hcont hnf
  exact ⟨s1, h1, hp1⟩

/-- Witness of claim C7: two devices streaming in continuous mode, no button pressed; device
0 yields a capture in each of two frames and both are submitted with persist true. -/
theorem continuous_always_persists_witness :
    ∃ s1, run (example_streaming true)
        [Event.tick (only_device 0 example_capture),
          Event.tick (only_device 0 example_capture)] = Except.ok s1 ∧
      s1.persist_flags 0 = [true, true] ∧ s1.persist_flags 1 = [] := by
  obtain ⟨s1, h1, h2⟩ := continuous_always_persists (example_streaming true)
    [Event.tick (only_device 0 example_capture), Event.tick (only_device 0 example_capture)]
    (by decide) (by decide) (by decide) (by decide)
    (by
      intro ev hev
      simp only [List.mem_cons, List.mem_singleton, List.not_mem_nil, or_false] at hev
      rcases hev with rfl | rfl <;>
        exact fun j _ => by unfold only_device; split <;> simp)
  refine ⟨s1, h1, ?_, ?_⟩
  · rw [h2 0 (by decide)]
    decide
  · rw [h2 1 (by decide)]
    decide

/-! ## Lemmas on tasks and sinks -/

theorem process_capture_recording (tjDecompress2 : k4a_image → Int × List Nat)
    (capture : k4a_capture) (config : k4a_device_configuration_t)
    (color_queue ir_queue : SPSCQueue Image) (hflip_color hflip_ir : Bool)
    (recording : Option record) (recording_write_enable : Bool) :
    (process_capture tjDecompress2 capture config color_queue ir_queue hflip_color hflip_ir
        recording recording_write_enable).recording =
      match recording with
      | some r => some (if recording_write_enable then r.write_capture capture else r)
      | none => none := by
  cases recording with
  | none => rfl
  | some r => cases recording_write_enable <;> rfl

theorem dispatched_in_congr (s t : State) (job : Job) (hm : same_mode s t)
    (h : job.dispatched_in s) : job.dispatched_in t := by
  unfold Job.dispatched_in at *
  rw [hm.1, hm.2.2.2]
  exact h

theorem dispatch_device_jobs (s : State) (j : Nat) (acq : Acquisition) (hr : s.ready)
    (hj : j < s.num_enabled_devices) (hacq : acq ≠ Acquisition.failed) :
    ∃ s1 new, dispatch_device s j acq = Except.ok s1 ∧ s1.ready ∧ same_mode s s1 ∧
      s1.tasks = s.tasks ++ new ∧ s1.recordings = s.recordings ∧
      (∀ job, job ∈ new → job.dispatched_in s ∧ job.color_queue = j ∧
        acq = Acquisition.capture job.capture) ∧
      new.length = (match acq with
        | Acquisition.capture _ => 1
        | _ => 0) := by
  obtain ⟨d, hd⟩ := getElem?_of_lt_length s.devices j _ hr.2.1 hj
  cases acq with
  | failed => exact absurd rfl hacq
  | timeout =>
    obtain ⟨s1, h1, hr1, hm1, ht1, _, hrec1, _⟩ := drain_device_spec s j hr hj
    exact ⟨s1, [], by simp [dispatch_device, hd, h1], hr1, hm1, by simp [ht1], hrec1,
      by simp, rfl⟩
  | capture c =>
    obtain ⟨s1, job, h1, hr1, hm1, ht1, hjc, hjq, hjiq, hjr, hjw, _, _, _, _, _, hrec1, _⟩ :=
      submit_capture_spec s j c hr hj
    have hj1 : j < s1.num_enabled_devices := by rw [hm1.2.2.2]; exact hj
    obtain ⟨s2, h2, hr2, hm2, ht2, _, hrec2, _⟩ := drain_device_spec s1 j hr1 hj1
    refine ⟨s2, [job], by simp [dispatch_device, hd, h1, h2], hr2, same_mode_trans hm1 hm2,
      by rw [ht2, ht1], by rw [hrec2, hrec1], ?_, rfl⟩
    intro job' hjob'
    have hjj : job' = job := by simpa using hjob'
    subst hjj
    refine ⟨⟨by rw [hjq]; exact hj, by rw [hjiq, hjq], by rw [hjr, hjq], ?_⟩, hjq, by rw [hjc]⟩
    intro hw
    rw [hjw] at hw
    unfold State.persist at hw
    cases hen : s.recording_enabled with
    | true => rfl
    | false => simp [hen] at hw

theorem dispatch_loop_jobs (acq : Nat → Acquisition) (l : List Nat) :
    ∀ s : State, s.ready → (∀ j, j ∈ l → j < s.num_enabled_devices) →
      (∀ j, j ∈ l → acq j ≠ Acquisition.failed) →
      ∃ s1 new, dispatch_loop acq l s = Except.ok s1 ∧ s1.ready ∧ same_mode s s1 ∧
        s1.tasks = s.tasks ++ new ∧ s1.recordings = s.recordings ∧
        (∀ job, job ∈ new → job.dispatched_in s ∧
          acq job.color_queue = Acquisition.capture job.capture) := by
  induction l with
  | nil =>
    intro s hr _ _
    exact ⟨s, [], rfl, hr, same_mode_refl s, by simp, rfl, by simp⟩
  | cons j rest ih =>
    intro s hr hlt hacq
    obtain ⟨sj, newj, hsj, hrj, hmj, htj, hrecj, hjobs, _⟩ :=
      dispatch_device_jobs s j (acq j) hr (hlt j (List.mem_cons_self j rest))
        (hacq j (List.mem_cons_self j rest))
    obtain ⟨s1, new1, hs1, hr1, hm1, ht1, hrec1, hjobs1⟩ := ih sj hrj
      (fun k hk => by rw [hmj.2.2.2]; exact hlt k (List.mem_cons_of_mem j hk))
      (fun k hk => hacq k (List.mem_cons_of_mem j hk))
    refine ⟨s1, newj ++ new1, by simp [dispatch_loop, hsj, hs1], hr1, same_mode_trans hmj hm1,
      by rw [ht1, htj, List.append_assoc], by rw [hrec1, hrecj], ?_⟩
    intro job hjob
    rcases List.mem_append.1 hjob with h | h
    · obtain ⟨h1, h2, h3⟩ := hjobs job h
      exact ⟨h1, by rw [h2]; exact h3⟩
    · obtain ⟨h1, h2⟩ := hjobs1 job h
      refine ⟨?_, h2⟩
      unfold Job.dispatched_in at *
      rw [← hmj.1, ← hmj.2.2.2]
      exact h1

theorem run_job_spec (tjDecompress2 : k4a_image → Int × List Nat) (s : State) (job : Job)
    (hr : s.ready) (hjob : job.dispatched_in s) :
    ∃ s1, run_job tjDecompress2 s job = Except.ok s1 ∧ s1.ready ∧ same_mode s s1 ∧
      ∀ i, (s1.recordings[i]?).map (fun r => r.written) =
        (s.recordings[i]?).map (fun r => r.written ++ persisted_captures i [job]) := by
  obtain ⟨hp, hd, hcf, hcq, hiq, hcd, hid, hch, hih, hwe, hrec⟩ := hr
  obtain ⟨hlt, hir, hjr, hjw⟩ := hjob
  obtain ⟨cq, hcq'⟩ := getElem?_of_lt_length s.color_queues job.color_queue _ hcq hlt
  obtain ⟨iq, hiq'⟩ := getElem?_of_lt_length s.ir_queues job.ir_queue _ hiq (by rw [hir]; exact hlt)
  cases hen : s.recording_enabled with
  | false =>
    have hnone : job.recording = none := by rw [hjr, hen]; rfl
    have hwf : job.recording_write_enable = false := by
      cases hw : job.recording_write_enable with
      | false => rfl
      | true => rw [hjw hw] at hen; cases hen
    simp only [run_job, hcq', hiq', hnone]
    refine ⟨_, rfl,
      ⟨hp, hd, hcf, by simpa using hcq, by simpa using hiq, hcd, hid, hch, hih, hwe, hrec⟩,
      ⟨rfl, rfl, rfl, rfl⟩, ?_⟩
    intro i
    simp [persisted_captures, hwf]
  | true =>
    have hsome : job.recording = some job.color_queue := by rw [hjr, hen]; rfl
    have hlen := hrec hen
    obtain ⟨sink, hsink⟩ := getElem?_of_lt_length s.recordings job.color_queue _ hlen hlt
    simp only [run_job, hcq', hiq', hsome, hsink]
    refine ⟨_, rfl,
      ⟨hp, hd, hcf, by simpa using hcq, by simpa using hiq, hcd, hid, hch, hih, hwe,
        fun h => by simpa using hrec h⟩,
      ⟨rfl, rfl, rfl, rfl⟩, ?_⟩
    intro i
    have hltr : job.color_queue < s.recordings.length := by rw [hlen]; exact hlt
    by_cases hij : job.color_queue = i
    · subst hij
      cases hw : job.recording_write_enable <;>
        simp [process_capture_recording, List.getElem?_set, hltr, hsink, persisted_captures, hw,
          record.write_capture]
    · have hne : (job.color_queue == i) = false := by simpa using hij
      simp [List.getElem?_set, hij, persisted_captures, hne]

theorem persisted_captures_cons (i : Nat) (job : Job) (jobs : List Job) :
    persisted_captures i (job :: jobs) =
      persisted_captures i [job] ++ persisted_captures i jobs := by
  unfold persisted_captures
  rw [← List.map_append, ← List.filter_append]
  rfl

theorem run_jobs_spec (tjDecompress2 : k4a_image → Int × List Nat) (jobs : List Job) :
    ∀ s : State, s.ready → (∀ job, job ∈ jobs → job.dispatched_in s) →
      ∃ s1, run_jobs tjDecompress2 s jobs = Except.ok s1 ∧ s1.ready ∧ same_mode s s1 ∧
        ∀ i, (s1.recordings[i]?).map (fun r => r.written) =
          (s.recordings[i]?).map (fun r => r.written ++ persisted_captures i jobs) := by
  induction jobs with
  | nil =>
    intro s hr _
    refine ⟨s, rfl, hr, same_mode_refl s, ?_⟩
    intro i
    simp [persisted_captures]
  | cons job jobs ih =>
    intro s hr hjobs
    obtain ⟨s1, h1, hr1, hm1, hw1⟩ :=
      run_job_spec tjDecompress2 s job hr (hjobs job (List.mem_cons_self job jobs))
    obtain ⟨s2, h2, hr2, hm2, hw2⟩ := ih s1 hr1
      (fun j hj => dispatched_in_congr s s1 j hm1 (hjobs j (List.mem_cons_of_mem job hj)))
    refine ⟨s2, by simp [run_jobs, h1, h2], hr2, same_mode_trans hm1 hm2, ?_⟩
    intro i
    rw [hw2 i, persisted_captures_cons]
    have h := hw1 i
    cases hs1 : s1.recordings[i]? with
    | none =>
      rw [hs1] at h
      cases hs : s.recordings[i]? with
      | none => rfl
      | some r => rw [hs] at h; cases h
    | some r1 =>
      rw [hs1] at h
      cases hs : s.recordings[i]? with
      | none => rw [hs] at h; cases h
      | some r =>
        rw [hs] at h
        simp only [Option.map_some', Option.some.injEq] at h ⊢
        rw [h, List.append_assoc]

theorem save_captures_button_recordings (s s1 : State)
    (h : save_captures_button s = Except.ok s1) : s1.recordings = s.recordings := by
  unfold save_captures_button at h
  split at h
  · split at h
    · cases h
    · cases h
      rfl
  · cases h
    rfl

theorem save_capture_button_recordings (s s1 : State) (j : Nat) (w : Bool)
    (h : save_capture_button s j w = Except.ok s1) : s1.recordings = s.recordings := by
  unfold save_capture_button at h
  split at h
  · split at h
    · cases h
    · cases h
      rfl
    · split at h
      · split at h
        · cases h
        · cases h
          rfl
      · cases h
        rfl
  · cases h
    rfl

theorem step_jobs (s : State) (ev : Event) (hr : s.ready) (hs : s.streaming = true)
    (hnf : ev.no_failure s.num_enabled_devices) :
    ∃ s1 new, step s ev = Except.ok s1 ∧ s1.ready ∧ same_mode s s1 ∧
      s1.tasks = s.tasks ++ new ∧ s1.recordings = s.recordings ∧
      (∀ job, job ∈ new → job.dispatched_in s) := by
  cases ev with
  | tick acq =>
    obtain ⟨s1, new, h1, hr1, hm1, ht1, hrec1, hjobs⟩ :=
      dispatch_loop_jobs acq (List.range s.num_enabled_devices) s hr
        (fun j hj => List.mem_range.1 hj) (fun j hj => hnf j (List.mem_range.1 hj))
    exact ⟨s1, new, by simp [step, tick, hs, h1], hr1, hm1, ht1, hrec1,
      fun job hjob => (hjobs job hjob).1⟩
  | save_capture j w =>
    obtain ⟨s1, h1, hr1, hm1, ht1, _⟩ := save_capture_button_spec s j w hr
    exact ⟨s1, [], h1, hr1, hm1, by simp [ht1], save_capture_button_recordings s s1 j w h1,
      by simp⟩
  | save_captures =>
    obtain ⟨s1, h1, hr1, hm1, ht1, _⟩ := save_captures_button_spec s hr
    exact ⟨s1, [], h1, hr1, hm1, by simp [ht1], save_captures_button_recordings s s1 h1,
      by simp⟩

theorem run_events_jobs (evs : List Event) :
    ∀ s : State, s.ready → s.streaming = true →
      (∀ ev, ev ∈ evs → Event.no_failure s.num_enabled_devices ev) →
      ∃ s1 new, run s evs = Except.ok s1 ∧ s1.ready ∧ same_mode s s1 ∧
        s1.tasks = s.tasks ++ new ∧ s1.recordings = s.recordings ∧
        (∀ job, job ∈ new → job.dispatched_in s) := by
  induction evs with
  | nil =>
    intro s hr _ _
    exact ⟨s, [], rfl, hr, same_mode_refl s, by simp, rfl, by simp⟩
  | cons ev evs ih =>
    intro s hr hs hnf
    obtain ⟨s1, new1, h1, hr1, hm1, ht1, hrec1, hjobs1⟩ :=
      step_jobs s ev hr hs (hnf ev (List.mem_cons_self ev evs))
    obtain ⟨s2, new2, h2, hr2, hm2, ht2, hrec2, hjobs2⟩ := ih s1 hr1 (hm1.2.2.1.trans hs)
      (fun e he => by rw [hm1.2.2.2]; exact hnf e (List.mem_cons_of_mem ev he))
    refine ⟨s2, new1 ++ new2, by rw [run_cons_ok s s1 ev evs h1]; exact h2, hr2,
      same_mode_trans hm1 hm2, by rw [ht2, ht1, List.append_assoc], by rw [hrec2, hrec1], ?_⟩
    intro job hjob
    rcases List.mem_append.1 hjob with h | h
    · exact hjobs1 job h
    · have h' := hjobs2 job h
      unfold Job.dispatched_in at *
      rw [← hm1.1, ← hm1.2.2.2]
      exact h'

theorem persisted_captures_length (i : Nat) (jobs : List Job) :
    (persisted_captures i jobs).length =
      ((jobs.filter (fun j => j.color_queue == i)).map
        (fun j => j.recording_write_enable)).count true := by
  induction jobs with
  | nil => rfl
  | cons job jobs ih =>
    rw [persisted_captures_cons, List.length_append, ih]
    by_cases hq : (job.color_queue == i) = true
    · cases hw : job.recording_write_enable <;>
        simp [persisted_captures, List.filter_cons, hq, hw, Nat.add_comm]
    · simp [persisted_captures, List.filter_cons, hq]

/-! ## Recording sink -/

/-- Claim C8. `process_capture` writes the capture to the sink exactly when a sink is given
and the persist flag is true, whatever the capture holds and whatever the decoder returns.
Along any sequence of events of a streaming session in which no acquisition throws, every
task the dispatch loop submits carries a sink exactly when recording is enabled; and once
the workers have run these tasks, the sink of every device `D` has received exactly the
captures dispatched for `D` with persist true, in order, so the number of captures written
equals the number of persist flags of `D` that are true. -/
theorem recording_writes_match_persist (tjDecompress2 : k4a_image → Int × List Nat)
    (s : State) (evs : List Event) (hr : s.ready) (hs : s.streaming = true)
    (hnf : ∀ ev, ev ∈ evs → Event.no_failure s.num_enabled_devices ev) :
    (∀ (capture : k4a_capture) (config : k4a_device_configuration_t)
        (color_queue ir_queue : SPSCQueue Image) (hflip_color hflip_ir : Bool)
        (recording : Option record) (recording_write_enable : Bool),
      (process_capture tjDecompress2 capture config color_queue ir_queue hflip_color hflip_ir
          recording recording_write_enable).recording =
        match recording with
        | some r => some (if recording_write_enable then r.write_capture capture else r)
        | none => none) ∧
    ∃ s1 new, run s evs = Except.ok s1 ∧ s1.tasks = s.tasks ++ new ∧
      (∀ job, job ∈ new → job.recording.isSome = s.recording_enabled) ∧
      ∃ s2, run_jobs tjDecompress2 s1 new = Except.ok s2 ∧
        ∀ D r, s.recordings[D]? = some r →
          ∃ r2, s2.recordings[D]? = some r2 ∧
            r2.written = r.written ++ persisted_captures D new ∧
            r2.written.length = r.written.length +
              ((new.filter (fun j => j.color_queue == D)).map
                (fun j => j.recording_write_enable)).count true := by
  refine ⟨process_capture_recording tjDecompress2, ?_⟩
  obtain ⟨s1, new, h1, hr1, hm1, ht1, hrec1, hjobs⟩ := run_events_jobs evs s hr hs hnf
  obtain ⟨s2, h2, _, _, hw2⟩ := run_jobs_spec tjDecompress2 new s1 hr1
    (fun job hjob => dispatched_in_congr s s1 job hm1 (hjobs job hjob))
  refine ⟨s1, new, h1, ht1, ?_, s2, h2, ?_⟩
  · intro job hjob
    obtain ⟨_, _, hjr, _⟩ := hjobs job hjob
    rw [hjr]
    cases s.recording_enabled <;> rfl
  · intro D r hD
    have h := hw2 D
    rw [hrec1, hD] at h
    cases hs2 : s2.recordings[D]? with
    | none => rw [hs2] at h; cases h
    | some r2 =>
      rw [hs2] at h
      simp only [Option.map_some', Option.some.injEq] at h
      exact ⟨r2, rfl, h, by rw [h, List.length_append, persisted_captures_length]⟩

/-- Witness of claim C8: two devices streaming in on-demand mode with a decoder that always
fails. Device 1 is triggered and yields an NV12 capture, then a BGRA32 capture without a
trigger; after the workers ran, the sink of device 1 holds the first capture only. -/
theorem recording_writes_match_persist_witness :
    ∃ s1 new s2, run (example_streaming false)
        [Event.save_captures, Event.tick (only_device 1 example_capture_nv12),
          Event.tick (only_device 1 example_capture)] = Except.ok s1 ∧
      s1.tasks = (example_streaming false).tasks ++ new ∧
      run_jobs (fun _ => (1, [])) s1 new = Except.ok s2 ∧
      ∃ r2, s2.recordings[1]? = some r2 ∧ r2.written = [example_capture_nv12] := by
  obtain ⟨s1, new, h1, h2, _, s2, h3, h4⟩ :=
    (recording_writes_match_persist (fun _ => (1, [])) (example_streaming false)
      [Event.save_captures, Event.tick (only_device 1 example_capture_nv12),
        Event.tick (only_device 1 example_capture)] (by decide) (by decide)
      (by
        intro ev hev
        simp only [List.mem_cons, List.mem_singleton, List.not_mem_nil, or_false] at hev
        rcases hev with rfl | rfl | rfl
        · trivial
        · exact fun j _ => by unfold only_device; split <;> simp
        · exact fun j _ => by unfold only_device; split <;> simp)).2
  obtain ⟨r2, h5, h6, _⟩ := h4 1
    { path := "rec/1700000000_000456.mkv", dev := 1, header := true, written := [] } (by decide)
  refine ⟨s1, new, s2, h1, h2, h3, r2, h5, ?_⟩
  rw [h6]
  have hs1 : s1 = (match run (example_streaming false)
      [Event.save_captures, Event.tick (only_device 1 example_capture_nv12),
        Event.tick (only_device 1 example_capture)] with
      | Except.ok t => t
      | Except.error _ => State.initial) := by
    rw [h1]
  have hnew : new = s1.tasks := by
    rw [h2]
    have : (example_streaming false).tasks = [] := by decide
    rw [this]
    rfl
  rw [hnew, hs1]
  decide

/-! ## Lemmas on the display queues -/

theorem try_push_bounded (q : SPSCQueue Image) (x : Image) (h : q.bounded) :
    (q.try_push x).1.bounded := by
  unfold SPSCQueue.try_push
  by_cases hlt : q.items.length < q.capacity
  · rw [if_pos hlt]
    refine ⟨h.1, ?_⟩
    have hc : q.capacity = IMG_QUEUE_SIZE := h.1
    simp only [List.length_append, List.length_singleton]
    omega
  · rw [if_neg hlt]
    exact h

theorem pop_bounded (q : SPSCQueue Image) (h : q.bounded) : q.pop.bounded := by
  refine ⟨h.1, ?_⟩
  have hl : q.items.length ≤ IMG_QUEUE_SIZE := h.2
  simp only [SPSCQueue.pop, List.length_tail]
  omega

theorem try_push_full (q : SPSCQueue Image) (x : Image) (h : q.items.length = q.capacity) :
    q.try_push x = (q, false) := by
  unfold SPSCQueue.try_push
  rw [if_neg (by omega)]

theorem ite_push_bounded (b : Bool) (q : SPSCQueue Image) (x : Image) (h : q.bounded) :
    (if b = true then (q.try_push x).1 else q).bounded := by
  cases b
  · exact h
  · exact try_push_bounded q x h

theorem ite_push_full (b : Bool) (q : SPSCQueue Image) (x : Image)
    (h : q.items.length = q.capacity) :
    (if b = true then (q.try_push x).1 else q) = q := by
  cases b
  · rfl
  · simp [try_push_full q x h]

theorem process_capture_color_bounded (tjDecompress2 : k4a_image → Int × List Nat)
    (capture : k4a_capture) (q : SPSCQueue Image) (hflip_color : Bool) (h : q.bounded) :
    (process_capture_color tjDecompress2 capture q hflip_color).bounded := by
  unfold process_capture_color
  split
  · exact h
  · exact ite_push_bounded _ q _ h

theorem process_capture_ir_bounded (capture : k4a_capture) (config : k4a_device_configuration_t)
    (q : SPSCQueue Image) (hflip_ir : Bool) (h : q.bounded) :
    (process_capture_ir capture config q hflip_ir).bounded := by
  unfold process_capture_ir
  split
  · exact h
  · exact try_push_bounded q _ h

theorem process_capture_color_full (tjDecompress2 : k4a_image → Int × List Nat)
    (capture : k4a_capture) (q : SPSCQueue Image) (hflip_color : Bool)
    (h : q.items.length = q.capacity) :
    process_capture_color tjDecompress2 capture q hflip_color = q := by
  unfold process_capture_color
  split
  · rfl
  · exact ite_push_full _ q _ h

theorem process_capture_ir_full (capture : k4a_capture) (config : k4a_device_configuration_t)
    (q : SPSCQueue Image) (hflip_ir : Bool) (h : q.items.length = q.capacity) :
    process_capture_ir capture config q hflip_ir = q := by
  unfold process_capture_ir
  split
  · rfl
  · simp only
    rw [try_push_full q _ h]

theorem bounded_set (l : List (SPSCQueue Image)) (k : Nat) (x : SPSCQueue Image)
    (hl : ∀ q, q ∈ l → q.bounded) (hx : x.bounded) : ∀ q, q ∈ l.set k x → q.bounded := by
  intro q hq
  rcases List.mem_or_eq_of_mem_set hq with h | h
  · exact hl q h
  · rw [h]
    exact hx

theorem drain_queue_bounded (queues q1 : List (SPSCQueue Image)) (disps d1 : List (Option Image))
    (i : Nat) (h : drain_queue queues disps i = Except.ok (q1, d1))
    (hb : ∀ q, q ∈ queues → q.bounded) : ∀ q, q ∈ q1 → q.bounded := by
  unfold drain_queue at h
  split at h
  · rename_i q0 _ hq0 _
    split at h
    · cases h
      exact bounded_set queues i q0.pop hb (pop_bounded q0 (hb q0 (List.getElem?_mem hq0)))
    · cases h
      exact hb
  · cases h

theorem drain_device_bounded (s s1 : State) (i : Nat) (h : drain_device s i = Except.ok s1)
    (hb : s.queues_bounded) : s1.queues_bounded := by
  unfold drain_device at h
  split at h
  · cases h
  · rename_i cq cd hc
    split at h
    · cases h
    · rename_i iq id hi
      cases h
      exact ⟨drain_queue_bounded _ _ _ _ i hc hb.1, drain_queue_bounded _ _ _ _ i hi hb.2⟩

theorem submit_capture_bounded (s s1 : State) (i : Nat) (c : k4a_capture)
    (h : submit_capture s i c = Except.ok s1) (hb : s.queues_bounded) : s1.queues_bounded := by
  unfold submit_capture at h
  split at h
  · split at h
    · cases h
    · cases h
      exact hb
  · cases h

theorem dispatch_device_bounded (s s1 : State) (i : Nat) (acq : Acquisition)
    (h : dispatch_device s i acq = Except.ok s1) (hb : s.queues_bounded) :
    s1.queues_bounded := by
  unfold dispatch_device at h
  split at h
  · cases h
  · split at h
    · cases h
    · exact drain_device_bounded s s1 i h hb
    · rename_i c
      split at h
      · cases h
      · rename_i s2 hs2
        exact drain_device_bounded s2 s1 i h (submit_capture_bounded s s2 i c hs2 hb)

theorem dispatch_loop_bounded (acq : Nat → Acquisition) (l : List Nat) :
    ∀ s s1 : State, dispatch_loop acq l s = Except.ok s1 → s.queues_bounded →
      s1.queues_bounded := by
  induction l with
  | nil =>
    intro s s1 h hb
    cases h
    exact hb
  | cons i rest ih =>
    intro s s1 h hb
    unfold dispatch_loop at h
    split at h
    · cases h
    · rename_i s2 hs2
      exact ih s2 s1 h (dispatch_device_bounded s s2 i (acq i) hs2 hb)

theorem save_captures_button_queues (s s1 : State)
    (h : save_captures_button s = Except.ok s1) :
    s1.color_queues = s.color_queues ∧ s1.ir_queues = s.ir_queues := by
  unfold save_captures_button at h
  split at h
  · split at h
    · cases h
    · cases h
      exact ⟨rfl, rfl⟩
  · cases h
    exact ⟨rfl, rfl⟩

theorem save_capture_button_queues (s s1 : State) (j : Nat) (w : Bool)
    (h : save_capture_button s j w = Except.ok s1) :
    s1.color_queues = s.color_queues ∧ s1.ir_queues = s.ir_queues := by
  unfold save_capture_button at h
  split at h
  · split at h
    · cases h
    · cases h
      exact ⟨rfl, rfl⟩
    · split at h
      · split at h
        · cases h
        · cases h
          exact ⟨rfl, rfl⟩
      · cases h
        exact ⟨rfl, rfl⟩
  · cases h
    exact ⟨rfl, rfl⟩

theorem step_bounded (s s1 : State) (ev : Event) (h : step s ev = Except.ok s1)
    (hb : s.queues_bounded) : s1.queues_bounded := by
  cases ev with
  | tick acq =>
    simp only [step, tick] at h
    split at h
    · exact dispatch_loop_bounded acq _ s s1 h hb
    · cases h
      exact hb
  | save_capture j w =>
    obtain ⟨h1, h2⟩ := save_capture_button_queues s s1 j w h
    unfold State.queues_bounded
    rw [h1, h2]
    exact hb
  | save_captures =>
    obtain ⟨h1, h2⟩ := save_captures_button_queues s s1 h
    unfold State.queues_bounded
    rw [h1, h2]
    exact hb

theorem run_job_bounded (tjDecompress2 : k4a_image → Int × List Nat) (s s1 : State) (job : Job)
    (h : run_job tjDecompress2 s job = Except.ok s1) (hb : s.queues_bounded) :
    s1.queues_bounded := by
  unfold run_job at h
  split at h
  · rename_i cq iq hcq hiq
    have hcb := process_capture_color_bounded tjDecompress2 job.capture cq job.hflip_color
      (hb.1 cq (List.getElem?_mem hcq))
    have hib := process_capture_ir_bounded job.capture job.config iq job.hflip_ir
      (hb.2 iq (List.getElem?_mem hiq))
    split at h
    · cases h
      exact ⟨bounded_set _ _ _ hb.1 hcb, bounded_set _ _ _ hb.2 hib⟩
    · split at h
      · cases h
      · cases h
        exact ⟨bounded_set _ _ _ hb.1 hcb, bounded_set _ _ _ hb.2 hib⟩
  · cases h

theorem created_bounded : (SPSCQueue.create IMG_QUEUE_SIZE : SPSCQueue Image).bounded :=
  ⟨rfl, Nat.zero_le _⟩

theorem initialize_device_thread_vars_bounded (hardware_concurrency : Nat) (s : State) :
    (initialize_device_thread_vars hardware_concurrency s).queues_bounded := by
  constructor <;>
  · intro q hq
    have hq' : q = SPSCQueue.create IMG_QUEUE_SIZE := List.eq_of_mem_replicate hq
    rw [hq']
    exact created_bounded

theorem start_streaming_try_bounded (sdk : Sdk) (s : State) (hb : s.queues_bounded) :
    (start_streaming_try sdk s).1.queues_bounded := by
  have hfresh : ∀ (n : Nat) (q : SPSCQueue Image),
      q ∈ List.replicate n (SPSCQueue.create IMG_QUEUE_SIZE) → q.bounded := by
    intro n q hq
    rw [List.eq_of_mem_replicate hq]
    exact created_bounded
  unfold start_streaming_try
  split
  · exact hb
  · simp only
    split
    · exact ⟨hfresh _, hfresh _⟩
    · split
      · exact ⟨hfresh _, hfresh _⟩
      · exact ⟨hfresh _, hfresh _⟩

theorem stop_and_clear_bounded (s s1 : State) (h : stop_and_clear s = Except.ok s1)
    (hb : s.queues_bounded) : s1.queues_bounded := by
  unfold stop_and_clear at h
  split at h
  · cases h
  · cases h
    exact hb

theorem streaming_button_bounded (sdk : Sdk) (s s1 : State)
    (h : streaming_button sdk s = Except.ok s1) (hb : s.queues_bounded) :
    s1.queues_bounded := by
  unfold streaming_button at h
  split at h
  · have htry := start_streaming_try_bounded sdk s hb
    split at h
    · rename_i s2 heq
      cases h
      rw [heq] at htry
      exact htry
    · rename_i s2 heq
      rw [heq] at htry
      exact stop_and_clear_bounded s2 s1 h htry
    · cases h
  · exact stop_and_clear_bounded s s1 h hb

theorem exec_bounded (tjDecompress2 : k4a_image → Int × List Nat) (actions : List Action) :
    ∀ s s1 : State, exec tjDecompress2 s actions = Except.ok s1 → s.queues_bounded →
      s1.queues_bounded := by
  induction actions with
  | nil =>
    intro s s1 h hb
    cases h
    exact hb
  | cons a rest ih =>
    intro s s1 h hb
    unfold exec at h
    split at h
    · cases h
    · rename_i s2 hs2
      apply ih s2 s1 h
      cases a with
      | event ev => exact step_bounded s s2 ev hs2 hb
      | work job => exact run_job_bounded tjDecompress2 s s2 job hs2 hb
      | button sdk => exact streaming_button_bounded sdk s s2 hs2 hb

/-! ## Display queue bound -/

/-- Claim C9. `IMG_QUEUE_SIZE` is 3 and `initialize_device_thread_vars` creates every display
queue empty with that capacity. Starting from a state without display queues, after any
sequence of frames, button presses and worker runs that completes, every display queue has
capacity 3 and holds at most 3 frames. A push onto a full queue returns false and leaves the
queue as it is, and `process_capture` run on full display queues leaves them as they are. -/
theorem display_queue_bounded (tjDecompress2 : k4a_image → Int × List Nat) (s0 s1 : State)
    (actions : List Action)
    (h0 : s0.color_queues = [] ∧ s0.ir_queues = [])
    (h : exec tjDecompress2 s0 actions = Except.ok s1) :
    IMG_QUEUE_SIZE = 3 ∧
    (∀ (hardware_concurrency : Nat) (s : State) (q : SPSCQueue Image),
      q ∈ (initialize_device_thread_vars hardware_concurrency s).color_queues ∨
        q ∈ (initialize_device_thread_vars hardware_concurrency s).ir_queues →
      q.capacity = 3 ∧ q.items = []) ∧
    (∀ q, q ∈ s1.color_queues ∨ q ∈ s1.ir_queues → q.capacity = 3 ∧ q.items.length ≤ 3) ∧
    (∀ (q : SPSCQueue Image) (x : Image), q.items.length = q.capacity →
      q.try_push x = (q, false)) ∧
    (∀ (capture : k4a_capture) (config : k4a_device_configuration_t)
        (color_queue ir_queue : SPSCQueue Image) (hflip_color hflip_ir : Bool)
        (recording : Option record) (recording_write_enable : Bool),
      color_queue.items.length = color_queue.capacity →
      ir_queue.items.length = ir_queue.capacity →
      (process_capture tjDecompress2 capture config color_queue ir_queue hflip_color hflip_ir
          recording recording_write_enable).color_queue = color_queue ∧
        (process_capture tjDecompress2 capture config color_queue ir_queue hflip_color hflip_ir
          recording recording_write_enable).ir_queue = ir_queue) := by
  have hb0 : s0.queues_bounded := by
    unfold State.queues_bounded
    rw [h0.1, h0.2]
    exact ⟨fun q hq => absurd hq (List.not_mem_nil q), fun q hq => absurd hq (List.not_mem_nil q)⟩
  have hb1 := exec_bounded tjDecompress2 actions s0 s1 h hb0
  refine ⟨rfl, ?_, ?_, try_push_full, ?_⟩
  · intro hc s q hq
    have hq' : q = SPSCQueue.create IMG_QUEUE_SIZE := by
      rcases hq with hq | hq
      · exact List.eq_of_mem_replicate hq
      · exact List.eq_of_mem_replicate hq
    rw [hq']
    exact ⟨rfl, rfl⟩
  · intro q hq
    rcases hq with hq | hq
    · exact hb1.1 q hq
    · exact hb1.2 q hq
  · intro capture config cq iq hfc hfi recording we hc hi
    exact ⟨process_capture_color_full tjDecompress2 capture cq hfc hc,
      process_capture_ir_full capture config iq hfi hi⟩

/-- Witness of claim C9: after Start Streaming with two devices, four tasks of device 0 push
four color frames; the color queue of device 0 holds three of them and that of device 1 none,
and both have capacity 3. -/
theorem display_queue_bounded_witness :
    example_after_four_jobs.color_queues.map (fun q => (q.capacity, q.items.length)) =
        [(3, 3), (3, 0)] ∧
      ∀ q, q ∈ example_after_four_jobs.color_queues ∨ q ∈ example_after_four_jobs.ir_queues →
        q.capacity = 3 ∧ q.items.length ≤ 3 :=
  ⟨by decide,
    (display_queue_bounded (fun _ => (1, [])) example_idle example_after_four_jobs
      [Action.button example_sdk, Action.work example_job, Action.work example_job,
        Action.work example_job, Action.work example_job] (by decide) rfl).2.2.1⟩

/-! ## IR normalization -/

/-- Claim C10, evaluated on the code. In passive-IR mode `expected_pixel_range_max` is 100 and
`scale_factor` the double nearest to 2.55. For the raw sample 25750, which is above 100, the
product is 65662.5; stored in the `uint16_t scaled_value` it is 126, which the clamp leaves
alone, so the output pixel is 126 and not 255. For the raw sample 100 the double product is
just below 255 and the output pixel is 254. -/
theorem ir_saturation_fails :
    expected_pixel_range_max K4A_DEPTH_MODE_PASSIVE_IR = 100 ∧
    scale_factor K4A_DEPTH_MODE_PASSIVE_IR = { m := 5742089524897382, e := -51 } ∧
    100 ≤ 25750 ∧ 25750 < 2 ^ 16 ∧
    Double.trunc (Double.mul_nat 25750 (scale_factor K4A_DEPTH_MODE_PASSIVE_IR)) = 65662 ∧
    scaled_value K4A_DEPTH_MODE_PASSIVE_IR 25750 = 126 ∧
    out_value K4A_DEPTH_MODE_PASSIVE_IR 25750 = 126 ∧
    (process_capture_ir (ir_capture 25750)
        { DEFAULT_CONFIG with depth_mode := K4A_DEPTH_MODE_PASSIVE_IR }
        (SPSCQueue.create IMG_QUEUE_SIZE) false).items =
      [{ height := 1, width := 1, channels := 1, data := [126] }] ∧
    out_value K4A_DEPTH_MODE_PASSIVE_IR 100 = 254 := by
  decide

/-- Claim C11, evaluated on the code. For the raw sample 25750 the passive-IR output is 126,
because the product 65662.5 is kept modulo `2^16` in the `uint16_t scaled_value` before the
clamp, while the active-depth output for the same sample is 255: the passive-IR output is the
smaller one. For the raw sample 100 the outputs are 254 and 25. -/
theorem passive_ir_not_above_active :
    25750 < 2 ^ 16 ∧
    out_value K4A_DEPTH_MODE_PASSIVE_IR 25750 = 126 ∧
    out_value K4A_DEPTH_MODE_NFOV_UNBINNED 25750 = 255 ∧
    out_value K4A_DEPTH_MODE_PASSIVE_IR 25750 < out_value K4A_DEPTH_MODE_NFOV_UNBINNED 25750 ∧
    out_value K4A_DEPTH_MODE_PASSIVE_IR 100 = 254 ∧
    out_value K4A_DEPTH_MODE_NFOV_UNBINNED 100 = 25 := by
  decide

/-! ## Color path of the frame processor -/

theorem ite_push_eq (b : Bool) (q : SPSCQueue Image) (x : Image) :
    (if b = true then (q.try_push x).1 else q) =
      match (if b = true then some x else none) with
      | some img => (q.try_push img).1
      | none => q := by
  cases b <;> rfl

theorem process_capture_color_eq (tjDecompress2 : k4a_image → Int × List Nat)
    (capture : k4a_capture) (q : SPSCQueue Image) (hflip_color : Bool) :
    process_capture_color tjDecompress2 capture q hflip_color =
      match color_push_attempt tjDecompress2 capture hflip_color with
      | some img => (q.try_push img).1
      | none => q := by
  unfold process_capture_color color_push_attempt
  cases capture.color_image with
  | none => rfl
  | some color_img => exact ite_push_eq _ q _

/-- Claim C17. `process_capture` reaches the `try_push` call on the color display queue
exactly when the capture has a valid color image whose format is MJPG with decoder result 0
or whose format is BGRA32; the color queue afterwards is the result of that push, and it is
the queue it was given when there is no color image, the decoder fails, or the format is
another one (NV12, YUY2). -/
theorem color_push_iff (tjDecompress2 : k4a_image → Int × List Nat)
    (capture : k4a_capture) (config : k4a_device_configuration_t)
    (color_queue ir_queue : SPSCQueue Image) (hflip_color hflip_ir : Bool)
    (recording : Option record) (recording_write_enable : Bool) :
    ((color_push_attempt tjDecompress2 capture hflip_color).isSome = true ↔
      ∃ color_img, capture.color_image = some color_img ∧
        ((color_img.format = K4A_IMAGE_FORMAT_COLOR_MJPG ∧ (tjDecompress2 color_img).1 = 0) ∨
          color_img.format = K4A_IMAGE_FORMAT_COLOR_BGRA32)) ∧
    (process_capture tjDecompress2 capture config color_queue ir_queue hflip_color hflip_ir
        recording recording_write_enable).color_queue =
      (match color_push_attempt tjDecompress2 capture hflip_color with
        | some img => (color_queue.try_push img).1
        | none => color_queue) ∧
    ((¬ ∃ color_img, capture.color_image = some color_img ∧
        ((color_img.format = K4A_IMAGE_FORMAT_COLOR_MJPG ∧ (tjDecompress2 color_img).1 = 0) ∨
          color_img.format = K4A_IMAGE_FORMAT_COLOR_BGRA32)) →
      (process_capture tjDecompress2 capture config color_queue ir_queue hflip_color hflip_ir
        recording recording_write_enable).color_queue = color_queue) := by
  have hiff : (color_push_attempt tjDecompress2 capture hflip_color).isSome = true ↔
      ∃ color_img, capture.color_image = some color_img ∧
        ((color_img.format = K4A_IMAGE_FORMAT_COLOR_MJPG ∧ (tjDecompress2 color_img).1 = 0) ∨
          color_img.format = K4A_IMAGE_FORMAT_COLOR_BGRA32) := by
    unfold color_push_attempt
    cases hc : capture.color_image with
    | none => simp
    | some color_img =>
      simp only [Option.some.injEq, exists_eq_left']
      have hne : K4A_IMAGE_FORMAT_COLOR_MJPG ≠ K4A_IMAGE_FORMAT_COLOR_BGRA32 := by decide
      by_cases hm : color_img.format = K4A_IMAGE_FORMAT_COLOR_MJPG
      · by_cases hd : (tjDecompress2 color_img).1 = 0 <;> simp [hm, hd, hne]
      · by_cases hb : color_img.format = K4A_IMAGE_FORMAT_COLOR_BGRA32
        · simp [hb, hne.symm]
        · simp [hm, hb]
  have heq := process_capture_color_eq tjDecompress2 capture color_queue hflip_color
  refine ⟨hiff, heq, ?_⟩
  intro hno
  have hnone : color_push_attempt tjDecompress2 capture hflip_color = none := by
    cases h : color_push_attempt tjDecompress2 capture hflip_color with
    | none => rfl
    | some img =>
      exact absurd (hiff.1 (by rw [h]; rfl)) hno
  show process_capture_color tjDecompress2 capture color_queue hflip_color = color_queue
  rw [heq, hnone]

/-- Witness of claim C17: an MJPG capture whose decoder returns 1 leaves the color queue
empty, the same capture with decoder result 0 puts one frame in it, and an NV12 capture
leaves it empty. -/
theorem color_push_iff_witness :
    (process_capture (fun _ => (1, [5, 6])) example_capture_mjpg DEFAULT_CONFIG
        (SPSCQueue.create IMG_QUEUE_SIZE) (SPSCQueue.create IMG_QUEUE_SIZE) false false none
        false).color_queue = SPSCQueue.create IMG_QUEUE_SIZE ∧
    (process_capture (fun _ => (0, [5, 6])) example_capture_mjpg DEFAULT_CONFIG
        (SPSCQueue.create IMG_QUEUE_SIZE) (SPSCQueue.create IMG_QUEUE_SIZE) false false none
        false).color_queue.items = [{ height := 1, width := 2, channels := 4, data := [5, 6] }] ∧
    (process_capture (fun _ => (0, [5, 6])) example_capture_nv12 DEFAULT_CONFIG
        (SPSCQueue.create IMG_QUEUE_SIZE) (SPSCQueue.create IMG_QUEUE_SIZE) false false none
        false).color_queue = SPSCQueue.create IMG_QUEUE_SIZE :=
  ⟨(color_push_iff (fun _ => (1, [5, 6])) example_capture_mjpg DEFAULT_CONFIG
      (SPSCQueue.create IMG_QUEUE_SIZE) (SPSCQueue.create IMG_QUEUE_SIZE) false false none
      false).2.2 (by decide),
    by decide, by decide⟩

/-- Claim C20. Two invocations of `process_capture` whose captures have the same IR image,
with the same configuration, IR queue, IR flip flag, sink and persist flag, but any color
images, decoders, color queues and color flip flags: the IR queue afterwards is the same,
and so is the decision to write, the sink receiving one more capture in both or in none. -/
theorem ir_and_recording_ignore_color
    (tjDecompress2 tjDecompress2' : k4a_image → Int × List Nat)
    (capture capture' : k4a_capture) (config : k4a_device_configuration_t)
    (color_queue color_queue' ir_queue : SPSCQueue Image)
    (hflip_color hflip_color' hflip_ir : Bool)
    (recording : Option record) (recording_write_enable : Bool)
    (hir : capture.ir_image = capture'.ir_image) :
    (process_capture tjDecompress2 capture config color_queue ir_queue hflip_color hflip_ir
        recording recording_write_enable).ir_queue =
      (process_capture tjDecompress2' capture' config color_queue' ir_queue hflip_color'
        hflip_ir recording recording_write_enable).ir_queue ∧
    ((process_capture tjDecompress2 capture config color_queue ir_queue hflip_color hflip_ir
        recording recording_write_enable).recording.map (fun r => r.written.length) =
      (process_capture tjDecompress2' capture' config color_queue' ir_queue hflip_color'
        hflip_ir recording recording_write_enable).recording.map (fun r => r.written.length)) ∧
    (∀ r, recording = some r →
      (process_capture tjDecompress2 capture config color_queue ir_queue hflip_color hflip_ir
          recording recording_write_enable).recording =
        some (if recording_write_enable then r.write_capture capture else r) ∧
      (process_capture tjDecompress2' capture' config color_queue' ir_queue hflip_color'
          hflip_ir recording recording_write_enable).recording =
        some (if recording_write_enable then r.write_capture capture' else r)) := by
  refine ⟨?_, ?_, ?_⟩
  · show process_capture_ir capture config ir_queue hflip_ir =
      process_capture_ir capture' config ir_queue hflip_ir
    unfold process_capture_ir
    rw [hir]
  · rw [process_capture_recording, process_capture_recording]
    cases recording with
    | none => rfl
    | some r => cases recording_write_enable <;> simp [record.write_capture]
  · intro r hr
    rw [process_capture_recording, process_capture_recording, hr]
    exact ⟨rfl, rfl⟩

/-- Witness of claim C20: a capture with an MJPG color image whose decoding fails and a
capture without color image, both with the same IR sample, push the same IR frame. -/
theorem ir_and_recording_ignore_color_witness :
    (process_capture (fun _ => (1, [])) example_capture_mjpg DEFAULT_CONFIG
        (SPSCQueue.create IMG_QUEUE_SIZE) (SPSCQueue.create IMG_QUEUE_SIZE) true false none
        true).ir_queue =
      (process_capture (fun _ => (0, [])) (ir_capture 40) DEFAULT_CONFIG
        (SPSCQueue.create IMG_QUEUE_SIZE) (SPSCQueue.create IMG_QUEUE_SIZE) false false none
        true).ir_queue :=
  (ir_and_recording_ignore_color (fun _ => (1, [])) (fun _ => (0, [])) example_capture_mjpg
    (ir_capture 40) DEFAULT_CONFIG (SPSCQueue.create IMG_QUEUE_SIZE)
    (SPSCQueue.create IMG_QUEUE_SIZE) (SPSCQueue.create IMG_QUEUE_SIZE) true false false none
    true (by decide)).1

/-! ## Lemmas on the flip loops -/

theorem getD_set_nat (l : List Nat) (i k x : Nat) (hi : i < l.length) :
    (l.set i x).getD k 0 = if k = i then x else l.getD k 0 := by
  by_cases hk : k = i
  · subst hk
    simp [List.getD_eq_getElem?_getD, List.getElem?_set, hi]
  · have hik : ¬ i = k := fun h => hk h.symm
    simp [List.getD_eq_getElem?_getD, List.getElem?_set, hk, hik]

theorem swap_pixels_spec (b : List Nat) (i j : Nat) (hi : i < b.length) (hj : j < b.length) :
    (swap_pixels b i j).length = b.length ∧
      ∀ k, (swap_pixels b i j).getD k 0 =
        if k = j then b.getD i 0 else if k = i then b.getD j 0 else b.getD k 0 := by
  unfold swap_pixels
  refine ⟨by simp, ?_⟩
  intro k
  rw [getD_set_nat _ j k _ (by simpa using hj), getD_set_nat _ i k _ hi]

theorem hflip_row_fold (w base m : Nat) (hm : m ≤ w / 2) (b : List Nat)
    (hlen : base + w ≤ b.length) :
    ((List.range m).foldl
        (fun b u => swap_pixels b (base + u) (base + ((w - 1) - u))) b).length = b.length ∧
      ∀ k, ((List.range m).foldl
          (fun b u => swap_pixels b (base + u) (base + ((w - 1) - u))) b).getD k 0 =
        if base ≤ k ∧ k < base + w ∧ (k - base < m ∨ w - m ≤ k - base) then
          b.getD (base + ((w - 1) - (k - base))) 0
        else b.getD k 0 := by
  induction m with
  | zero =>
    refine ⟨rfl, ?_⟩
    intro k
    have hno : ¬ (base ≤ k ∧ k < base + w ∧ (k - base < 0 ∨ w - 0 ≤ k - base)) := by omega
    simp only [List.range_zero, List.foldl_nil, if_neg hno]
  | succ m ih =>
    obtain ⟨hl, hget⟩ := ih (by omega)
    have hw : 2 * m + 2 ≤ w := by omega
    rw [List.range_succ, List.foldl_append]
    simp only [List.foldl_cons, List.foldl_nil]
    obtain ⟨hl2, hget2⟩ := swap_pixels_spec
      ((List.range m).foldl (fun b u => swap_pixels b (base + u) (base + ((w - 1) - u))) b)
      (base + m) (base + ((w - 1) - m)) (by omega) (by omega)
    refine ⟨hl2.trans hl, ?_⟩
    intro k
    rw [hget2 k, hget (base + m), hget (base + ((w - 1) - m)), hget k]
    have e1 : ¬ (base ≤ base + m ∧ base + m < base + w ∧
        (base + m - base < m ∨ w - m ≤ base + m - base)) := by omega
    have e2 : ¬ (base ≤ base + (w - 1 - m) ∧ base + (w - 1 - m) < base + w ∧
        (base + (w - 1 - m) - base < m ∨ w - m ≤ base + (w - 1 - m) - base)) := by omega
    rw [if_neg e1, if_neg e2]
    by_cases h1 : k = base + (w - 1 - m)
    · have c : base ≤ k ∧ k < base + w ∧ (k - base < m + 1 ∨ w - (m + 1) ≤ k - base) := by
        omega
      rw [if_pos h1, if_pos c]
      congr 1
      omega
    · rw [if_neg h1]
      by_cases h2 : k = base + m
      · have c : base ≤ k ∧ k < base + w ∧ (k - base < m + 1 ∨ w - (m + 1) ≤ k - base) := by
          omega
        rw [if_pos h2, if_pos c]
        congr 1
        omega
      · rw [if_neg h2]
        by_cases h3 : base ≤ k ∧ k < base + w ∧ (k - base < m ∨ w - m ≤ k - base)
        · have c : base ≤ k ∧ k < base + w ∧ (k - base < m + 1 ∨ w - (m + 1) ≤ k - base) := by
            omega
          rw [if_pos h3, if_pos c]
        · have c : ¬ (base ≤ k ∧ k < base + w ∧
              (k - base < m + 1 ∨ w - (m + 1) ≤ k - base)) := by omega
          rw [if_neg h3, if_neg c]

theorem hflip_color_row_spec (w v : Nat) (b : List Nat) (hlen : v * w + w ≤ b.length) :
    (hflip_color_row w v b).length = b.length ∧
      ∀ k, (hflip_color_row w v b).getD k 0 =
        if v * w ≤ k ∧ k < v * w + w ∧ (k - v * w < w / 2 ∨ w - w / 2 ≤ k - v * w) then
          b.getD (v * w + ((w - 1) - (k - v * w))) 0
        else b.getD k 0 :=
  hflip_row_fold w (v * w) (w / 2) (Nat.le_refl _) b hlen

theorem row_bound (v n w : Nat) (h : v < n) : v * w + w ≤ n * w := by
  have h1 : (v + 1) * w ≤ n * w := Nat.mul_le_mul_right w h
  rw [Nat.add_mul, Nat.one_mul] at h1
  exact h1

theorem hflip_pass_fold (h w n : Nat) (hn : n ≤ h) (b : List Nat) (hlen : b.length = h * w) :
    ((List.range n).foldl (fun b v => hflip_color_row w v b) b).length = b.length ∧
      ∀ v c, c < w →
        ((List.range n).foldl (fun b v => hflip_color_row w v b) b).getD (v * w + c) 0 =
          if v < n then b.getD (v * w + ((w - 1) - c)) 0 else b.getD (v * w + c) 0 := by
  induction n with
  | zero =>
    refine ⟨rfl, ?_⟩
    intro v c _
    simp
  | succ n ih =>
    obtain ⟨hl, hget⟩ := ih (by omega)
    rw [List.range_succ, List.foldl_append]
    simp only [List.foldl_cons, List.foldl_nil]
    have hrow : n * w + w ≤ h * w := row_bound n h w (by omega)
    obtain ⟨hl2, hget2⟩ := hflip_color_row_spec w n
      ((List.range n).foldl (fun b v => hflip_color_row w v b) b) (by rw [hl, hlen]; exact hrow)
    refine ⟨hl2.trans hl, ?_⟩
    intro v c hc
    rw [hget2 (v * w + c)]
    rcases Nat.lt_trichotomy v n with hv | hv | hv
    · have hb := row_bound v n w hv
      have c1 : ¬ (n * w ≤ v * w + c ∧ v * w + c < n * w + w ∧
          (v * w + c - n * w < w / 2 ∨ w - w / 2 ≤ v * w + c - n * w)) := by omega
      rw [if_neg c1, hget v c hc, if_pos hv, if_pos (by omega)]
    · subst hv
      rw [if_pos (by omega : v < v + 1)]
      by_cases hmid : c < w / 2 ∨ w - w / 2 ≤ c
      · have c1 : v * w ≤ v * w + c ∧ v * w + c < v * w + w ∧
            (v * w + c - v * w < w / 2 ∨ w - w / 2 ≤ v * w + c - v * w) := by omega
        rw [if_pos c1]
        have e : v * w + (w - 1 - (v * w + c - v * w)) = v * w + (w - 1 - c) := by omega
        rw [e, hget v (w - 1 - c) (by omega), if_neg (by omega)]
      · have c1 : ¬ (v * w ≤ v * w + c ∧ v * w + c < v * w + w ∧
            (v * w + c - v * w < w / 2 ∨ w - w / 2 ≤ v * w + c - v * w)) := by omega
        rw [if_neg c1, hget v c hc, if_neg (by omega)]
        congr 1
        omega
    · have hb := row_bound n v w hv
      have c1 : ¬ (n * w ≤ v * w + c ∧ v * w + c < n * w + w ∧
          (v * w + c - n * w < w / 2 ∨ w - w / 2 ≤ v * w + c - n * w)) := by omega
      rw [if_neg c1, hget v c hc, if_neg (by omega), if_neg (by omega)]

theorem hflip_color_pass_spec (h w : Nat) (b : List Nat) (hlen : b.length = h * w) :
    (hflip_color_pass h w b).length = h * w ∧
      ∀ v c, v < h → c < w →
        (hflip_color_pass h w b).getD (v * w + c) 0 = b.getD (v * w + ((w - 1) - c)) 0 := by
  obtain ⟨hl, hget⟩ := hflip_pass_fold h w h (Nat.le_refl _) b hlen
  refine ⟨hl.trans hlen, ?_⟩
  intro v c hv hc
  have := hget v c hc
  rw [if_pos hv] at this
  exact this

theorem getElem?_of_getD (l1 l2 : List Nat) (i j : Nat) (hi : i < l1.length)
    (hj : j < l2.length) (h : l1.getD i 0 = l2.getD j 0) : l1[i]? = l2[j]? := by
  rw [List.getD_eq_getElem?_getD, List.getD_eq_getElem?_getD, List.getElem?_eq_getElem hi,
    List.getElem?_eq_getElem hj] at h
  rw [List.getElem?_eq_getElem hi, List.getElem?_eq_getElem hj]
  exact congrArg some h

theorem cell_lt (h w v c : Nat) (hv : v < h) (hc : c < w) : v * w + c < h * w := by
  have := row_bound v h w hv
  omega

theorem eq_of_cells (h w : Nat) (l1 l2 : List Nat) (h1 : l1.length = h * w)
    (h2 : l2.length = h * w)
    (hcell : ∀ v c, v < h → c < w → l1.getD (v * w + c) 0 = l2.getD (v * w + c) 0) :
    l1 = l2 := by
  apply List.ext_getElem?
  intro k
  by_cases hk : k < h * w
  · have hw : 0 < w := by
      rcases Nat.eq_zero_or_pos w with h0 | h0
      · rw [h0] at hk
        simp at hk
      · exact h0
    have hdiv : k / w < h := (Nat.div_lt_iff_lt_mul hw).2 hk
    have hmod : k % w < w := Nat.mod_lt k hw
    have hk' : k / w * w + k % w = k := Nat.div_add_mod' k w
    have := hcell (k / w) (k % w) hdiv hmod
    rw [hk'] at this
    exact getElem?_of_getD l1 l2 k k (by omega) (by omega) this
  · rw [List.getElem?_eq_none (by omega), List.getElem?_eq_none (by omega)]

/-! ## Color flip -/

/-- Claim C12. For every height and width and every buffer of `height * width` pixels, the
color flip pass of `process_capture` applied twice gives back the buffer. -/
theorem hflip_color_involution (height width : Nat) (buffer : List Nat)
    (hlen : buffer.length = height * width) :
    hflip_color_pass height width (hflip_color_pass height width buffer) = buffer := by
  obtain ⟨hl1, hget1⟩ := hflip_color_pass_spec height width buffer hlen
  obtain ⟨hl2, hget2⟩ :=
    hflip_color_pass_spec height width (hflip_color_pass height width buffer) hl1
  apply eq_of_cells height width _ _ hl2 hlen
  intro v c hv hc
  rw [hget2 v c hv hc, hget1 v (width - 1 - c) hv (by omega)]
  congr 1
  omega

/-- Witness of claim C12: a 2x3 buffer (odd width) flipped twice is itself, and so are a
buffer of width 0 and a buffer of width 1. -/
theorem hflip_color_involution_witness :
    hflip_color_pass 2 3 (hflip_color_pass 2 3 [1, 2, 3, 4, 5, 6]) = [1, 2, 3, 4, 5, 6] ∧
    hflip_color_pass 2 3 [1, 2, 3, 4, 5, 6] = [3, 2, 1, 6, 5, 4] ∧
    hflip_color_pass 4 0 (hflip_color_pass 4 0 []) = [] ∧
    hflip_color_pass 2 1 (hflip_color_pass 2 1 [8, 9]) = [8, 9] :=
  ⟨hflip_color_involution 2 3 [1, 2, 3, 4, 5, 6] (by decide), by decide,
    by decide, by decide⟩

/-- Claim C19. For every height and width and every buffer of `height * width` pixels, the
color flip pass keeps the size of the buffer and leaves at row `v`, column `u` the pixel that
was at row `v`, column `width - 1 - u`; pixels move as whole 32-bit words, and with an odd
width the middle column is unchanged. -/
theorem hflip_color_mirror (height width : Nat) (buffer : List Nat)
    (hlen : buffer.length = height * width) :
    (hflip_color_pass height width buffer).length = height * width ∧
    (∀ v u, v < height → u < width →
      (hflip_color_pass height width buffer)[v * width + u]? =
        buffer[v * width + ((width - 1) - u)]?) ∧
    (∀ v u, v < height → 2 * u + 1 = width →
      (hflip_color_pass height width buffer)[v * width + u]? = buffer[v * width + u]?) := by
  obtain ⟨hl, hget⟩ := hflip_color_pass_spec height width buffer hlen
  have hmirror : ∀ v u, v < height → u < width →
      (hflip_color_pass height width buffer)[v * width + u]? =
        buffer[v * width + ((width - 1) - u)]? := by
    intro v u hv hu
    have h1 := cell_lt height width v u hv hu
    have h2 := cell_lt height width v (width - 1 - u) hv (by omega)
    exact getElem?_of_getD _ _ _ _ (by omega) (by omega) (hget v u hv hu)
  refine ⟨hl, hmirror, ?_⟩
  intro v u hv hu
  rw [hmirror v u hv (by omega)]
  congr 1
  omega

/-- Witness of claim C19: in a 1x3 buffer the outer pixels are exchanged and the middle one
stays. -/
theorem hflip_color_mirror_witness :
    (hflip_color_pass 1 3 [10, 20, 30])[0 * 3 + 0]? = [10, 20, 30][0 * 3 + ((3 - 1) - 0)]? ∧
    hflip_color_pass 1 3 [10, 20, 30] = [30, 20, 10] :=
  ⟨(hflip_color_mirror 1 3 [10, 20, 30] (by decide)).2.1 0 0 (by decide) (by decide),
    by decide⟩

/-! ## Lemmas on the IR pass -/

theorem ir_row_fold (depth_mode : Int) (hflip_ir : Bool) (w base m : Nat) (hm : m ≤ w)
    (in_buffer out : List Nat) (hlen : base + w ≤ out.length) :
    ((List.range m).foldl
        (fun out u => out.set (if hflip_ir then base + ((w - 1) - u) else base + u)
          (out_value depth_mode (in_buffer.getD (base + u) 0))) out).length = out.length ∧
      ∀ k, ((List.range m).foldl
          (fun out u => out.set (if hflip_ir then base + ((w - 1) - u) else base + u)
            (out_value depth_mode (in_buffer.getD (base + u) 0))) out).getD k 0 =
        if base ≤ k ∧ k < base + w ∧
            (if hflip_ir then (w - 1) - (k - base) else k - base) < m then
          out_value depth_mode
            (in_buffer.getD (base + (if hflip_ir then (w - 1) - (k - base) else k - base)) 0)
        else out.getD k 0 := by
  induction m with
  | zero =>
    refine ⟨rfl, ?_⟩
    intro k
    simp
  | succ m ih =>
    obtain ⟨hl, hget⟩ := ih (by omega)
    rw [List.range_succ, List.foldl_append]
    simp only [List.foldl_cons, List.foldl_nil]
    refine ⟨by rw [List.length_set]; exact hl, ?_⟩
    intro k
    cases hflip_ir with
    | false =>
      simp only [Bool.false_eq_true, if_false] at hget hl ⊢
      rw [getD_set_nat _ _ k _ (by rw [hl]; omega), hget k]
      by_cases h1 : k = base + m
      · rw [if_pos h1, if_pos (by omega)]
        congr 2
        omega
      · rw [if_neg h1]
        by_cases h2 : base ≤ k ∧ k < base + w ∧ k - base < m
        · rw [if_pos h2, if_pos (by omega)]
        · rw [if_neg h2, if_neg (by omega)]
    | true =>
      simp only [if_true] at hget hl ⊢
      rw [getD_set_nat _ _ k _ (by rw [hl]; omega), hget k]
      by_cases h1 : k = base + (w - 1 - m)
      · rw [if_pos h1, if_pos (by omega)]
        congr 2
        omega
      · rw [if_neg h1]
        by_cases h2 : base ≤ k ∧ k < base + w ∧ w - 1 - (k - base) < m
        · rw [if_pos h2, if_pos (by omega)]
        · rw [if_neg h2, if_neg (by omega)]

theorem ir_row_spec (depth_mode : Int) (hflip_ir : Bool) (w v : Nat)
    (in_buffer out : List Nat) (hlen : v * w + w ≤ out.length) :
    (ir_row depth_mode hflip_ir w v in_buffer out).length = out.length ∧
      ∀ k, (ir_row depth_mode hflip_ir w v in_buffer out).getD k 0 =
        if v * w ≤ k ∧ k < v * w + w then
          out_value depth_mode
            (in_buffer.getD
              (v * w + (if hflip_ir then (w - 1) - (k - v * w) else k - v * w)) 0)
        else out.getD k 0 := by
  obtain ⟨hl, hget⟩ :=
    ir_row_fold depth_mode hflip_ir w (v * w) w (Nat.le_refl _) in_buffer out hlen
  refine ⟨hl, ?_⟩
  intro k
  have := hget k
  by_cases hk : v * w ≤ k ∧ k < v * w + w
  · have hc : v * w ≤ k ∧ k < v * w + w ∧
        (if hflip_ir then (w - 1) - (k - v * w) else k - v * w) < w := by
      refine ⟨hk.1, hk.2, ?_⟩
      cases hflip_ir
      · simp only [Bool.false_eq_true, if_false]
        omega
      · simp only [if_true]
        omega
    rw [if_pos hc] at this
    rw [if_pos hk]
    exact this
  · have hc : ¬ (v * w ≤ k ∧ k < v * w + w ∧
        (if hflip_ir then (w - 1) - (k - v * w) else k - v * w) < w) := fun h =>
      hk ⟨h.1, h.2.1⟩
    rw [if_neg hc] at this
    rw [if_neg hk]
    exact this

theorem ir_pass_fold (depth_mode : Int) (hflip_ir : Bool) (h w n : Nat) (hn : n ≤ h)
    (in_buffer out : List Nat) (hlen : out.length = h * w) :
    ((List.range n).foldl
        (fun out v => ir_row depth_mode hflip_ir w v in_buffer out) out).length = out.length ∧
      ∀ v c, c < w →
        ((List.range n).foldl
            (fun out v => ir_row depth_mode hflip_ir w v in_buffer out) out).getD
            (v * w + c) 0 =
          if v < n then
            out_value depth_mode
              (in_buffer.getD (v * w + (if hflip_ir then (w - 1) - c else c)) 0)
          else out.getD (v * w + c) 0 := by
  induction n with
  | zero =>
    refine ⟨rfl, ?_⟩
    intro v c _
    simp
  | succ n ih =>
    obtain ⟨hl, hget⟩ := ih (by omega)
    rw [List.range_succ, List.foldl_append]
    simp only [List.foldl_cons, List.foldl_nil]
    have hrow : n * w + w ≤ h * w := row_bound n h w (by omega)
    obtain ⟨hl2, hget2⟩ := ir_row_spec depth_mode hflip_ir w n in_buffer
      ((List.range n).foldl (fun out v => ir_row depth_mode hflip_ir w v in_buffer out) out)
      (by rw [hl, hlen]; exact hrow)
    refine ⟨hl2.trans hl, ?_⟩
    intro v c hc
    rw [hget2 (v * w + c)]
    rcases Nat.lt_trichotomy v n with hv | hv | hv
    · have hb := row_bound v n w hv
      have c1 : ¬ (n * w ≤ v * w + c ∧ v * w + c < n * w + w) := by omega
      have c2 : v < n + 1 := by omega
      rw [if_neg c1, hget v c hc, if_pos hv, if_pos c2]
    · subst hv
      have e : v * w + c - v * w = c := by omega
      have c1 : v * w ≤ v * w + c ∧ v * w + c < v * w + w := by omega
      have c2 : v < v + 1 := by omega
      rw [if_pos c1, if_pos c2, e]
    · have hb := row_bound n v w hv
      have c1 : ¬ (n * w ≤ v * w + c ∧ v * w + c < n * w + w) := by omega
      have c2 : ¬ v < n + 1 := by omega
      have c3 : ¬ v < n := by omega
      rw [if_neg c1, hget v c hc, if_neg c3, if_neg c2]

theorem ir_pass_from_spec (depth_mode : Int) (hflip_ir : Bool) (h w : Nat)
    (in_buffer out : List Nat) (hlen : out.length = h * w) :
    (ir_pass_from depth_mode hflip_ir h w in_buffer out).length = h * w ∧
      ∀ v c, v < h → c < w →
        (ir_pass_from depth_mode hflip_ir h w in_buffer out).getD (v * w + c) 0 =
          out_value depth_mode
            (in_buffer.getD (v * w + (if hflip_ir then (w - 1) - c else c)) 0) := by
  obtain ⟨hl, hget⟩ :=
    ir_pass_fold depth_mode hflip_ir h w h (Nat.le_refl _) in_buffer out hlen
  refine ⟨hl.trans hlen, ?_⟩
  intro v c hv hc
  have := hget v c hc
  rw [if_pos hv] at this
  exact this

theorem ir_pass_eq_from (depth_mode : Int) (hflip_ir : Bool) (h w : Nat)
    (in_buffer : List Nat) :
    ir_pass depth_mode hflip_ir h w in_buffer =
      ir_pass_from depth_mode hflip_ir h w in_buffer (List.replicate (h * w) 0) := rfl

/-! ## Fused IR flip -/

/-- Claim C18. For every depth mode, height, width and input buffer, the IR pass of
`process_capture` with `hflip_ir` true and with `hflip_ir` false both produce `height * width`
pixels, and the pixel at row `v`, column `u` of the flipped output is the pixel at row `v`,
column `width - 1 - u` of the unflipped output. Every output pixel is written: the result
does not depend on what the output buffer held before the pass, and each pixel is the
normalized value of the input sample it is taken from. -/
theorem ir_flip_fused (depth_mode : Int) (height width : Nat) (in_buffer : List Nat) :
    (ir_pass depth_mode true height width in_buffer).length = height * width ∧
    (ir_pass depth_mode false height width in_buffer).length = height * width ∧
    (∀ v u, v < height → u < width →
      (ir_pass depth_mode true height width in_buffer)[v * width + u]? =
        (ir_pass depth_mode false height width in_buffer)[v * width + ((width - 1) - u)]?) ∧
    (∀ (hflip_ir : Bool) (out_buffer : List Nat), out_buffer.length = height * width →
      ir_pass_from depth_mode hflip_ir height width in_buffer out_buffer =
        ir_pass depth_mode hflip_ir height width in_buffer) ∧
    (∀ (hflip_ir : Bool) v u, v < height → u < width →
      (ir_pass depth_mode hflip_ir height width in_buffer)[v * width + u]? =
        some (out_value depth_mode
          (in_buffer.getD (v * width + (if hflip_ir then (width - 1) - u else u)) 0))) := by
  have hrep : (List.replicate (height * width) 0).length = height * width :=
    List.length_replicate _ _
  have hspec : ∀ hflip_ir : Bool,
      (ir_pass depth_mode hflip_ir height width in_buffer).length = height * width ∧
        ∀ v c, v < height → c < width →
          (ir_pass depth_mode hflip_ir height width in_buffer).getD (v * width + c) 0 =
            out_value depth_mode
              (in_buffer.getD (v * width + (if hflip_ir then (width - 1) - c else c)) 0) := by
    intro hflip_ir
    rw [ir_pass_eq_from]
    exact ir_pass_from_spec depth_mode hflip_ir height width in_buffer _ hrep
  obtain ⟨hlt, hgt⟩ := hspec true
  obtain ⟨hlf, hgf⟩ := hspec false
  refine ⟨hlt, hlf, ?_, ?_, ?_⟩
  · intro v u hv hu
    have h1 := cell_lt height width v u hv hu
    have h2 := cell_lt height width v (width - 1 - u) hv (by omega)
    apply getElem?_of_getD _ _ _ _ (by omega) (by omega)
    rw [hgt v u hv hu, hgf v (width - 1 - u) hv (by omega)]
    rfl
  · intro hflip_ir out_buffer hout
    obtain ⟨hl1, hg1⟩ := ir_pass_from_spec depth_mode hflip_ir height width in_buffer
      out_buffer hout
    obtain ⟨hl2, hg2⟩ := hspec hflip_ir
    apply eq_of_cells height width _ _ hl1 hl2
    intro v c hv hc
    rw [hg1 v c hv hc, hg2 v c hv hc]
  · intro hflip_ir v u hv hu
    obtain ⟨hl, hg⟩ := hspec hflip_ir
    have h1 := cell_lt height width v u hv hu
    rw [List.getElem?_eq_getElem (by omega)]
    have := hg v u hv hu
    rw [List.getD_eq_getElem?_getD, List.getElem?_eq_getElem (by omega)] at this
    exact congrArg some this

/-- Witness of claim C18: a 1x3 IR image in an active-depth mode. The unflipped output is
[25, 51, 76], the flipped output its mirror, and the pass started on a buffer holding other
values gives the same output. -/
theorem ir_flip_fused_witness :
    (ir_pass K4A_DEPTH_MODE_NFOV_UNBINNED true 1 3 [100, 200, 300])[0 * 3 + 0]? =
      (ir_pass K4A_DEPTH_MODE_NFOV_UNBINNED false 1 3 [100, 200, 300])[0 * 3 + ((3 - 1) - 0)]? ∧
    ir_pass K4A_DEPTH_MODE_NFOV_UNBINNED false 1 3 [100, 200, 300] = [25, 51, 76] ∧
    ir_pass K4A_DEPTH_MODE_NFOV_UNBINNED true 1 3 [100, 200, 300] = [76, 51, 25] ∧
    ir_pass_from K4A_DEPTH_MODE_NFOV_UNBINNED true 1 3 [100, 200, 300] [9, 9, 9] =
      ir_pass K4A_DEPTH_MODE_NFOV_UNBINNED true 1 3 [100, 200, 300] :=
  ⟨(ir_flip_fused K4A_DEPTH_MODE_NFOV_UNBINNED 1 3 [100, 200, 300]).2.2.1 0 0 (by decide)
      (by decide),
    by decide, by decide,
    (ir_flip_fused K4A_DEPTH_MODE_NFOV_UNBINNED 1 3 [100, 200, 300]).2.2.2.1 true [9, 9, 9]
      (by decide)⟩

/-! ## Lemmas on the recording files -/

theorem string_append_left_cancel (s x y : String) (h : s ++ x = s ++ y) : x = y := by
  have hd := congrArg String.data h
  rw [String.data_append, String.data_append] at hd
  exact String.ext (List.append_cancel_left hd)

theorem string_append_right_cancel (s x y : String) (h : x ++ s = y ++ s) : x = y := by
  have hd := congrArg String.data h
  rw [String.data_append, String.data_append] at hd
  exact String.ext (List.append_cancel_right hd)

theorem path_append_injective (separator : Char) (dir x y : String)
    (h : path_append separator dir x = path_append separator dir y) : x = y := by
  unfold path_append at h
  split at h
  · exact h
  · split at h
    · exact string_append_left_cancel dir x y h
    · exact string_append_left_cancel _ x y h

theorem recording_full_path_injective (separator : Char) (save_path : String) (t : Nat)
    (x y : String)
    (h : recording_full_path separator save_path t x =
      recording_full_path separator save_path t y) : x = y := by
  unfold recording_full_path at h
  have h1 := path_append_injective separator save_path _ _ h
  have h2 := string_append_right_cancel ".mkv" _ _ h1
  exact string_append_left_cancel _ x y h2

theorem recording_name_split (serials nicknames : List String) (idx : Nat) (name : String)
    (h : recording_name serials nicknames idx = some name) :
    ∃ nickname, nicknames[idx]? = some nickname ∧
      (if nickname.isEmpty then serials[idx]? else some nickname) = some name := by
  unfold recording_name at h
  cases hn : nicknames[idx]? with
  | none =>
    rw [hn] at h
    cases h
  | some nickname =>
    rw [hn] at h
    exact ⟨nickname, rfl, h⟩

theorem initialize_recordings_loop_spec (sdk : Sdk)
    (configs : List k4a_device_configuration_t) (device_idxs : List Nat)
    (serials nicknames : List String) (save_path : String) (names : Nat → String) (m : Nat) :
    ∀ (k : Nat) (we : List Bool) (recs : List record), recs.length = k →
      (∀ i, k ≤ i → i < k + m →
        i < configs.length ∧ sdk.record_create_ok i = true ∧ sdk.write_header_ok i = true ∧
          ∃ idx, device_idxs[i]? = some idx ∧
            recording_name serials nicknames idx = some (names i)) →
      ∃ we1 recs1,
        initialize_recordings_loop sdk configs device_idxs serials nicknames save_path
            (List.range' k m) (we, recs) = ((we1, recs1), none) ∧
          recs1.length = k + m ∧
          (∀ i, i < k → recs1[i]? = recs[i]?) ∧
          (∀ i, k ≤ i → i < k + m →
            recs1[i]? = some
              { path := recording_full_path sdk.separator save_path sdk.now (names i)
                dev := i, header := true, written := [] }) := by
  induction m with
  | zero =>
    intro k we recs hk _
    refine ⟨we, recs, rfl, by simpa using hk, fun _ _ => rfl, ?_⟩
    intro i h1 h2
    omega
  | succ m ih =>
    intro k we recs hk hall
    obtain ⟨hcfg, hcreate, hheader, idx, hidx, hname⟩ := hall k (Nat.le_refl k) (by omega)
    obtain ⟨nickname, hnick, hsel⟩ := recording_name_split serials nicknames idx _ hname
    obtain ⟨c, hc⟩ := getElem?_of_lt_length configs k configs.length rfl hcfg
    subst hk
    have hset :
        ((recs ++
            [({ path := recording_full_path sdk.separator save_path sdk.now (names recs.length)
                dev := recs.length, header := false, written := [] } : record)]).set recs.length
          { path := recording_full_path sdk.separator save_path sdk.now (names recs.length)
            dev := recs.length, header := true, written := [] }) =
        recs ++
          [({ path := recording_full_path sdk.separator save_path sdk.now (names recs.length)
              dev := recs.length, header := true, written := [] } : record)] := by
      simp
    obtain ⟨we1, recs1, hloop, hlen1, hold1, hnew1⟩ := ih (recs.length + 1) (we ++ [false])
      (recs ++
        [{ path := recording_full_path sdk.separator save_path sdk.now (names recs.length)
           dev := recs.length, header := true, written := [] }])
      (by simp)
      (fun i h1 h2 => hall i (by omega) (by omega))
    refine ⟨we1, recs1, ?_, by omega, ?_, ?_⟩
    · rw [List.range'_succ]
      simp only [initialize_recordings_loop, hidx, hnick, hsel, hc, hcreate, hheader,
        List.getElem?_concat_length, if_true, hset]
      exact hloop
    · intro i hi
      rw [hold1 i (by omega), List.getElem?_append_left hi]
    · intro i h1 h2
      by_cases hik : i = recs.length
      · subst hik
        rw [hold1 recs.length (by omega), List.getElem?_concat_length]
      · exact hnew1 i (by omega) (by omega)

theorem initialize_recordings_spec (sdk : Sdk) (devices : List device)
    (configs : List k4a_device_configuration_t) (device_idxs : List Nat)
    (serials nicknames : List String) (save_path : String)
    (hcfg : devices.length ≤ configs.length)
    (hok : ∀ i, i < devices.length →
      sdk.record_create_ok i = true ∧ sdk.write_header_ok i = true)
    (hnames : ∀ i, i < devices.length →
      ∃ idx name, device_idxs[i]? = some idx ∧
        recording_name serials nicknames idx = some name) :
    ∃ we recs,
      initialize_recordings sdk true devices configs device_idxs serials nicknames save_path =
          ((we, recs), none) ∧
        recs.length = devices.length ∧
        ∀ i idx name, i < devices.length → device_idxs[i]? = some idx →
          recording_name serials nicknames idx = some name →
          recs[i]? = some
            { path := recording_full_path sdk.separator save_path sdk.now name
              dev := i, header := true, written := [] } := by
  obtain ⟨we, recs, hloop, hlen, _, hnew⟩ :=
    initialize_recordings_loop_spec sdk configs device_idxs serials nicknames save_path
      (fun i => match device_idxs[i]? with
        | some idx => (recording_name serials nicknames idx).getD ""
        | none => "")
      devices.length 0 [] [] rfl
      (by
        intro i _ hi
        have hi' : i < devices.length := by omega
        obtain ⟨idx, name, hidx, hname⟩ := hnames i hi'
        refine ⟨by omega, (hok i hi').1, (hok i hi').2, idx, hidx, ?_⟩
        simp only [hidx, hname, Option.getD_some])
  refine ⟨we, recs, ?_, by omega, ?_⟩
  · unfold initialize_recordings
    rw [List.range_eq_range']
    exact hloop
  · intro i idx name hi hidx hname
    have := hnew i (Nat.zero_le i) (by omega)
    simp only [hidx, hname, Option.getD_some] at this
    exact this

/-! ## Recording files -/

/-- Claim C13. When recording is enabled, the configuration list covers the devices, every
device position has an installed-device index with a nickname entry (and a serial entry when
the nickname is empty), and the SDK creates every recording: `initialize_recordings` returns
with one recording per device, and the recording of device `i` is created at
`std::filesystem::path(save_path) / (t + "_" + name + ".mkv")`, which is
`save_path`, the separator, `t`, "_", `name`, ".mkv" when `save_path` is not empty and does
not end with the separator. Here `t` is the decimal rendering of the one clock value read
before the loop, the same for all devices, and `name` is the nickname of the device if it is
not empty and its serial number otherwise. -/
theorem recording_file_paths (sdk : Sdk) (devices : List device)
    (configs : List k4a_device_configuration_t) (device_idxs : List Nat)
    (serials nicknames : List String) (save_path : String)
    (hcfg : devices.length ≤ configs.length)
    (hok : ∀ i, i < devices.length →
      sdk.record_create_ok i = true ∧ sdk.write_header_ok i = true)
    (hnames : ∀ i, i < devices.length →
      ∃ idx name, device_idxs[i]? = some idx ∧
        recording_name serials nicknames idx = some name) :
    (∃ we recs,
      initialize_recordings sdk true devices configs device_idxs serials nicknames save_path =
          ((we, recs), none) ∧
        recs.length = devices.length ∧
        ∀ i idx name, i < devices.length → device_idxs[i]? = some idx →
          recording_name serials nicknames idx = some name →
          ∃ r, recs[i]? = some r ∧ r.dev = i ∧
            r.path = path_append sdk.separator save_path
              (toString sdk.now ++ "_" ++ name ++ ".mkv") ∧
            (save_path.isEmpty = false → save_path.back ≠ sdk.separator →
              r.path = save_path ++ String.singleton sdk.separator ++
                (toString sdk.now ++ "_" ++ name ++ ".mkv"))) ∧
    (∀ idx nickname, nicknames[idx]? = some nickname →
      recording_name serials nicknames idx =
        if nickname.isEmpty then serials[idx]? else some nickname) := by
  refine ⟨?_, ?_⟩
  · obtain ⟨we, recs, hinit, hlen, hrecs⟩ :=
      initialize_recordings_spec sdk devices configs device_idxs serials nicknames save_path
        hcfg hok hnames
    refine ⟨we, recs, hinit, hlen, ?_⟩
    intro i idx name hi hidx hname
    refine ⟨_, hrecs i idx name hi hidx hname, rfl, rfl, ?_⟩
    intro hne hback
    show path_append sdk.separator save_path (toString sdk.now ++ "_" ++ name ++ ".mkv") = _
    unfold path_append
    simp [hne, hback]
  · intro idx nickname hnick
    unfold recording_name
    rw [hnick]

/-- Witness of claim C13: two devices, the first with nickname "left", the second without
nickname and with serial number "000456", save path "rec" and clock value 1700000000. The
files are "rec/1700000000_left.mkv" and "rec/1700000000_000456.mkv". -/
theorem recording_file_paths_witness :
    ∃ we recs,
      initialize_recordings example_sdk true [{ index := 0 }, { index := 1 }]
          example_idle.configs [0, 1] ["000123", "000456"] ["left", ""] "rec" =
        ((we, recs), none) ∧
      recs.map (fun r => r.path) = ["rec/1700000000_left.mkv", "rec/1700000000_000456.mkv"] := by
  obtain ⟨we, recs, hinit, hlen, hrecs⟩ :=
    (recording_file_paths example_sdk [{ index := 0 }, { index := 1 }] example_idle.configs
      [0, 1] ["000123", "000456"] ["left", ""] "rec" (by decide)
      (fun _ _ => ⟨rfl, rfl⟩)
      (by
        intro i hi
        have hi' : i = 0 ∨ i = 1 := by simp at hi; omega
        rcases hi' with rfl | rfl
        · exact ⟨0, "left", rfl, rfl⟩
        · exact ⟨1, "000456", rfl, rfl⟩)).1
  refine ⟨we, recs, hinit, ?_⟩
  obtain ⟨r0, h0, _, hp0, _⟩ := hrecs 0 0 "left" (by decide) rfl rfl
  obtain ⟨r1, h1, _, hp1, _⟩ := hrecs 1 1 "000456" (by decide) rfl rfl
  have hl : recs.length = 2 := hlen
  match recs, hl, h0, h1 with
  | [a, b], _, h0, h1 =>
    simp only [List.getElem?_cons_zero, List.getElem?_cons_succ, Option.some.injEq] at h0 h1
    subst h0 h1
    rw [List.map_cons, List.map_cons, List.map_nil, hp0, hp1]
    decide

/-- Counterexample to claim C14: two enabled devices whose nicknames are both "cam". The
recordings of the two distinct devices are created at the same path. -/
theorem same_nickname_same_path :
    ∃ we r0 r1,
      initialize_recordings example_sdk true [{ index := 0 }, { index := 1 }]
          example_idle.configs [0, 1] ["000123", "000456"] ["cam", "cam"] "rec" =
        ((we, [r0, r1]), none) ∧
      r0.dev = 0 ∧ r1.dev = 1 ∧ r0.path = r1.path ∧ r0.path = "rec/1700000000_cam.mkv" :=
  ⟨[false, false],
    { path := "rec/1700000000_cam.mkv", dev := 0, header := true, written := [] },
    { path := "rec/1700000000_cam.mkv", dev := 1, header := true, written := [] },
    by decide, rfl, rfl, rfl, rfl⟩

/-- Claim C14, amended. Under the conditions of claim C13, two devices of the same session
whose names (nickname if not empty, serial number otherwise) differ get recordings at
different paths. -/
theorem distinct_names_distinct_paths (sdk : Sdk) (devices : List device)
    (configs : List k4a_device_configuration_t) (device_idxs : List Nat)
    (serials nicknames : List String) (save_path : String)
    (hcfg : devices.length ≤ configs.length)
    (hok : ∀ i, i < devices.length →
      sdk.record_create_ok i = true ∧ sdk.write_header_ok i = true)
    (hnames : ∀ i, i < devices.length →
      ∃ idx name, device_idxs[i]? = some idx ∧
        recording_name serials nicknames idx = some name) :
    ∃ we recs,
      initialize_recordings sdk true devices configs device_idxs serials nicknames save_path =
          ((we, recs), none) ∧
        ∀ i j idx_i idx_j name_i name_j, i < devices.length → j < devices.length →
          device_idxs[i]? = some idx_i → device_idxs[j]? = some idx_j →
          recording_name serials nicknames idx_i = some name_i →
          recording_name serials nicknames idx_j = some name_j →
          name_i ≠ name_j →
          ∃ ri rj, recs[i]? = some ri ∧ recs[j]? = some rj ∧ ri.path ≠ rj.path := by
  obtain ⟨we, recs, hinit, _, hrecs⟩ :=
    initialize_recordings_spec sdk devices configs device_idxs serials nicknames save_path
      hcfg hok hnames
  refine ⟨we, recs, hinit, ?_⟩
  intro i j idx_i idx_j name_i name_j hi hj hidx_i hidx_j hname_i hname_j hne
  refine ⟨_, _, hrecs i idx_i name_i hi hidx_i hname_i, hrecs j idx_j name_j hj hidx_j hname_j,
    ?_⟩
  intro hpath
  exact hne (recording_full_path_injective sdk.separator save_path sdk.now name_i name_j hpath)

/-- Witness of the amended claim C14: the devices named "left" and "000456" get different
recording paths. -/
theorem distinct_names_distinct_paths_witness :
    ∃ we recs,
      initialize_recordings example_sdk true [{ index := 0 }, { index := 1 }]
          example_idle.configs [0, 1] ["000123", "000456"] ["left", ""] "rec" =
        ((we, recs), none) ∧
      ∃ r0 r1, recs[0]? = some r0 ∧ recs[1]? = some r1 ∧ r0.path ≠ r1.path := by
  obtain ⟨we, recs, hinit, hdist⟩ :=
    distinct_names_distinct_paths example_sdk [{ index := 0 }, { index := 1 }]
      example_idle.configs [0, 1] ["000123", "000456"] ["left", ""] "rec" (by decide)
      (fun _ _ => ⟨rfl, rfl⟩)
      (by
        intro i hi
        have hi' : i = 0 ∨ i = 1 := by simp at hi; omega
        rcases hi' with rfl | rfl
        · exact ⟨0, "left", rfl, rfl⟩
        · exact ⟨1, "000456", rfl, rfl⟩)
  exact ⟨we, recs, hinit,
    hdist 0 1 0 1 "left" "000456" (by decide) (by decide) rfl rfl rfl rfl (by decide)⟩

/-! ## Configuration loading -/

/-- Claim C15, evaluated on the code. A document whose color format name "RGB" and sync mode
name "Primary" are in no table and whose fps is 30 is loaded without failure: `index_of`
returns -1 for both names and `load_config_json` stores -1, -1 and 30 in the configuration.
The color format is outside the index range of `COLOR_FORMAT_NAMES`, the fps outside that of
`FPS_MODE_NAMES`, and with the sync mode -1 `start_streaming` issues no start call for the
device. -/
theorem load_keeps_out_of_range_values :
    index_of COLOR_FORMAT_NAMES "RGB" = -1 ∧
    index_of SYNC_MODE_NAMES "Primary" = -1 ∧
    load_config_json (some example_document) ["000123"] example_vars =
      Except.ok
        { available_device_nicknames := ["cam"]
          available_device_checkboxes := [true]
          identical_configs := false
          configs := [{ DEFAULT_CONFIG with
            color_format := -1, color_resolution := 2, depth_mode := 5, camera_fps := 30
            wired_sync_mode := -1 }]
          recording_enabled := false
          continuous_recording := true
          recording_save_path := "" } ∧
    ¬ (0 ≤ (load_config_entry example_document "000123").color_format ∧
      (load_config_entry example_document "000123").color_format <
        (COLOR_FORMAT_NAMES.length : Int)) ∧
    ¬ (0 ≤ (load_config_entry example_document "000123").camera_fps ∧
      (load_config_entry example_document "000123").camera_fps <
        (FPS_MODE_NAMES.length : Int)) ∧
    start_streaming (fun _ => true) [{ index := 0 }]
      [load_config_entry example_document "000123"] = ([], none) :=
  ⟨by decide, by decide, rfl, by decide, by decide, by decide⟩

/-! ## Stop Streaming and pending tasks -/

/-- Claim C16, evaluated on the code. Two devices stream with continuous recording; in one
frame device 0 yields a capture and the dispatch loop pushes a task that carries the address
of `recordings[0]`. Stop Streaming is pressed before a worker has run the task: the handler
completes, `recordings` is empty, and the task is still in the pool. When a worker then runs
the task, the sink it points at no longer exists. -/
theorem stop_destroys_sink_of_pending_job :
    tick (only_device 0 example_capture) (example_streaming true) =
      Except.ok example_after_tick ∧
    example_after_tick.tasks = [example_pending_job] ∧
    example_after_tick.recordings.length = 2 ∧
    streaming_button example_sdk example_after_tick = Except.ok example_after_stop ∧
    example_after_stop.streaming = false ∧
    example_after_stop.recordings = [] ∧
    example_after_stop.tasks = [example_pending_job] ∧
    run_job (fun _ => (0, [])) example_after_stop example_pending_job =
      Except.error Fault.undefined ∧
    (∃ s, run_job (fun _ => (0, [])) example_after_tick example_pending_job = Except.ok s ∧
      (s.recordings.map (fun r => r.written.length)) = [1, 0]) :=
  ⟨rfl, by decide, by decide, rfl, by decide, by decide, by decide, rfl, ⟨_, rfl, by decide⟩⟩

/-! ## Worker count -/

theorem num_threads_le (n h : Nat) : num_threads n h ≤ 2 * (n : Int) := by
  unfold num_threads
  exact min_le_left _ _

theorem num_threads_pos (n h : Nat) (hn : 1 ≤ n) (h2 : 2 ≤ h) (hh : h ≤ 2 ^ 31) :
    1 ≤ num_threads n h := by
  unfold num_threads
  norm_num at hh ⊢
  omega

/-- Claim C24, evaluated on the code. With at least one enabled device, a platform that
reports hardware concurrency 0 gives the worker count -1 (the unsigned subtraction wraps to
`2^32 - 1`, which is -1 as an `int`), and a platform that reports 1 gives the worker count
0; neither is at least 1. The count never exceeds twice the number of enabled devices. -/
theorem worker_count_not_positive (n : Nat) :
    num_threads (n + 1) 0 = -1 ∧ num_threads (n + 1) 1 = 0 ∧
    ∀ h, num_threads (n + 1) h ≤ 2 * ((n + 1 : Nat) : Int) := by
  refine ⟨?_, ?_, fun h => num_threads_le (n + 1) h⟩
  · unfold num_threads
    norm_num
    omega
  · unfold num_threads
    norm_num
    omega

/-! ## Lemmas on binary64 rounding -/

theorem bit_length_zero (fuel : Nat) : bit_length fuel 0 = 0 := by
  cases fuel <;> simp [bit_length]

theorem bit_length_spec (fuel : Nat) :
    ∀ n, n ≤ fuel → 0 < n →
      2 ^ (bit_length fuel n - 1) ≤ n ∧ n < 2 ^ bit_length fuel n ∧ 0 < bit_length fuel n := by
  induction fuel with
  | zero =>
    intro n h0 hpos
    omega
  | succ fuel ih =>
    intro n hle hpos
    have hne : n ≠ 0 := by omega
    simp only [bit_length, hne, if_false, Nat.add_sub_cancel]
    by_cases hhalf : n / 2 = 0
    · rw [hhalf, bit_length_zero]
      have h1 : n = 1 := by omega
      subst h1
      simp
    · obtain ⟨hlo, hhi, hlen⟩ := ih (n / 2) (by omega) (by omega)
      have hpow : 2 ^ bit_length fuel (n / 2) = 2 * 2 ^ (bit_length fuel (n / 2) - 1) := by
        rw [← Nat.pow_succ']
        congr 1
        omega
      have hpow1 : 2 ^ (bit_length fuel (n / 2) + 1) = 2 * 2 ^ bit_length fuel (n / 2) :=
        Nat.pow_succ'
      refine ⟨?_, ?_, by omega⟩
      · omega
      · omega

theorem round_half_even_bounds (n d : Nat) (hd : 0 < d) :
    2 * (round_half_even n d * d) ≤ 2 * n + d ∧ 2 * n ≤ 2 * (round_half_even n d * d) + d := by
  have hdm := Nat.div_add_mod n d
  have hmod := Nat.mod_lt n hd
  have hsucc : (n / d + 1) * d = d * (n / d) + d := by
    rw [Nat.add_mul, Nat.one_mul, Nat.mul_comm]
  have hcomm : n / d * d = d * (n / d) := Nat.mul_comm _ _
  unfold round_half_even
  simp only []
  split_ifs <;> simp only [hsucc, hcomm] <;> omega

theorem round_bounds (n : Nat) (e : Int) :
    ∃ k : Nat, (Double.round n e).e = e + (k : Int) ∧ (k = 0 ∨ 2 ^ (52 + k) ≤ n) ∧
      (Double.round n e).m * 2 ^ k * 2 ^ 53 ≤ n * (2 ^ 53 + 1) ∧
      n * (2 ^ 53 - 1) ≤ (Double.round n e).m * 2 ^ k * 2 ^ 53 := by
  by_cases hlen : bit_length n n ≤ 53
  · refine ⟨0, by simp [Double.round, hlen], Or.inl rfl, ?_, ?_⟩
    · simp only [Double.round, hlen, if_true, Nat.pow_zero, Nat.mul_one]
      norm_num
      omega
    · simp only [Double.round, hlen, if_true, Nat.pow_zero, Nat.mul_one]
      norm_num
      omega
  · have hpos : 0 < n := by
      rcases Nat.eq_zero_or_pos n with h | h
      · rw [h, bit_length_zero] at hlen
        omega
      · exact h
    obtain ⟨hlo, _, _⟩ := bit_length_spec n n (Nat.le_refl n) hpos
    obtain ⟨hub, hlb⟩ :=
      round_half_even_bounds n (2 ^ (bit_length n n - 53)) (Nat.two_pow_pos _)
    have hsplit : 2 ^ (bit_length n n - 1) = 2 ^ (bit_length n n - 53) * 2 ^ 52 := by
      rw [← Nat.pow_add]
      congr 1
      omega
    have hexp : 52 + (bit_length n n - 53) = bit_length n n - 1 := by omega
    refine ⟨bit_length n n - 53, by simp [Double.round, hlen], Or.inr (by rw [hexp]; exact hlo),
      ?_, ?_⟩
    · simp only [Double.round, hlen, if_false]
      rw [hsplit] at hlo
      generalize round_half_even n (2 ^ (bit_length n n - 53)) * 2 ^ (bit_length n n - 53) = P
        at hub hlb ⊢
      generalize 2 ^ (bit_length n n - 53) = d at hub hlb hlo
      norm_num at hlo ⊢
      omega
    · simp only [Double.round, hlen, if_false]
      rw [hsplit] at hlo
      generalize round_half_even n (2 ^ (bit_length n n - 53)) * 2 ^ (bit_length n n - 53) = P
        at hub hlb ⊢
      generalize 2 ^ (bit_length n n - 53) = d at hub hlb hlo
      norm_num at hlo ⊢
      omega

theorem trunc_mul_bounds (s M E : Nat) (hs : s * M < 2 ^ 69) (hE : 16 < E) :
    ∃ P, Double.trunc (Double.mul_nat s { m := M, e := -(E : Int) }) * 2 ^ E ≤ P ∧
      P < (Double.trunc (Double.mul_nat s { m := M, e := -(E : Int) }) + 1) * 2 ^ E ∧
      P * 2 ^ 53 ≤ s * M * (2 ^ 53 + 1) ∧ s * M * (2 ^ 53 - 1) ≤ P * 2 ^ 53 := by
  obtain ⟨k, he, hk, hub, hlb⟩ := round_bounds (s * M) (-(E : Int))
  have hk16 : k ≤ 16 := by
    rcases hk with h | h
    · omega
    · have hlt : 2 ^ (52 + k) < 2 ^ 69 := Nat.lt_of_le_of_lt h hs
      have := (Nat.pow_lt_pow_iff_right (by norm_num : 1 < 2)).1 hlt
      omega
  have hmul : Double.mul_nat s { m := M, e := -(E : Int) } = Double.round (s * M) (-(E : Int)) :=
    rfl
  rw [hmul]
  have hneg : ¬ (0 ≤ (Double.round (s * M) (-(E : Int))).e) := by
    rw [he]
    omega
  have htoNat : (-(Double.round (s * M) (-(E : Int))).e).toNat = E - k := by
    rw [he]
    omega
  have htrunc : Double.trunc (Double.round (s * M) (-(E : Int))) =
      (Double.round (s * M) (-(E : Int))).m / 2 ^ (E - k) := by
    unfold Double.trunc
    rw [if_neg hneg, htoNat]
  have hpow : 2 ^ E = 2 ^ (E - k) * 2 ^ k := by
    rw [← Nat.pow_add]
    congr 1
    omega
  refine ⟨(Double.round (s * M) (-(E : Int))).m * 2 ^ k, ?_, ?_, hub, hlb⟩
  · rw [htrunc, hpow, ← Nat.mul_assoc]
    exact Nat.mul_le_mul_right _ (Nat.div_mul_le_self _ _)
  · rw [htrunc, hpow, ← Nat.mul_assoc]
    refine Nat.mul_lt_mul_of_pos_right ?_ (Nat.two_pow_pos _)
    have hD : 0 < 2 ^ (E - k) := Nat.two_pow_pos (E - k)
    generalize (Double.round (s * M) (-(E : Int))).m = m
    generalize 2 ^ (E - k) = D at hD
    have hdm := Nat.div_add_mod m D
    have hmod := Nat.mod_lt m hD
    have hsucc : (m / D + 1) * D = D * (m / D) + D := by
      rw [Nat.add_mul, Nat.one_mul, Nat.mul_comm]
    rw [hsucc]
    omega

/-! ## Lemmas on the IR normalization formula -/

theorem scale_factor_active :
    scale_factor K4A_DEPTH_MODE_NFOV_UNBINNED = { m := 4593671619917906, e := -54 } := by
  decide

theorem scale_factor_passive :
    scale_factor K4A_DEPTH_MODE_PASSIVE_IR = { m := 5742089524897382, e := -51 } := by
  decide

theorem expected_max_active (depth_mode : Int) (h : depth_mode ≠ K4A_DEPTH_MODE_PASSIVE_IR) :
    expected_pixel_range_max depth_mode = 1000 := by
  simp [expected_pixel_range_max, h]

theorem out_value_active (depth_mode : Int) (s : Nat)
    (h : depth_mode ≠ K4A_DEPTH_MODE_PASSIVE_IR) :
    out_value depth_mode s = out_value K4A_DEPTH_MODE_NFOV_UNBINNED s := by
  unfold out_value scaled_value scale_factor
  rw [expected_max_active depth_mode h,
    expected_max_active K4A_DEPTH_MODE_NFOV_UNBINNED (by decide)]

theorem out_value_saturated (depth_mode : Int) (s : Nat)
    (h1 : 256 ≤ Double.trunc (Double.mul_nat s (scale_factor depth_mode)))
    (h2 : Double.trunc (Double.mul_nat s (scale_factor depth_mode)) < 65536) :
    out_value depth_mode s = 255 := by
  unfold out_value scaled_value
  have hmod : Double.trunc (Double.mul_nat s (scale_factor depth_mode)) % 2 ^ 16 =
      Double.trunc (Double.mul_nat s (scale_factor depth_mode)) :=
    Nat.mod_eq_of_lt (by norm_num; exact h2)
  rw [hmod, if_pos (by omega)]

theorem out_value_active_high (s : Nat) (h1 : 1024 ≤ s) (h2 : s < 65536) :
    out_value K4A_DEPTH_MODE_NFOV_UNBINNED s = 255 := by
  have hb := trunc_mul_bounds s 4593671619917906 54 (by norm_num; omega) (by norm_num)
  obtain ⟨P, hP1, hP2, hP3, hP4⟩ := hb
  have hsf : scale_factor K4A_DEPTH_MODE_NFOV_UNBINNED =
      { m := 4593671619917906, e := -((54 : Nat) : Int) } := scale_factor_active
  apply out_value_saturated
  · rw [hsf]
    generalize Double.trunc (Double.mul_nat s { m := 4593671619917906, e := -((54 : Nat) : Int) })
      = T at hP1 hP2
    norm_num at hP1 hP2 hP3 hP4
    omega
  · rw [hsf]
    generalize Double.trunc (Double.mul_nat s { m := 4593671619917906, e := -((54 : Nat) : Int) })
      = T at hP1 hP2
    norm_num at hP1 hP2 hP3 hP4
    omega

theorem out_value_passive_high (s : Nat) (h1 : 128 ≤ s) (h2 : s ≤ 25700) :
    out_value K4A_DEPTH_MODE_PASSIVE_IR s = 255 := by
  have hb := trunc_mul_bounds s 5742089524897382 51 (by norm_num; omega) (by norm_num)
  obtain ⟨P, hP1, hP2, hP3, hP4⟩ := hb
  have hsf : scale_factor K4A_DEPTH_MODE_PASSIVE_IR =
      { m := 5742089524897382, e := -((51 : Nat) : Int) } := scale_factor_passive
  apply out_value_saturated
  · rw [hsf]
    generalize Double.trunc (Double.mul_nat s { m := 5742089524897382, e := -((51 : Nat) : Int) })
      = T at hP1 hP2
    norm_num at hP1 hP2 hP3 hP4
    omega
  · rw [hsf]
    generalize Double.trunc (Double.mul_nat s { m := 5742089524897382, e := -((51 : Nat) : Int) })
      = T at hP1 hP2
    norm_num at hP1 hP2 hP3 hP4
    omega

set_option maxRecDepth 100000 in
theorem out_value_active_low :
    ∀ s, s < 1024 → out_value K4A_DEPTH_MODE_NFOV_UNBINNED s = min 255 (s * 255 / 1000) := by
  decide!

set_option maxRecDepth 100000 in
theorem out_value_passive_low :
    ∀ s, s < 128 → s ≠ 100 → out_value K4A_DEPTH_MODE_PASSIVE_IR s = min 255 (s * 255 / 100) := by
  decide!

/-! ## IR normalization formula -/

/-- Away from the passive-IR sample 100 the code agrees with the exact formula: for every
depth mode and every 16-bit sample `s` whose exact scaled value
`s * 255 / expected_pixel_range_max` is below 65536, other than the sample 100 in passive-IR
mode, the output pixel is `min 255 (s * 255 / expected_pixel_range_max)` with the division
rounded down. In the active-depth modes the scaled value of every 16-bit sample is at most
16711, so the formula holds there for every sample, and in every mode the sample 0 gives the
output 0. -/
theorem ir_formula_off_boundary (depth_mode : Int) (s : Nat) (hs : s < 2 ^ 16) :
    (s * 255 / expected_pixel_range_max depth_mode < 65536 →
      ¬ (depth_mode = K4A_DEPTH_MODE_PASSIVE_IR ∧ s = 100) →
      out_value depth_mode s = min 255 (s * 255 / expected_pixel_range_max depth_mode)) ∧
    (depth_mode ≠ K4A_DEPTH_MODE_PASSIVE_IR →
      s * 255 / expected_pixel_range_max depth_mode ≤ 16711 ∧
      out_value depth_mode s = min 255 (s * 255 / expected_pixel_range_max depth_mode)) ∧
    out_value depth_mode 0 = 0 := by
  have hactive : depth_mode ≠ K4A_DEPTH_MODE_PASSIVE_IR →
      s * 255 / expected_pixel_range_max depth_mode ≤ 16711 ∧
      out_value depth_mode s = min 255 (s * 255 / expected_pixel_range_max depth_mode) := by
    intro hd
    rw [expected_max_active depth_mode hd, out_value_active depth_mode s hd]
    refine ⟨by omega, ?_⟩
    by_cases hlow : s < 1024
    · exact out_value_active_low s hlow
    · rw [out_value_active_high s (by omega) (by omega)]
      omega
  refine ⟨?_, hactive, ?_⟩
  · intro hlt hne
    by_cases hd : depth_mode = K4A_DEPTH_MODE_PASSIVE_IR
    · subst hd
      have hmax : expected_pixel_range_max K4A_DEPTH_MODE_PASSIVE_IR = 100 := by decide
      rw [hmax] at hlt ⊢
      by_cases hlow : s < 128
      · exact out_value_passive_low s hlow (fun h => hne ⟨rfl, h⟩)
      · rw [out_value_passive_high s (by omega) (by omega)]
        omega
    · exact (hactive hd).2
  · by_cases hd : depth_mode = K4A_DEPTH_MODE_PASSIVE_IR
    · subst hd
      decide
    · rw [out_value_active depth_mode 0 hd]
      decide

/-- Claim C23, evaluated on the code. In passive-IR mode the raw sample 100 has the exact
scaled value 100 * 255 / 100 = 255, which is below 65536, so the formula gives
min(255, 255) = 255. The code multiplies the sample by the `double` nearest to 2.55, which
lies below 2.55; the product is just below 255 and its truncation writes 254. In the
active-depth modes the sample 1000, the expected maximum there, gives 255. The formula
therefore does not hold for every depth mode and sample. -/
theorem ir_formula_fails_at_boundary :
    (100 < 2 ^ 16 ∧
      100 * 255 / expected_pixel_range_max K4A_DEPTH_MODE_PASSIVE_IR < 65536 ∧
      min 255 (100 * 255 / expected_pixel_range_max K4A_DEPTH_MODE_PASSIVE_IR) = 255 ∧
      scale_factor K4A_DEPTH_MODE_PASSIVE_IR = { m := 5742089524897382, e := -51 } ∧
      Double.trunc (Double.mul_nat 100 (scale_factor K4A_DEPTH_MODE_PASSIVE_IR)) = 254 ∧
      out_value K4A_DEPTH_MODE_PASSIVE_IR 100 = 254 ∧
      out_value K4A_DEPTH_MODE_NFOV_UNBINNED 1000 = 255) ∧
    ¬ (∀ (depth_mode : Int) (s : Nat), s < 2 ^ 16 →
        s * 255 / expected_pixel_range_max depth_mode < 65536 →
        out_value depth_mode s = min 255 (s * 255 / expected_pixel_range_max depth_mode)) := by
  refine ⟨by decide, ?_⟩
  intro h
  have h100 := h K4A_DEPTH_MODE_PASSIVE_IR 100 (by decide) (by decide)
  revert h100
  decide

/-! ## Lemmas on the drain statements -/

theorem drain_queue_cells (queues : List (SPSCQueue Image)) (disps : List (Option Image))
    (i n : Nat) (hq : queues.length = n) (hd : disps.length = n) (hi : i < n) :
    ∃ q1 d1, drain_queue queues disps i = Except.ok (q1, d1) ∧
      ∀ k q d, queues[k]? = some q → disps[k]? = some d →
        q1[k]? = some (if k = i then (if q.empty then q else q.pop) else q) ∧
        d1[k]? = some (if k = i then (if q.empty then d else q.front) else d) := by
  obtain ⟨q0, hq0⟩ := getElem?_of_lt_length queues i n hq hi
  obtain ⟨d0, hd0⟩ := getElem?_of_lt_length disps i n hd hi
  by_cases he : q0.empty = true
  · refine ⟨queues, disps, by simp [drain_queue, hq0, hd0, he], ?_⟩
    intro k q d hkq hkd
    by_cases hki : k = i
    · subst hki
      rw [hq0] at hkq
      cases hkq
      simp [he, hq0, hkd]
    · simp [hki, hkq, hkd]
  · refine ⟨queues.set i q0.pop, disps.set i q0.front, by simp [drain_queue, hq0, hd0, he], ?_⟩
    intro k q d hkq hkd
    by_cases hki : k = i
    · subst hki
      rw [hq0] at hkq
      cases hkq
      have h1 : k < queues.length := by omega
      have h2 : k < disps.length := by omega
      simp [he, List.getElem?_set, h1, h2]
    · have hik : ¬ i = k := fun h => hki h.symm
      simp [hki, hik, List.getElem?_set, hkq, hkd]

theorem drain_device_cells (s : State) (i : Nat) (hr : s.ready) (hi : i < s.num_enabled_devices) :
    ∃ s1, drain_device s i = Except.ok s1 ∧
      (∀ k q d, s.color_queues[k]? = some q → s.color_disps[k]? = some d →
        s1.color_queues[k]? = some (if k = i then (if q.empty then q else q.pop) else q) ∧
        s1.color_disps[k]? = some (if k = i then (if q.empty then d else q.front) else d)) ∧
      (∀ k q d, s.ir_queues[k]? = some q → s.ir_disps[k]? = some d →
        s1.ir_queues[k]? = some (if k = i then (if q.empty then q else q.pop) else q) ∧
        s1.ir_disps[k]? = some (if k = i then (if q.empty then d else q.front) else d)) := by
  obtain ⟨_, _, _, hcq, hiq, hcd, hid, _⟩ := hr
  obtain ⟨cq, cd, h1, hc⟩ := drain_queue_cells s.color_queues s.color_disps i _ hcq hcd hi
  obtain ⟨iq, id, h2, hir⟩ := drain_queue_cells s.ir_queues s.ir_disps i _ hiq hid hi
  simp only [drain_device, h1, h2]
  exact ⟨_, rfl, hc, hir⟩

theorem dispatch_device_cells (s : State) (j : Nat) (acq : Acquisition) (hr : s.ready)
    (hj : j < s.num_enabled_devices) (hacq : acq ≠ Acquisition.failed) :
    ∃ s1, dispatch_device s j acq = Except.ok s1 ∧
      (∀ k q d, s.color_queues[k]? = some q → s.color_disps[k]? = some d →
        s1.color_queues[k]? = some (if k = j then (if q.empty then q else q.pop) else q) ∧
        s1.color_disps[k]? = some (if k = j then (if q.empty then d else q.front) else d)) ∧
      (∀ k q d, s.ir_queues[k]? = some q → s.ir_disps[k]? = some d →
        s1.ir_queues[k]? = some (if k = j then (if q.empty then q else q.pop) else q) ∧
        s1.ir_disps[k]? = some (if k = j then (if q.empty then d else q.front) else d)) := by
  obtain ⟨dev, hdev⟩ := getElem?_of_lt_length s.devices j _ hr.2.1 hj
  cases acq with
  | failed => exact absurd rfl hacq
  | timeout =>
    obtain ⟨s1, h1, hc, hir⟩ := drain_device_cells s j hr hj
    exact ⟨s1, by simp [dispatch_device, hdev, h1], hc, hir⟩
  | capture c =>
    obtain ⟨s1, job, h1, hr1, hm1, _, _, _, _, _, _, _, hcq, hiq, hcd, hid, _, _⟩ :=
      submit_capture_spec s j c hr hj
    have hj1 : j < s1.num_enabled_devices := by rw [hm1.2.2.2]; exact hj
    obtain ⟨s2, h2, hc, hir⟩ := drain_device_cells s1 j hr1 hj1
    rw [hcq, hcd] at hc
    rw [hiq, hid] at hir
    exact ⟨s2, by simp [dispatch_device, hdev, h1, h2], hc, hir⟩

theorem dispatch_loop_cells (acq : Nat → Acquisition) (l : List Nat) :
    ∀ s : State, s.ready → (∀ j, j ∈ l → j < s.num_enabled_devices) →
      (∀ j, j ∈ l → acq j ≠ Acquisition.failed) → l.Nodup →
      ∃ s1, dispatch_loop acq l s = Except.ok s1 ∧
        (∀ k q d, s.color_queues[k]? = some q → s.color_disps[k]? = some d →
          s1.color_queues[k]? = some (if k ∈ l then (if q.empty then q else q.pop) else q) ∧
          s1.color_disps[k]? = some (if k ∈ l then (if q.empty then d else q.front) else d)) ∧
        (∀ k q d, s.ir_queues[k]? = some q → s.ir_disps[k]? = some d →
          s1.ir_queues[k]? = some (if k ∈ l then (if q.empty then q else q.pop) else q) ∧
          s1.ir_disps[k]? = some (if k ∈ l then (if q.empty then d else q.front) else d)) := by
  induction l with
  | nil =>
    intro s _ _ _ _
    refine ⟨s, rfl, ?_, ?_⟩ <;>
    · intro k q d hq hd
      simp [hq, hd]
  | cons j rest ih =>
    intro s hr hlt hacq hnd
    have hjn := hlt j (List.mem_cons_self j rest)
    have hja := hacq j (List.mem_cons_self j rest)
    obtain ⟨sj, hsj, hc, hir⟩ := dispatch_device_cells s j (acq j) hr hjn hja
    obtain ⟨sj', hsj', hrj, hmj, _⟩ := dispatch_device_spec s j (acq j) hr hjn hja
    have hsame : sj' = sj := by
      rw [hsj] at hsj'
      cases hsj'
      rfl
    subst hsame
    have hjrest : j ∉ rest := (List.nodup_cons.1 hnd).1
    obtain ⟨s1, hs1, hc1, hir1⟩ := ih sj' hrj
      (fun k hk => by rw [hmj.2.2.2]; exact hlt k (List.mem_cons_of_mem j hk))
      (fun k hk => hacq k (List.mem_cons_of_mem j hk)) (List.nodup_cons.1 hnd).2
    refine ⟨s1, by simp [dispatch_loop, hsj, hs1], ?_, ?_⟩
    · intro k q d hq hd
      obtain ⟨hq', hd'⟩ := hc k q d hq hd
      obtain ⟨hq1, hd1⟩ := hc1 k _ _ hq' hd'
      rw [hq1, hd1]
      by_cases hkj : k = j
      · subst hkj
        simp [hjrest]
      · simp [hkj]
    · intro k q d hq hd
      obtain ⟨hq', hd'⟩ := hir k q d hq hd
      obtain ⟨hq1, hd1⟩ := hir1 k _ _ hq' hd'
      rw [hq1, hd1]
      by_cases hkj : k = j
      · subst hkj
        simp [hjrest]
      · simp [hkj]

theorem tick_cells (acq : Nat → Acquisition) (s : State) (hr : s.ready)
    (hs : s.streaming = true)
    (hacq : ∀ j, j < s.num_enabled_devices → acq j ≠ Acquisition.failed) :
    ∃ s1, tick acq s = Except.ok s1 ∧
      (∀ k q d, k < s.num_enabled_devices →
        s.color_queues[k]? = some q → s.color_disps[k]? = some d →
        s1.color_queues[k]? = some (if q.empty then q else q.pop) ∧
        s1.color_disps[k]? = some (if q.empty then d else q.front)) ∧
      (∀ k q d, k < s.num_enabled_devices →
        s.ir_queues[k]? = some q → s.ir_disps[k]? = some d →
        s1.ir_queues[k]? = some (if q.empty then q else q.pop) ∧
        s1.ir_disps[k]? = some (if q.empty then d else q.front)) := by
  obtain ⟨s1, h1, hc, hir⟩ :=
    dispatch_loop_cells acq (List.range s.num_enabled_devices) s hr
      (fun j hj => List.mem_range.1 hj) (fun j hj => hacq j (List.mem_range.1 hj))
      (List.nodup_range _)
  refine ⟨s1, by simp [tick, hs, h1], ?_, ?_⟩
  · intro k q d hk hq hd
    simpa [List.mem_range.2 hk] using hc k q d hq hd
  · intro k q d hk hq hd
    simpa [List.mem_range.2 hk] using hir k q d hq hd

/-! ## Lemmas on the tasks of one frame -/

theorem dispatch_device_job_queue (s : State) (j : Nat) (a : Acquisition) (hr : s.ready)
    (hj : j < s.num_enabled_devices) (ha : a ≠ Acquisition.failed) :
    ∃ s1 new, dispatch_device s j a = Except.ok s1 ∧ s1.ready ∧ same_mode s s1 ∧
      s1.tasks = s.tasks ++ new ∧
      new.map (fun job => job.color_queue) = (if a.is_valid then [j] else []) ∧
      (∀ job, job ∈ new → job.dispatched_in s ∧ job.color_queue = j ∧
        a = Acquisition.capture job.capture) := by
  obtain ⟨s1, new, h1, hr1, hm1, ht1, _, hjobs, hlen⟩ := dispatch_device_jobs s j a hr hj ha
  refine ⟨s1, new, h1, hr1, hm1, ht1, ?_, hjobs⟩
  cases a with
  | failed => exact absurd rfl ha
  | timeout =>
    have hnil : new = [] := List.eq_nil_of_length_eq_zero hlen
    simp [hnil, Acquisition.is_valid]
  | capture c =>
    obtain ⟨job, hjob⟩ := List.length_eq_one.1 hlen
    have hq := (hjobs job (by simp [hjob])).2.1
    simp [hjob, hq, Acquisition.is_valid]

theorem dispatch_loop_job_queues (acq : Nat → Acquisition) (l : List Nat) :
    ∀ s : State, s.ready → (∀ j, j ∈ l → j < s.num_enabled_devices) →
      (∀ j, j ∈ l → acq j ≠ Acquisition.failed) →
      ∃ s1 new, dispatch_loop acq l s = Except.ok s1 ∧ s1.ready ∧ same_mode s s1 ∧
        s1.tasks = s.tasks ++ new ∧
        new.map (fun job => job.color_queue) = l.filter (fun i => (acq i).is_valid) ∧
        (∀ job, job ∈ new → job.dispatched_in s ∧
          acq job.color_queue = Acquisition.capture job.capture) := by
  induction l with
  | nil =>
    intro s hr _ _
    exact ⟨s, [], rfl, hr, same_mode_refl s, by simp, rfl, by simp⟩
  | cons j rest ih =>
    intro s hr hlt hacq
    obtain ⟨sj, newj, hsj, hrj, hmj, htj, hmapj, hjobs⟩ :=
      dispatch_device_job_queue s j (acq j) hr (hlt j (List.mem_cons_self j rest))
        (hacq j (List.mem_cons_self j rest))
    obtain ⟨s1, new1, hs1, hr1, hm1, ht1, hmap1, hjobs1⟩ := ih sj hrj
      (fun k hk => by rw [hmj.2.2.2]; exact hlt k (List.mem_cons_of_mem j hk))
      (fun k hk => hacq k (List.mem_cons_of_mem j hk))
    refine ⟨s1, newj ++ new1, by simp [dispatch_loop, hsj, hs1], hr1, same_mode_trans hmj hm1,
      by rw [ht1, htj, List.append_assoc], ?_, ?_⟩
    · rw [List.map_append, hmapj, hmap1, List.filter_cons]
      cases (acq j).is_valid <;> simp
    · intro job hjob
      rcases List.mem_append.1 hjob with h | h
      · obtain ⟨h1, h2, h3⟩ := hjobs job h
        exact ⟨h1, by rw [h2]; exact h3⟩
      · obtain ⟨h1, h2⟩ := hjobs1 job h
        refine ⟨?_, h2⟩
        unfold Job.dispatched_in at *
        rw [← hmj.1, ← hmj.2.2.2]
        exact h1

theorem run_job_other_queues (tjDecompress2 : k4a_image → Int × List Nat) (s s1 : State)
    (job : Job) (i : Nat) (h : run_job tjDecompress2 s job = Except.ok s1)
    (hc : job.color_queue ≠ i) (hir : job.ir_queue ≠ i) :
    s1.color_queues[i]? = s.color_queues[i]? ∧ s1.ir_queues[i]? = s.ir_queues[i]? := by
  unfold run_job at h
  split at h
  · split at h
    · cases h
      simp [List.getElem?_set, hc, hir]
    · split at h
      · cases h
      · cases h
        simp [List.getElem?_set, hc, hir]
  · cases h

theorem run_jobs_other_queues (tjDecompress2 : k4a_image → Int × List Nat) (jobs : List Job)
    (i : Nat) :
    ∀ s s1 : State, run_jobs tjDecompress2 s jobs = Except.ok s1 →
      (∀ job, job ∈ jobs → job.color_queue ≠ i ∧ job.ir_queue ≠ i) →
      s1.color_queues[i]? = s.color_queues[i]? ∧ s1.ir_queues[i]? = s.ir_queues[i]? := by
  induction jobs with
  | nil =>
    intro s s1 h _
    cases h
    exact ⟨rfl, rfl⟩
  | cons job jobs ih =>
    intro s s1 h hne
    unfold run_jobs at h
    split at h
    · cases h
    · rename_i s2 h2
      obtain ⟨hjc, hji⟩ := hne job (List.mem_cons_self job jobs)
      obtain ⟨hc2, hi2⟩ := run_job_other_queues tjDecompress2 s s2 job i h2 hjc hji
      obtain ⟨hc1, hi1⟩ := ih s2 s1 h (fun j hj => hne j (List.mem_cons_of_mem job hj))
      exact ⟨hc1.trans hc2, hi1.trans hi2⟩

/-! ## Tasks submitted in one frame -/

/-- Claim C21. In one frame of a streaming state in which no acquisition throws, the dispatch
loop returns and pushes one task per enabled device whose acquisition yielded a valid
capture, in device order: the number of new tasks is the number of such devices. For a
device whose acquisition yielded nothing, no new task points at its display queues, the
frame itself only drains them, and the workers running the new tasks leave them as they
are. -/
theorem tick_jobs_match_captures (tjDecompress2 : k4a_image → Int × List Nat)
    (acq : Nat → Acquisition) (s : State) (hr : s.ready) (hs : s.streaming = true)
    (hacq : ∀ j, j < s.num_enabled_devices → acq j ≠ Acquisition.failed) :
    ∃ s1 new, tick acq s = Except.ok s1 ∧ s1.tasks = s.tasks ++ new ∧
      new.length =
        ((List.range s.num_enabled_devices).filter (fun i => (acq i).is_valid)).length ∧
      new.map (fun job => job.color_queue) =
        (List.range s.num_enabled_devices).filter (fun i => (acq i).is_valid) ∧
      ∀ i, i < s.num_enabled_devices → acq i = Acquisition.timeout →
        (∀ job, job ∈ new → job.color_queue ≠ i ∧ job.ir_queue ≠ i) ∧
        (∀ q, s.color_queues[i]? = some q →
          s1.color_queues[i]? = some (if q.empty then q else q.pop)) ∧
        (∀ q, s.ir_queues[i]? = some q →
          s1.ir_queues[i]? = some (if q.empty then q else q.pop)) ∧
        ∃ s2, run_jobs tjDecompress2 s1 new = Except.ok s2 ∧
          s2.color_queues[i]? = s1.color_queues[i]? ∧ s2.ir_queues[i]? = s1.ir_queues[i]? := by
  obtain ⟨s1, new, h1, hr1, hm1, ht1, hmap, hjobs⟩ :=
    dispatch_loop_job_queues acq (List.range s.num_enabled_devices) s hr
      (fun j hj => List.mem_range.1 hj) (fun j hj => hacq j (List.mem_range.1 hj))
  have htick : tick acq s = Except.ok s1 := by simp [tick, hs, h1]
  obtain ⟨s1', htick', hc, hir⟩ := tick_cells acq s hr hs hacq
  have hsame : s1' = s1 := by
    rw [htick] at htick'
    cases htick'
    rfl
  subst hsame
  refine ⟨s1', new, htick, ht1, ?_, hmap, ?_⟩
  · rw [← hmap, List.length_map]
  · intro i hi hto
    have hother : ∀ job, job ∈ new → job.color_queue ≠ i ∧ job.ir_queue ≠ i := by
      intro job hjob
      obtain ⟨hd, hcap⟩ := hjobs job hjob
      have hne : job.color_queue ≠ i := by
        intro h
        rw [h, hto] at hcap
        cases hcap
      exact ⟨hne, by rw [hd.2.1]; exact hne⟩
    obtain ⟨s2, h2, _, _, _⟩ := run_jobs_spec tjDecompress2 new s1' hr1
      (fun job hjob => dispatched_in_congr s s1' job hm1 (hjobs job hjob).1)
    obtain ⟨cd, hcd⟩ := getElem?_of_lt_length s.color_disps i _ hr.2.2.2.2.2.1 hi
    obtain ⟨id, hid⟩ := getElem?_of_lt_length s.ir_disps i _ hr.2.2.2.2.2.2.1 hi
    exact ⟨hother, fun q hq => (hc i q cd hi hq hcd).1, fun q hq => (hir i q id hi hq hid).1,
      s2, h2, run_jobs_other_queues tjDecompress2 new i s1' s2 h2 hother⟩

/-- Witness of claim C21: devices [master, subordinate], only the subordinate acquires a
capture. Exactly one task is pushed, it points at the queues of the subordinate, and the
color queue of the master is empty after the frame and after the worker ran the task. -/
theorem tick_jobs_match_captures_witness :
    (∃ s1 new, tick (only_device 1 example_capture) (example_streaming false) = Except.ok s1 ∧
      s1.tasks = (example_streaming false).tasks ++ new ∧ new.length = 1 ∧
      ∃ s2, run_jobs (fun _ => (1, [])) s1 new = Except.ok s2 ∧
        s2.color_queues[0]? = s1.color_queues[0]?) ∧
    (example_streaming false).configs.map (fun c => c.wired_sync_mode) =
      [K4A_WIRED_SYNC_MODE_MASTER, K4A_WIRED_SYNC_MODE_SUBORDINATE] ∧
    example_after_subordinate_tick.tasks.map (fun job => job.color_queue) = [1] ∧
    example_after_subordinate_tick.color_queues.map (fun q => q.items.length) = [0, 0] ∧
    (match run_jobs (fun _ => (1, [])) example_after_subordinate_tick
        example_after_subordinate_tick.tasks with
      | Except.ok s2 => s2.color_queues.map (fun q => q.items.length)
      | Except.error _ => []) = [0, 1] := by
  obtain ⟨s1, new, h1, h2, h3, _, h5⟩ :=
    tick_jobs_match_captures (fun _ => (1, [])) (only_device 1 example_capture)
      (example_streaming false) (by decide) (by decide)
      (fun j _ => by unfold only_device; split <;> simp)
  obtain ⟨_, _, _, s2, h6, h7, _⟩ := h5 0 (by decide) (by decide)
  exact ⟨⟨s1, new, h1, h2, by rw [h3]; decide, s2, h6, h7⟩, by decide, by decide, by decide,
    by decide⟩

/-! ## Display queues drained in one frame -/

theorem drain_cases (q : SPSCQueue Image) (d : Option Image) :
    (q.items = [] →
      (if q.empty then q else q.pop) = q ∧ (if q.empty then d else q.front) = d) ∧
    (∀ x rest, q.items = x :: rest →
      (if q.empty then q else q.pop) = { q with items := rest } ∧
      (if q.empty then d else q.front) = some x) := by
  constructor
  · intro h
    simp [SPSCQueue.empty, h]
  · intro x rest h
    simp [SPSCQueue.empty, SPSCQueue.pop, SPSCQueue.front, h]

/-- Claim C22. In one frame of a streaming state in which no acquisition throws, the dispatch
loop returns, and for every enabled device and each of its two display queues: if the queue
is empty, the queue and the displayed frame are unchanged; if the queue holds the frames
`x :: rest`, oldest first, the queue holds `rest` afterwards and `x` is the displayed frame.
So at most one frame leaves each queue. -/
theorem tick_drains_one_frame (acq : Nat → Acquisition) (s : State) (hr : s.ready)
    (hs : s.streaming = true)
    (hacq : ∀ j, j < s.num_enabled_devices → acq j ≠ Acquisition.failed) :
    ∃ s1, tick acq s = Except.ok s1 ∧
      ∀ i, i < s.num_enabled_devices →
        (∃ q d, s.color_queues[i]? = some q ∧ s.color_disps[i]? = some d ∧
          (q.items = [] → s1.color_queues[i]? = some q ∧ s1.color_disps[i]? = some d) ∧
          (∀ x rest, q.items = x :: rest →
            s1.color_queues[i]? = some { q with items := rest } ∧
            s1.color_disps[i]? = some (some x))) ∧
        (∃ q d, s.ir_queues[i]? = some q ∧ s.ir_disps[i]? = some d ∧
          (q.items = [] → s1.ir_queues[i]? = some q ∧ s1.ir_disps[i]? = some d) ∧
          (∀ x rest, q.items = x :: rest →
            s1.ir_queues[i]? = some { q with items := rest } ∧
            s1.ir_disps[i]? = some (some x))) := by
  obtain ⟨s1, h1, hc, hir⟩ := tick_cells acq s hr hs hacq
  refine ⟨s1, h1, ?_⟩
  intro i hi
  obtain ⟨_, _, _, hcq, hiq, hcd, hid, _⟩ := hr
  obtain ⟨cq, hcq'⟩ := getElem?_of_lt_length s.color_queues i _ hcq hi
  obtain ⟨cd, hcd'⟩ := getElem?_of_lt_length s.color_disps i _ hcd hi
  obtain ⟨iq, hiq'⟩ := getElem?_of_lt_length s.ir_queues i _ hiq hi
  obtain ⟨id, hid'⟩ := getElem?_of_lt_length s.ir_disps i _ hid hi
  obtain ⟨hc1, hc2⟩ := hc i cq cd hi hcq' hcd'
  obtain ⟨hi1, hi2⟩ := hir i iq id hi hiq' hid'
  refine ⟨⟨cq, cd, hcq', hcd', ?_, ?_⟩, ⟨iq, id, hiq', hid', ?_, ?_⟩⟩
  · intro h
    obtain ⟨e1, e2⟩ := (drain_cases cq cd).1 h
    rw [hc1, hc2, e1, e2]
    exact ⟨rfl, rfl⟩
  · intro x rest h
    obtain ⟨e1, e2⟩ := (drain_cases cq cd).2 x rest h
    rw [hc1, hc2, e1, e2]
    exact ⟨rfl, rfl⟩
  · intro h
    obtain ⟨e1, e2⟩ := (drain_cases iq id).1 h
    rw [hi1, hi2, e1, e2]
    exact ⟨rfl, rfl⟩
  · intro x rest h
    obtain ⟨e1, e2⟩ := (drain_cases iq id).2 x rest h
    rw [hi1, hi2, e1, e2]
    exact ⟨rfl, rfl⟩

/-- Witness of claim C22: the color queue of device 1 holds one frame and that of device 0
none; after a frame in which no device yields a capture, the frame of device 1 is displayed,
its queue is empty, and device 0 still displays nothing. -/
theorem tick_drains_one_frame_witness :
    (∃ s1, tick (fun _ => Acquisition.timeout) example_with_frame = Except.ok s1 ∧
      s1.color_queues[1]? = some { capacity := 3, items := [] } ∧
      s1.color_disps[1]? =
        some (some { height := 1, width := 1, channels := 4, data := [7] }) ∧
      s1.color_queues[0]? = some { capacity := 3, items := [] } ∧
      s1.color_disps[0]? = some none) ∧
    example_with_frame.color_queues.map (fun q => q.items.length) = [0, 1] ∧
    example_with_frame.color_disps = [none, none] := by
  obtain ⟨s1, h1, h2⟩ :=
    tick_drains_one_frame (fun _ => Acquisition.timeout) example_with_frame (by decide)
      (by decide) (fun _ _ => by simp)
  obtain ⟨⟨q1, d1, hq1, hd1, _, hfull⟩, _⟩ := h2 1 (by decide)
  obtain ⟨⟨q0, d0, hq0, hd0, hempty, _⟩, _⟩ := h2 0 (by decide)
  have e1 : example_with_frame.color_queues[1]? = some { capacity := 3, items :=
      [{ height := 1, width := 1, channels := 4, data := [7] }] } := by decide
  have e0 : example_with_frame.color_queues[0]? = some { capacity := 3, items := [] } := by
    decide
  have f1 : example_with_frame.color_disps[1]? = some none := by decide
  have f0 : example_with_frame.color_disps[0]? = some none := by decide
  rw [e1] at hq1
  rw [e0] at hq0
  rw [f0] at hd0
  cases hq1
  cases hq0
  cases hd0
  obtain ⟨a1, a2⟩ := hfull _ [] rfl
  obtain ⟨b1, b2⟩ := hempty rfl
  exact ⟨⟨s1, h1, a1, a2, b1, b2⟩, by decide, by decide⟩

/-! ## Lemmas on `index_of` and the name tables -/

theorem index_of_from_missing (target : String) (l : List String) :
    ∀ base : Nat, index_of_from target base l = -1 ↔ target ∉ l := by
  induction l with
  | nil =>
    intro base
    simp [index_of_from]
  | cons a rest ih =>
    intro base
    unfold index_of_from
    by_cases h : a = target
    · simp only [h, if_true, List.mem_cons, true_or, not_true_eq_false, iff_false]
      omega
    · have h' : ¬ target = a := fun e => h e.symm
      simp only [h, if_false, List.mem_cons, h', false_or]
      exact ih (base + 1)

theorem index_of_from_nodup (l : List String) :
    ∀ (base i : Nat) (name : String), l.Nodup → l[i]? = some name →
      index_of_from name base l = ((base + i : Nat) : Int) := by
  induction l with
  | nil =>
    intro base i name _ h
    simp at h
  | cons a rest ih =>
    intro base i name hnd h
    obtain ⟨hnot, hnd'⟩ := List.nodup_cons.1 hnd
    unfold index_of_from
    cases i with
    | zero =>
      simp only [List.getElem?_cons_zero, Option.some.injEq] at h
      simp [h]
    | succ i =>
      simp only [List.getElem?_cons_succ] at h
      have hne : ¬ a = name := by
        intro e
        subst e
        exact hnot (List.getElem?_mem h)
      rw [if_neg hne, ih (base + 1) i name hnd' h]
      congr 1
      omega

theorem index_of_name_at (arr : List String) (v : Int) (hnd : arr.Nodup) (h0 : 0 ≤ v)
    (hlt : v < (arr.length : Int)) :
    ∃ name, name_at arr v = Except.ok name ∧ index_of arr name = v := by
  have hi : v.toNat < arr.length := by omega
  obtain ⟨name, hname⟩ := getElem?_of_lt_length arr v.toNat _ rfl hi
  refine ⟨name, by simp [name_at, h0, hname], ?_⟩
  unfold index_of
  rw [index_of_from_nodup arr 0 v.toNat name hnd hname]
  omega

/-! ## Configuration round trip -/

/-- Claim C26. For every configuration whose color format, color resolution, depth mode and
sync mode are valid indices of their name tables (and any fps), `save_config_json` stores
four names and the fps, and `load_config_json`, reading these five values back from a
document, rebuilds the same five fields. For every name table, `index_of` returns `i` for
the name at index `i`, and for every table and name `index_of` returns -1 exactly when the
name is not in the table. -/
theorem save_load_round_trip (config : k4a_device_configuration_t)
    (hf : 0 ≤ config.color_format ∧ config.color_format < (COLOR_FORMAT_NAMES.length : Int))
    (hr : 0 ≤ config.color_resolution ∧
      config.color_resolution < (COLOR_RESOLUTION_NAMES.length : Int))
    (hd : 0 ≤ config.depth_mode ∧ config.depth_mode < (DEPTH_MODE_NAMES.length : Int))
    (hs : 0 ≤ config.wired_sync_mode ∧
      config.wired_sync_mode < (SYNC_MODE_NAMES.length : Int)) :
    (∃ entry, save_config_entry config = Except.ok entry ∧
      ∀ (doc : ConfigJson) (key : String),
        doc.to_string key "color_format" = entry.color_format →
        doc.to_string key "color_resolution" = entry.color_resolution →
        doc.to_string key "depth_mode" = entry.depth_mode →
        doc.to_int key "fps" = entry.fps →
        doc.to_string key "sync_mode" = entry.sync_mode →
        (load_config_entry doc key).color_format = config.color_format ∧
        (load_config_entry doc key).color_resolution = config.color_resolution ∧
        (load_config_entry doc key).depth_mode = config.depth_mode ∧
        (load_config_entry doc key).camera_fps = config.camera_fps ∧
        (load_config_entry doc key).wired_sync_mode = config.wired_sync_mode) ∧
    (∀ T, T ∈ [COLOR_FORMAT_NAMES, COLOR_RESOLUTION_NAMES, DEPTH_MODE_NAMES, FPS_MODE_NAMES,
        SYNC_MODE_NAMES] →
      ∀ (i : Nat) (name : String), T[i]? = some name → index_of T name = (i : Int)) ∧
    (∀ (T : List String) (target : String), index_of T target = -1 ↔ target ∉ T) := by
  refine ⟨?_, ?_, fun T target => index_of_from_missing target T 0⟩
  · obtain ⟨a, ha, ha'⟩ :=
      index_of_name_at COLOR_FORMAT_NAMES config.color_format (by decide) hf.1 hf.2
    obtain ⟨b, hb, hb'⟩ :=
      index_of_name_at COLOR_RESOLUTION_NAMES config.color_resolution (by decide) hr.1 hr.2
    obtain ⟨c, hc, hc'⟩ :=
      index_of_name_at DEPTH_MODE_NAMES config.depth_mode (by decide) hd.1 hd.2
    obtain ⟨d, hd1, hd'⟩ :=
      index_of_name_at SYNC_MODE_NAMES config.wired_sync_mode (by decide) hs.1 hs.2
    refine ⟨{ color_format := a, color_resolution := b, depth_mode := c
              fps := config.camera_fps, sync_mode := d },
      by simp only [save_config_entry, ha, hb, hc, hd1], ?_⟩
    intro doc key e1 e2 e3 e4 e5
    refine ⟨?_, ?_, ?_, ?_, ?_⟩ <;>
      simp only [load_config_entry, e1, e2, e3, e4, e5, ha', hb', hc', hd']
  · intro T hT i name hname
    have hnd : T.Nodup := by
      simp only [List.mem_cons, List.mem_singleton, List.not_mem_nil, or_false] at hT
      rcases hT with rfl | rfl | rfl | rfl | rfl <;> decide
    have h := index_of_from_nodup T 0 i name hnd hname
    unfold index_of
    rw [h]
    congr 1
    omega

/-- Witness of claim C26: the default configuration is stored as "MJPG", "2160p",
"NFOV Unbinned", 2 and "Standalone", and reading these back gives its five fields. -/
theorem save_load_round_trip_witness :
    (∃ entry, save_config_entry DEFAULT_CONFIG = Except.ok entry ∧
      (load_config_entry entry.document "000123").color_format = DEFAULT_CONFIG.color_format ∧
      (load_config_entry entry.document "000123").color_resolution =
        DEFAULT_CONFIG.color_resolution ∧
      (load_config_entry entry.document "000123").depth_mode = DEFAULT_CONFIG.depth_mode ∧
      (load_config_entry entry.document "000123").camera_fps = DEFAULT_CONFIG.camera_fps ∧
      (load_config_entry entry.document "000123").wired_sync_mode =
        DEFAULT_CONFIG.wired_sync_mode) ∧
    save_config_entry DEFAULT_CONFIG =
      Except.ok { color_format := "MJPG", color_resolution := "2160p"
                  depth_mode := "NFOV Unbinned", fps := 2, sync_mode := "Standalone" } ∧
    save_config_json false ["000123", "000456"] ["cam", ""] [true, false] [DEFAULT_CONFIG] "rec"
        true =
      Except.ok
        { identical_configs := false, save_path := some "rec", continuous_recording := some true
          star := none
          devices := [{ serial := "000123", nickname := "cam"
                        config := some { color_format := "MJPG", color_resolution := "2160p"
                                         depth_mode := "NFOV Unbinned", fps := 2
                                         sync_mode := "Standalone" } }] } ∧
    index_of DEPTH_MODE_NAMES "Passive IR" = 5 ∧
    (index_of SYNC_MODE_NAMES "Primary" = -1 ↔ "Primary" ∉ SYNC_MODE_NAMES) := by
  obtain ⟨⟨entry, hentry, hload⟩, htable, hmissing⟩ :=
    save_load_round_trip DEFAULT_CONFIG (by decide) (by decide) (by decide) (by decide)
  exact ⟨⟨entry, hentry,
      hload entry.document "000123" (by simp [SavedConfig.document])
        (by simp [SavedConfig.document]) (by simp [SavedConfig.document])
        (by simp [SavedConfig.document]) (by simp [SavedConfig.document])⟩,
    rfl, rfl, htable DEPTH_MODE_NAMES (by decide) 5 "Passive IR" (by decide),
    hmissing SYNC_MODE_NAMES "Primary"⟩

/-! ## Alignment of the configuration list -/

theorem update_resets_without_flag (serialnum : Nat → String) (v v1 : DeviceListVars)
    (hflag : v.json_loaded_flag = false)
    (hcount : v.num_available_devices ≠ v.last_num_available_devices)
    (h : update_enabled_devices serialnum v = Except.ok v1) :
    v1.configs.length = v1.num_enabled_devices := by
  unfold update_enabled_devices at h
  have hc : (v.num_available_devices != v.last_num_available_devices) = true := by
    simpa using hcount
  simp only [hc, if_true, Bool.true_or] at h
  split at h
  · cases h
  · split at h
    · cases h
    · simp only [hflag] at h
      cases h
      simp

/-- Claim C25, evaluated on the code. Started from the values before the main loop:
(1) with one device installed, a configuration for that device is loaded, and in the next
frame a second device is installed; after the enabled-device update of that frame two
devices are enabled and `configs` has one entry, so `configs[1]` does not exist.
(2) With two devices installed, the operator unticks device 1, loads a configuration that
holds device 0 only (the load leaves the checkboxes as they are, so after the next update
`json_loaded_flag` is still set), and ticks device 1 again; after the update of the next
frame two devices are enabled, the flag has suppressed the reset, and `configs` has one
entry. -/
theorem stale_json_loaded_flag_misaligns_configs :
    (∃ v, after_update [frame_load 1] (frame_idle 2) = Except.ok v ∧
      v.num_enabled_devices = 2 ∧ v.configs.length = 1 ∧ v.configs[1]? = none) ∧
    (∃ v, after_update [frame_click 2 1, frame_load 2] (frame_idle 2) = Except.ok v ∧
      v.num_enabled_devices = 1 ∧ v.configs.length = 1 ∧ v.json_loaded_flag = true) ∧
    (∃ v, after_update [frame_click 2 1, frame_load 2, frame_click 2 1] (frame_idle 2) =
        Except.ok v ∧
      v.num_enabled_devices = 2 ∧ v.configs.length = 1 ∧ v.configs[1]? = none ∧
      v.json_loaded_flag = false) := by
  refine ⟨⟨_, rfl, ?_, ?_, ?_⟩, ⟨_, rfl, ?_, ?_, ?_⟩, ⟨_, rfl, ?_, ?_, ?_, ?_⟩⟩ <;> decide

end AzureKinect
